import Mathlib

/-!
# haws: the stack deployment lifecycle

A shallow embedding of `pkg/stack` (changeset.go, stack.go, template.go) and of
`pkg/haws` (haws.go) of the haws repository, and theorems about it.

Conventions of the embedding

* A Go `error` is identified with its message (`err.Error()`); `nil` is `none`.
* A Go pointer that may be nil is an `Option`; dereferencing `none` is a panic,
  recorded as `Outcome.panic`.
* The remote CloudFormation client is an arbitrary deterministic state machine
  over a world state `σ`; every call made on it is recorded, in order, together
  with what it answered (`Call`).
* `logger.*` and `time.Sleep` have no effect on the results and are left out.
* The loops `for i := 0; i < maxAttempts; i++` are recursions on the number of
  attempts that are left.
* A Go map is an association list read with `get` (the first pair of a key) and
  written with `set`; a `range` over it visits each key with the value `get` gives.
* The interface `Template` is a record of the answers of its reading methods
  (`Template`); where `SetParameterValue` matters, the object behind it is a state
  with its methods (`TemplateObject`), taken as a parameter.
-/

namespace Haws

/-! ## Go values -/

/-- A Go `error` value, identified by its message. -/
structure GoError where
  msg : String
deriving DecidableEq, Repr

/-- The error built by `fmt.Errorf` from an already formatted message. -/
def Errorf (msg : String) : GoError := ⟨msg⟩

/-- How a Go function call ends: it returns a value, or it panics. -/
inductive Outcome (α : Type) where
  | ret (a : α)
  | panic (reason : String)
deriving DecidableEq, Repr

/-- The panic of dereferencing a nil pointer. -/
def nilDeref : String := "invalid memory address or nil pointer dereference"

/-- The panic of indexing a slice out of its range. -/
def indexOutOfRange : String := "index out of range"

/-- Go `strings.HasSuffix`: `len(s) >= len(suffix) && s[len(s)-len(suffix):] == suffix`,
on the characters of the strings (the statuses and suffixes compared are ASCII). -/
def HasSuffix (s suffix : String) : Bool :=
  decide (suffix.data.length ≤ s.data.length) &&
    decide (s.data.drop (s.data.length - suffix.data.length) = suffix.data)

/-- Go `map[string]string`, as an association list in which a key occurs at most once
when it is built with `GoMap.set` from the empty map. -/
abbrev GoMap := List (String × String)

/-- The Go lookup `v, ok := m[k]`. -/
def GoMap.get (m : GoMap) (k : String) : Option String := List.lookup k m

/-- The Go assignment `m[k] = v`. -/
def GoMap.set (m : GoMap) (k v : String) : GoMap :=
  (k, v) :: m.filter (fun e => e.1 ≠ k)

/-! ## AWS SDK types (the fields the repository uses) -/

/-- The SDK constant `types.ChangeSetStatusCreateComplete`. -/
def ChangeSetStatusCreateComplete : String := "CREATE_COMPLETE"
/-- The SDK constant `types.ChangeSetStatusFailed`. -/
def ChangeSetStatusFailed : String := "FAILED"
/-- The SDK constant `types.ChangeSetStatusCreateInProgress`. -/
def ChangeSetStatusCreateInProgress : String := "CREATE_IN_PROGRESS"
/-- The SDK constant `types.StackStatusCreateComplete`. -/
def StackStatusCreateComplete : String := "CREATE_COMPLETE"
/-- The SDK constant `types.StackStatusUpdateComplete`. -/
def StackStatusUpdateComplete : String := "UPDATE_COMPLETE"
/-- The SDK constant `types.StackStatusCreateInProgress`. -/
def StackStatusCreateInProgress : String := "CREATE_IN_PROGRESS"

/-- The SDK type `types.Parameter`: two pointers. -/
structure Parameter where
  ParameterKey : Option String
  ParameterValue : Option String
deriving DecidableEq, Repr

/-- The SDK type `types.Output`: two pointers. -/
structure Output where
  OutputKey : Option String
  OutputValue : Option String
deriving DecidableEq, Repr

/-- The SDK type `types.Stack`. -/
structure StackDescription where
  StackStatus : String
  Outputs : List Output
deriving DecidableEq, Repr

structure CreateChangeSetInput where
  ClientToken : String
  ChangeSetName : String
  ChangeSetType : String
  Parameters : List Parameter
  StackName : String
  TemplateBody : String
deriving DecidableEq, Repr

structure DescribeChangeSetInput where
  ChangeSetName : String
  StackName : String
deriving DecidableEq, Repr

structure DescribeChangeSetOutput where
  Status : String
  StatusReason : Option String
deriving DecidableEq, Repr

structure DeleteChangeSetInput where
  ChangeSetName : String
  StackName : String
deriving DecidableEq, Repr

structure ExecuteChangeSetInput where
  ChangeSetName : String
  ClientRequestToken : String
  StackName : String
deriving DecidableEq, Repr

structure DescribeStacksInput where
  StackName : String
deriving DecidableEq, Repr

structure DescribeStacksOutput where
  Stacks : List StackDescription
deriving DecidableEq, Repr

/-- What `DescribeChangeSet` answers: the pair `(*Output, error)`. -/
abbrev DescribeChangeSetResponse := Option DescribeChangeSetOutput × Option GoError

/-- What `DescribeStacks` answers: the pair `(*Output, error)`. -/
abbrev DescribeStacksResponse := Option DescribeStacksOutput × Option GoError

/-- The interface `CloudFormationAPI` of stack.go: each method takes the request and the
world as it is, and gives its answer and the world afterwards. The output pointers of
`CreateChangeSet`, `DeleteChangeSet` and `ExecuteChangeSet` are never read by the
repository (`_, err := ...`) and are not part of the model. -/
structure CloudFormationAPI (σ : Type) where
  CreateChangeSet : CreateChangeSetInput → σ → Option GoError × σ
  DescribeChangeSet : DescribeChangeSetInput → σ → DescribeChangeSetResponse × σ
  DeleteChangeSet : DeleteChangeSetInput → σ → Option GoError × σ
  ExecuteChangeSet : ExecuteChangeSetInput → σ → Option GoError × σ
  DescribeStacks : DescribeStacksInput → σ → DescribeStacksResponse × σ

/-- One call made on the remote client, with its request and its answer. -/
inductive Call where
  | CreateChangeSet (params : CreateChangeSetInput) (err : Option GoError)
  | DescribeChangeSet (params : DescribeChangeSetInput) (resp : DescribeChangeSetResponse)
  | DeleteChangeSet (params : DeleteChangeSetInput) (err : Option GoError)
  | ExecuteChangeSet (params : ExecuteChangeSetInput) (err : Option GoError)
  | DescribeStacks (params : DescribeStacksInput) (resp : DescribeStacksResponse)
deriving DecidableEq, Repr

/-- The error a call answered with, if any. -/
def Call.err : Call → Option GoError
  | .CreateChangeSet _ e => e
  | .DescribeChangeSet _ r => r.2
  | .DeleteChangeSet _ e => e
  | .ExecuteChangeSet _ e => e
  | .DescribeStacks _ r => r.2

/-- The result of running a piece of the program against the remote client: how it ended,
the world afterwards, and the calls it made, in order. -/
structure Exec (σ α : Type) where
  out : Outcome α
  world : σ
  calls : List Call

/-- The same run, preceded by one more call. -/
def Exec.after {σ α : Type} (c : Call) (x : Exec σ α) : Exec σ α :=
  { x with calls := c :: x.calls }

/-! ## template.go: the `Template` interface, as seen by a `Stack` -/

/-- The interface `Template`, as the answers of its read-only methods on one object.
`GetStackName` returns a non-nil pointer in every implementation of the repository (the
tests of the components require it), so it is a plain string here. `BuildJSON` is
`Build()` followed by goformation's `JSON()`, a library outside the repository. -/
structure Template where
  GetStackName : String
  GetRegion : String
  GetParameters : List Parameter
  GetDryRunOutputs : GoMap
  GetExportName : String → String
  BuildJSON : Except GoError String

/-! ## changeset.go -/

/-- The constant `EmptyChangeSet` (`\x27` is the apostrophe of "didn't"). -/
def EmptyChangeSet : String :=
  "The submitted information didn\x27t contain changes. Submit different information to create a change set."

/-- The method `stackExist`: the stack exists when `DescribeStacks` gives no error. -/
def stackExist {σ : Type} (api : CloudFormationAPI σ) (t : Template) (w : σ) : Exec σ Bool :=
  let inp : DescribeStacksInput := { StackName := t.GetStackName }
  let r := api.DescribeStacks inp w
  { out := .ret r.1.2.isNone, world := r.2, calls := [Call.DescribeStacks inp r.1] }

/-- The method `templateJson`: the pair `(string, error)`. -/
def templateJson (t : Template) : String × Option GoError :=
  match t.BuildJSON with
  | .error err => ("", some err)
  | .ok templateBody => (templateBody, none)

/-- The method `initialChangeSet`; `csName` is the name drawn from the name generator. -/
def initialChangeSet {σ : Type} (api : CloudFormationAPI σ) (t : Template) (csName : String)
    (templateBody : String) (w : σ) : Exec σ (String × String × Option GoError) :=
  let probe := stackExist api t w
  let csType := if probe.out = .ret true then "UPDATE" else "CREATE"
  let v2Params := t.GetParameters.map
    (fun param => ({ ParameterKey := param.ParameterKey,
                     ParameterValue := param.ParameterValue } : Parameter))
  let inp : CreateChangeSetInput :=
    { ClientToken := csName, ChangeSetName := csName, ChangeSetType := csType,
      Parameters := v2Params, StackName := t.GetStackName, TemplateBody := templateBody }
  let r := api.CreateChangeSet inp probe.world
  match r.1 with
  | some err =>
    { out := .ret ("", "", some err), world := r.2,
      calls := probe.calls ++ [Call.CreateChangeSet inp r.1] }
  | none =>
    { out := .ret (csName, csType, none), world := r.2,
      calls := probe.calls ++ [Call.CreateChangeSet inp r.1] }

/-- The error of `waitForChangeSet` when the changeset failed for the reason given. -/
def changeSetFailed (reason : String) : GoError :=
  Errorf ("change set creation failed: " ++ reason)

/-- The error of `waitForChangeSet` when the attempts are used up. -/
def changeSetTimeout : GoError :=
  Errorf "timed out waiting for change set creation to complete"

/-- The loop of `waitForChangeSet` with `attempts` iterations left. -/
def waitForChangeSetLoop {σ : Type} (api : CloudFormationAPI σ) (t : Template)
    (csName : String) : (attempts : Nat) → σ → Exec σ (Bool × Option GoError)
  | 0, w => { out := .ret (false, some changeSetTimeout), world := w, calls := [] }
  | attempts + 1, w =>
    let inp : DescribeChangeSetInput := { ChangeSetName := csName, StackName := t.GetStackName }
    let r := api.DescribeChangeSet inp w
    let ev := Call.DescribeChangeSet inp r.1
    match r.1.2 with
    | some err => { out := .ret (false, some err), world := r.2, calls := [ev] }
    | none =>
      match r.1.1 with
      | none => { out := .panic nilDeref, world := r.2, calls := [ev] }
      | some desc =>
        if desc.Status = ChangeSetStatusCreateComplete then
          { out := .ret (false, none), world := r.2, calls := [ev] }
        else if desc.Status = ChangeSetStatusFailed then
          match desc.StatusReason with
          | none => { out := .panic nilDeref, world := r.2, calls := [ev] }
          | some reason =>
            if reason = EmptyChangeSet then
              let dinp : DeleteChangeSetInput :=
                { ChangeSetName := csName, StackName := t.GetStackName }
              let d := api.DeleteChangeSet dinp r.2
              match d.1 with
              | some err =>
                { out := .ret (false, some err), world := d.2,
                  calls := [ev, Call.DeleteChangeSet dinp d.1] }
              | none =>
                { out := .ret (true, none), world := d.2,
                  calls := [ev, Call.DeleteChangeSet dinp d.1] }
            else
              { out := .ret (false, some (changeSetFailed reason)), world := r.2, calls := [ev] }
        else
          (waitForChangeSetLoop api t csName attempts r.2).after ev

/-- The method `waitForChangeSet`: `maxAttempts := 30`. -/
def waitForChangeSet {σ : Type} (api : CloudFormationAPI σ) (t : Template) (csName : String)
    (w : σ) : Exec σ (Bool × Option GoError) :=
  waitForChangeSetLoop api t csName 30 w

/-- The error of `executeChangeSet` when the stack reached a failure status. -/
def stackOperationFailed (stackStatus : String) : GoError :=
  Errorf ("stack operation failed: " ++ stackStatus)

/-- The error of `executeChangeSet` when `DescribeStacks` lists no stack. -/
def stackNotFound : GoError := Errorf "stack not found"

/-- The error of `executeChangeSet` when the attempts are used up. -/
def stackOperationTimeout : GoError :=
  Errorf "timed out waiting for stack operation to complete"

/-- The `targetStatus` of `executeChangeSet`. -/
def targetStatus (csType : String) : String :=
  if csType = "CREATE" then StackStatusCreateComplete else StackStatusUpdateComplete

/-- The failure states of `executeChangeSet`. -/
def isFailureStatus (stackStatus : String) : Bool :=
  HasSuffix stackStatus "FAILED" || HasSuffix stackStatus "ROLLBACK_COMPLETE"

/-- The polling loop of `executeChangeSet` with `attempts` iterations left. -/
def executeChangeSetLoop {σ : Type} (api : CloudFormationAPI σ) (t : Template)
    (target : String) : (attempts : Nat) → σ → Exec σ (Option GoError)
  | 0, w => { out := .ret (some stackOperationTimeout), world := w, calls := [] }
  | attempts + 1, w =>
    let inp : DescribeStacksInput := { StackName := t.GetStackName }
    let r := api.DescribeStacks inp w
    let ev := Call.DescribeStacks inp r.1
    match r.1.2 with
    | some err => { out := .ret (some err), world := r.2, calls := [ev] }
    | none =>
      match r.1.1 with
      | none => { out := .panic nilDeref, world := r.2, calls := [ev] }
      | some resp =>
        match resp.Stacks with
        | [] => { out := .ret (some stackNotFound), world := r.2, calls := [ev] }
        | first :: _ =>
          let stackStatus := first.StackStatus
          if stackStatus = target then
            { out := .ret none, world := r.2, calls := [ev] }
          else if isFailureStatus stackStatus then
            { out := .ret (some (stackOperationFailed stackStatus)), world := r.2, calls := [ev] }
          else
            (executeChangeSetLoop api t target attempts r.2).after ev

/-- The method `executeChangeSet`: `maxAttempts := 120`. -/
def executeChangeSet {σ : Type} (api : CloudFormationAPI σ) (t : Template) (csName : String)
    (csType : String) (w : σ) : Exec σ (Option GoError) :=
  let inp : ExecuteChangeSetInput :=
    { ChangeSetName := csName, ClientRequestToken := csName, StackName := t.GetStackName }
  let r := api.ExecuteChangeSet inp w
  match r.1 with
  | some err => { out := .ret (some err), world := r.2, calls := [Call.ExecuteChangeSet inp r.1] }
  | none =>
    (executeChangeSetLoop api t (targetStatus csType) 120 r.2).after (Call.ExecuteChangeSet inp r.1)

/-! ## stack.go -/

/-- The struct `Stack`: the embedded template, the client handle (nil until it is set or
created) and the captured outputs, a map that `NewStack` has made. -/
structure Stack (σ : Type) where
  template : Template
  cloudFormationClient : Option (CloudFormationAPI σ)
  Outputs : GoMap

/-- The function `NewStack`: no client yet, and `make(map[string]string)`. -/
def NewStack {σ : Type} (template : Template) : Stack σ :=
  { template := template, cloudFormationClient := none, Outputs := [] }

/-- The AWS SDK calls that create a client when a `Stack` has none:
`config.LoadDefaultConfig` (with the region option when one is given) followed by
`cloudformation.NewFromConfig`, as one function; a library outside the repository. -/
structure AwsSDK (σ : Type) where
  NewFromDefaultConfig : Option String → Except GoError (CloudFormationAPI σ)

/-- The result of a method of `Stack` that may change the `Stack` itself. -/
structure StackExec (σ : Type) where
  out : Outcome (Option GoError)
  stack : Stack σ
  world : σ
  calls : List Call

/-- The error wrapping a failure of `config.LoadDefaultConfig`. -/
def sdkConfigError (err : GoError) : GoError :=
  Errorf ("unable to load SDK config: " ++ err.msg)

/-- The method `Run`; `csName` is the name that `initialChangeSet` draws from the name
generator. -/
def Run {σ : Type} (sdk : AwsSDK σ) (csName : String) (st : Stack σ) (w : σ) : StackExec σ :=
  let client : Except GoError (CloudFormationAPI σ) :=
    match st.cloudFormationClient with
    | some api => .ok api
    | none =>
      if st.template.GetRegion ≠ "" then sdk.NewFromDefaultConfig (some st.template.GetRegion)
      else sdk.NewFromDefaultConfig none
  match client with
  | .error err => { out := .ret (some (sdkConfigError err)), stack := st, world := w, calls := [] }
  | .ok api =>
    let st1 : Stack σ := { st with cloudFormationClient := some api }
    match templateJson st1.template with
    | (_, some err) => { out := .ret (some err), stack := st1, world := w, calls := [] }
    | (templateBody, none) =>
      let ic := initialChangeSet api st1.template csName templateBody w
      match ic.out with
      | .panic p => { out := .panic p, stack := st1, world := ic.world, calls := ic.calls }
      | .ret (_, _, some err) =>
        { out := .ret (some err), stack := st1, world := ic.world, calls := ic.calls }
      | .ret (csName1, csType, none) =>
        let wt := waitForChangeSet api st1.template csName1 ic.world
        match wt.out with
        | .panic p =>
          { out := .panic p, stack := st1, world := wt.world, calls := ic.calls ++ wt.calls }
        | .ret (_, some err) =>
          { out := .ret (some err), stack := st1, world := wt.world, calls := ic.calls ++ wt.calls }
        | .ret (ok, none) =>
          if ok then
            { out := .ret none, stack := st1, world := wt.world, calls := ic.calls ++ wt.calls }
          else
            let ex := executeChangeSet api st1.template csName1 csType wt.world
            match ex.out with
            | .panic p =>
              { out := .panic p, stack := st1, world := ex.world,
                calls := ic.calls ++ wt.calls ++ ex.calls }
            | .ret (some err) =>
              { out := .ret (some err), stack := st1, world := ex.world,
                calls := ic.calls ++ wt.calls ++ ex.calls }
            | .ret none =>
              { out := .ret none, stack := st1, world := ex.world,
                calls := ic.calls ++ wt.calls ++ ex.calls }

/-- The loop `for k, v := range st.GetDryRunOutputs() { st.Outputs[k] = v }` of `DryRun`.
The range visits every key of the map once, with the value the map holds for it
(`GoMap.get`, the first pair of the key in the list): folding from the right, that pair
is the one assigned last. -/
def copyDryRunOutputs (dryRunOutputs : GoMap) (outputs : GoMap) : GoMap :=
  dryRunOutputs.foldr (fun kv m => m.set kv.1 kv.2) outputs

/-- The method `DryRun`: it makes no call on the client. -/
def DryRun {σ : Type} (st : Stack σ) (w : σ) : StackExec σ :=
  match templateJson st.template with
  | (_, some err) => { out := .ret (some err), stack := st, world := w, calls := [] }
  | (_, none) =>
    { out := .ret none,
      stack := { st with Outputs := copyDryRunOutputs st.template.GetDryRunOutputs st.Outputs },
      world := w, calls := [] }

/-- The loop `for _, a := range response.Stacks[0].Outputs` of `GetOutputs`, run on the
captured-outputs map: `st.Outputs[*a.OutputKey] = *a.OutputValue`. -/
def storeOutputs : List Output → GoMap → Outcome Unit × GoMap
  | [], m => (.ret (), m)
  | a :: rest, m =>
    match a.OutputKey, a.OutputValue with
    | some k, some v => storeOutputs rest (m.set k v)
    | _, _ => (.panic nilDeref, m)

/-- The error of `GetOutputs` when more than one stack is listed. -/
def multipleResults (stackName : String) : GoError :=
  Errorf ("multiple results for the same stack name " ++ stackName)

/-- The method `GetOutputs`. -/
def GetOutputs {σ : Type} (sdk : AwsSDK σ) (st : Stack σ) (w : σ) : StackExec σ :=
  let client : Except GoError (CloudFormationAPI σ) :=
    match st.cloudFormationClient with
    | some api => .ok api
    | none => sdk.NewFromDefaultConfig (some st.template.GetRegion)
  match client with
  | .error err => { out := .ret (some (sdkConfigError err)), stack := st, world := w, calls := [] }
  | .ok api =>
    let st1 : Stack σ := { st with cloudFormationClient := some api }
    let inp : DescribeStacksInput := { StackName := st1.template.GetStackName }
    let r := api.DescribeStacks inp w
    let ev := Call.DescribeStacks inp r.1
    match r.1.2 with
    | some err => { out := .ret (some err), stack := st1, world := r.2, calls := [ev] }
    | none =>
      match r.1.1 with
      | none => { out := .panic nilDeref, stack := st1, world := r.2, calls := [ev] }
      | some response =>
        if response.Stacks.length > 1 then
          { out := .ret (some (multipleResults st1.template.GetStackName)), stack := st1,
            world := r.2, calls := [ev] }
        else
          match response.Stacks with
          | [] => { out := .panic indexOutOfRange, stack := st1, world := r.2, calls := [ev] }
          | first :: _ =>
            let stored := storeOutputs first.Outputs st1.Outputs
            match stored.1 with
            | .panic p =>
              { out := .panic p, stack := { st1 with Outputs := stored.2 }, world := r.2,
                calls := [ev] }
            | .ret _ =>
              { out := .ret none, stack := { st1 with Outputs := stored.2 }, world := r.2,
                calls := [ev] }

/-! ## What a run did: projections of the recorded calls -/

/-- The answer of a call, when it is a `DescribeChangeSet` call. -/
def Call.describeChangeSet? : Call → Option DescribeChangeSetResponse
  | .DescribeChangeSet _ r => some r
  | _ => none

/-- The answer of a call, when it is a `DescribeStacks` call. -/
def Call.describeStacks? : Call → Option DescribeStacksResponse
  | .DescribeStacks _ r => some r
  | _ => none

/-- The request and the error of a call, when it is a `CreateChangeSet` call. -/
def Call.createChangeSet? : Call → Option (CreateChangeSetInput × Option GoError)
  | .CreateChangeSet p e => some (p, e)
  | _ => none

/-- The request and the error of a call, when it is a `DeleteChangeSet` call. -/
def Call.deleteChangeSet? : Call → Option (DeleteChangeSetInput × Option GoError)
  | .DeleteChangeSet p e => some (p, e)
  | _ => none

/-- The request and the error of a call, when it is an `ExecuteChangeSet` call. -/
def Call.executeChangeSet? : Call → Option (ExecuteChangeSetInput × Option GoError)
  | .ExecuteChangeSet p e => some (p, e)
  | _ => none

/-- The answers of the `DescribeChangeSet` calls, in order. -/
def describeChangeSetResponses (calls : List Call) : List DescribeChangeSetResponse :=
  calls.filterMap Call.describeChangeSet?

/-- The answers of the `DescribeStacks` calls, in order. -/
def describeStacksResponses (calls : List Call) : List DescribeStacksResponse :=
  calls.filterMap Call.describeStacks?

/-- The `CreateChangeSet` calls, in order. -/
def createChangeSetCalls (calls : List Call) : List (CreateChangeSetInput × Option GoError) :=
  calls.filterMap Call.createChangeSet?

/-- The `DeleteChangeSet` calls, in order. -/
def deleteChangeSetCalls (calls : List Call) : List (DeleteChangeSetInput × Option GoError) :=
  calls.filterMap Call.deleteChangeSet?

/-- The `ExecuteChangeSet` calls, in order. -/
def executeChangeSetCalls (calls : List Call) : List (ExecuteChangeSetInput × Option GoError) :=
  calls.filterMap Call.executeChangeSet?

/-- A `DescribeChangeSet` answer that keeps `waitForChangeSet` polling: no error, and a
status that is neither CREATE_COMPLETE nor FAILED. -/
def changeSetPending (r : DescribeChangeSetResponse) : Bool :=
  match r with
  | (some desc, none) =>
    decide (desc.Status ≠ ChangeSetStatusCreateComplete) &&
      decide (desc.Status ≠ ChangeSetStatusFailed)
  | _ => false

/-- The first decisive answer of a sequence of `DescribeChangeSet` answers. -/
def firstDecisiveChangeSet (rs : List DescribeChangeSetResponse) :
    Option DescribeChangeSetResponse :=
  rs.find? (fun r => !changeSetPending r)

/-- A `DescribeStacks` answer without error that lists at least one stack. -/
def stacksListed (r : DescribeStacksResponse) : Bool :=
  match r with
  | (some resp, none) => !resp.Stacks.isEmpty
  | _ => false

/-- The status `resp.Stacks[0].StackStatus` read from a `DescribeStacks` answer, when the
answer has no error and lists at least one stack. -/
def stackStatus? : DescribeStacksResponse → Option String
  | (some resp, none) =>
    match resp.Stacks with
    | first :: _ => some first.StackStatus
    | [] => none
  | _ => none

/-- The statuses read from a sequence of `DescribeStacks` answers, in order. -/
def stackStatuses (rs : List DescribeStacksResponse) : List String :=
  rs.filterMap stackStatus?

/-- A stack status that ends the polling of `executeChangeSet`: the target or a failure. -/
def stackDecisive (target : String) (stackStatus : String) : Bool :=
  decide (stackStatus = target) || isFailureStatus stackStatus

/-- A `DescribeStacks` answer that keeps `executeChangeSet` polling: no error, at least one
stack, and a status of the first stack that is neither the target nor a failure. -/
def stackPending (target : String) (r : DescribeStacksResponse) : Bool :=
  match r with
  | (some resp, none) =>
    match resp.Stacks with
    | first :: _ => !stackDecisive target first.StackStatus
    | [] => false
  | _ => false

/-- The answer to the `k`-th (counted from 0) of consecutive `DescribeChangeSet` calls made
on the client from the world `w`. -/
def nthDescribeChangeSet {σ : Type} (api : CloudFormationAPI σ) (inp : DescribeChangeSetInput) :
    Nat → σ → DescribeChangeSetResponse
  | 0, w => (api.DescribeChangeSet inp w).1
  | k + 1, w => nthDescribeChangeSet api inp k (api.DescribeChangeSet inp w).2

/-- The world after `n` consecutive `DescribeChangeSet` calls made on the client from the
world `w`. -/
def afterDescribeChangeSets {σ : Type} (api : CloudFormationAPI σ)
    (inp : DescribeChangeSetInput) : Nat → σ → σ
  | 0, w => w
  | n + 1, w => afterDescribeChangeSets api inp n (api.DescribeChangeSet inp w).2

/-- The answer to the `k`-th (counted from 0) of consecutive `DescribeStacks` calls made on
the client from the world `w`. -/
def nthDescribeStacks {σ : Type} (api : CloudFormationAPI σ) (inp : DescribeStacksInput) :
    Nat → σ → DescribeStacksResponse
  | 0, w => (api.DescribeStacks inp w).1
  | k + 1, w => nthDescribeStacks api inp k (api.DescribeStacks inp w).2

/-- How `waitForChangeSet` ends on an answer that stops its polling: the calls it still
makes and what it returns. -/
inductive ChangeSetVerdict (t : Template) (csName : String) :
    DescribeChangeSetResponse → List Call → Outcome (Bool × Option GoError) → Prop
  | remoteError (o : Option DescribeChangeSetOutput) (e : GoError) :
      ChangeSetVerdict t csName (o, some e) [] (.ret (false, some e))
  | nilOutput : ChangeSetVerdict t csName (none, none) [] (.panic nilDeref)
  | ready (d : DescribeChangeSetOutput) (h : d.Status = ChangeSetStatusCreateComplete) :
      ChangeSetVerdict t csName (some d, none) [] (.ret (false, none))
  | nilReason (d : DescribeChangeSetOutput) (h : d.Status = ChangeSetStatusFailed)
      (hr : d.StatusReason = none) :
      ChangeSetVerdict t csName (some d, none) [] (.panic nilDeref)
  | emptyDeleted (d : DescribeChangeSetOutput) (h : d.Status = ChangeSetStatusFailed)
      (hr : d.StatusReason = some EmptyChangeSet) :
      ChangeSetVerdict t csName (some d, none)
        [Call.DeleteChangeSet { ChangeSetName := csName, StackName := t.GetStackName } none]
        (.ret (true, none))
  | emptyDeleteError (d : DescribeChangeSetOutput) (h : d.Status = ChangeSetStatusFailed)
      (hr : d.StatusReason = some EmptyChangeSet) (e : GoError) :
      ChangeSetVerdict t csName (some d, none)
        [Call.DeleteChangeSet { ChangeSetName := csName, StackName := t.GetStackName } (some e)]
        (.ret (false, some e))
  | failed (d : DescribeChangeSetOutput) (h : d.Status = ChangeSetStatusFailed) (m : String)
      (hr : d.StatusReason = some m) (hm : m ≠ EmptyChangeSet) :
      ChangeSetVerdict t csName (some d, none) [] (.ret (false, some (changeSetFailed m)))

/-- How the polling of `executeChangeSet` ends on an answer that stops it. -/
inductive StackVerdict (target : String) :
    DescribeStacksResponse → Outcome (Option GoError) → Prop
  | remoteError (o : Option DescribeStacksOutput) (e : GoError) :
      StackVerdict target (o, some e) (.ret (some e))
  | nilOutput : StackVerdict target (none, none) (.panic nilDeref)
  | notFound (resp : DescribeStacksOutput) (h : resp.Stacks = []) :
      StackVerdict target (some resp, none) (.ret (some stackNotFound))
  | done (resp : DescribeStacksOutput) (first : StackDescription) (rest : List StackDescription)
      (h : resp.Stacks = first :: rest) (ht : first.StackStatus = target) :
      StackVerdict target (some resp, none) (.ret none)
  | failed (resp : DescribeStacksOutput) (first : StackDescription)
      (rest : List StackDescription) (h : resp.Stacks = first :: rest)
      (ht : first.StackStatus ≠ target) (hf : isFailureStatus first.StackStatus = true) :
      StackVerdict target (some resp, none)
        (.ret (some (stackOperationFailed first.StackStatus)))

/-- Every call that answered with an error is the last call of the run, and its error is
the one returned. -/
def ErrorsEndRun (calls : List Call) (returned : GoError → Prop) : Prop :=
  ∀ (pre : List Call) (c : Call) (post : List Call) (e : GoError),
    calls = pre ++ c :: post → c.err = some e → post = [] ∧ returned e

/-- The runs of `Run` that reach `initialChangeSet`, on the client `api`: the calls made
and how `Run` ends. -/
inductive RunTrace {σ : Type} (api : CloudFormationAPI σ) (t : Template) (csName : String) :
    List Call → Outcome (Option GoError) → Prop
  | createFailed (probe : DescribeStacksResponse) (inp : CreateChangeSetInput) (e : GoError)
      (hname : inp.ChangeSetName = csName) :
      RunTrace api t csName
        [Call.DescribeStacks ⟨t.GetStackName⟩ probe, Call.CreateChangeSet inp (some e)]
        (.ret (some e))
  | waitPanic (probe : DescribeStacksResponse) (inp : CreateChangeSetInput) (w2 : σ)
      (p : String) (hname : inp.ChangeSetName = csName)
      (h : (waitForChangeSet api t csName w2).out = .panic p) :
      RunTrace api t csName
        (Call.DescribeStacks ⟨t.GetStackName⟩ probe :: Call.CreateChangeSet inp none ::
          (waitForChangeSet api t csName w2).calls)
        (.panic p)
  | waitError (probe : DescribeStacksResponse) (inp : CreateChangeSetInput) (w2 : σ)
      (b : Bool) (e : GoError) (hname : inp.ChangeSetName = csName)
      (h : (waitForChangeSet api t csName w2).out = .ret (b, some e)) :
      RunTrace api t csName
        (Call.DescribeStacks ⟨t.GetStackName⟩ probe :: Call.CreateChangeSet inp none ::
          (waitForChangeSet api t csName w2).calls)
        (.ret (some e))
  | noChanges (probe : DescribeStacksResponse) (inp : CreateChangeSetInput) (w2 : σ)
      (hname : inp.ChangeSetName = csName)
      (h : (waitForChangeSet api t csName w2).out = .ret (true, none)) :
      RunTrace api t csName
        (Call.DescribeStacks ⟨t.GetStackName⟩ probe :: Call.CreateChangeSet inp none ::
          (waitForChangeSet api t csName w2).calls)
        (.ret none)
  | executed (probe : DescribeStacksResponse) (inp : CreateChangeSetInput) (w2 : σ)
      (csType : String) (hname : inp.ChangeSetName = csName)
      (h : (waitForChangeSet api t csName w2).out = .ret (false, none)) :
      RunTrace api t csName
        (Call.DescribeStacks ⟨t.GetStackName⟩ probe :: Call.CreateChangeSet inp none ::
          ((waitForChangeSet api t csName w2).calls ++
            (executeChangeSet api t csName csType (waitForChangeSet api t csName w2).world).calls))
        (executeChangeSet api t csName csType (waitForChangeSet api t csName w2).world).out

/-- The value reported under the key `k` by a list of outputs: that of the last output
with this key. -/
def reportedValue : List Output → String → Option String
  | [], _ => none
  | a :: rest, k =>
    match reportedValue rest k with
    | some v => some v
    | none => if a.OutputKey = some k then a.OutputValue else none

/-! ## The test doubles of stack_test.go -/

/-- The struct `MockTemplate`; `body` is what goformation serialises `cfn.NewTemplate()` to. -/
def MockTemplate (stackName region body : String) : Template :=
  { GetStackName := stackName
    GetRegion := region
    GetParameters := []
    GetDryRunOutputs := [(stackName ++ "-" ++ "Arn", "arn:aws:acm:region:account:certificate/12345")]
    GetExportName := fun name => stackName ++ "-" ++ name
    BuildJSON := .ok body }

/-- The fields of the struct `mockCFNRun`. -/
structure MockCFNRun where
  createChangeSetErr : Option GoError
  describeChangeSetErr : Option GoError
  describeChangeSetCnt : Nat
  executeChangeSetErr : Option GoError
  describeStacksErr : Option GoError
  describeStacksCnt : Nat
deriving DecidableEq, Repr

/-- The value `&mockCFNRun{}` with the error fields given. -/
def MockCFNRun.new (createChangeSetErr executeChangeSetErr : Option GoError) : MockCFNRun :=
  { createChangeSetErr := createChangeSetErr, describeChangeSetErr := none,
    describeChangeSetCnt := 0, executeChangeSetErr := executeChangeSetErr,
    describeStacksErr := none, describeStacksCnt := 0 }

/-- The methods of `mockCFNRun`. -/
def mockCFNRun : CloudFormationAPI MockCFNRun where
  CreateChangeSet := fun _ m => (m.createChangeSetErr, m)
  DescribeChangeSet := fun _ m =>
    let m1 := { m with describeChangeSetCnt := m.describeChangeSetCnt + 1 }
    if m1.describeChangeSetCnt < 2 then
      ((some { Status := ChangeSetStatusCreateInProgress, StatusReason := none },
        m1.describeChangeSetErr), m1)
    else
      ((some { Status := ChangeSetStatusCreateComplete, StatusReason := none },
        m1.describeChangeSetErr), m1)
  DeleteChangeSet := fun _ m => (none, m)
  ExecuteChangeSet := fun _ m => (m.executeChangeSetErr, m)
  DescribeStacks := fun _ m =>
    let m1 := { m with describeStacksCnt := m.describeStacksCnt + 1 }
    if m1.describeStacksCnt < 2 then
      ((some { Stacks := [{ StackStatus := StackStatusCreateInProgress, Outputs := [] }] },
        m1.describeStacksErr), m1)
    else
      ((some { Stacks := [{ StackStatus := StackStatusCreateComplete, Outputs := [] }] },
        m1.describeStacksErr), m1)

/-- The methods of `mockCFNSuccess`; the client has no state. -/
def mockCFNSuccess : CloudFormationAPI Unit where
  CreateChangeSet := fun _ w => (none, w)
  DescribeChangeSet := fun _ w => ((none, none), w)
  DeleteChangeSet := fun _ w => (none, w)
  ExecuteChangeSet := fun _ w => (none, w)
  DescribeStacks := fun _ w =>
    ((some { Stacks := [{ StackStatus := "",
                          Outputs := [{ OutputKey := some "mock-key",
                                        OutputValue := some "mock-value" }] }] }, none), w)

/-- The methods of `mockCFNError`; the client has no state. -/
def mockCFNError : CloudFormationAPI Unit where
  CreateChangeSet := fun _ w => (none, w)
  DescribeChangeSet := fun _ w => ((none, none), w)
  DeleteChangeSet := fun _ w => (none, w)
  ExecuteChangeSet := fun _ w => (none, w)
  DescribeStacks := fun _ w => ((none, some (Errorf "mock error")), w)

/-- The answers a scripted client still has to give. -/
structure Script where
  create : Option GoError
  changeSets : List DescribeChangeSetResponse
  delete : Option GoError
  execute : Option GoError
  describeStacks : List DescribeStacksResponse
deriving DecidableEq, Repr

/-- A client for examples: `DescribeChangeSet` and `DescribeStacks` give the next answer of
their script (an error once the script is used up), the other calls a fixed answer. -/
def scripted : CloudFormationAPI Script where
  CreateChangeSet := fun _ s => (s.create, s)
  DescribeChangeSet := fun _ s =>
    match s.changeSets with
    | r :: rest => (r, { s with changeSets := rest })
    | [] => ((none, some (Errorf "end of script")), s)
  DeleteChangeSet := fun _ s => (s.delete, s)
  ExecuteChangeSet := fun _ s => (s.execute, s)
  DescribeStacks := fun _ s =>
    match s.describeStacks with
    | r :: rest => (r, { s with describeStacks := rest })
    | [] => ((none, some (Errorf "end of script")), s)

/-- A successful `DescribeChangeSet` answer with the status and reason given. -/
def changeSetAnswer (status : String) (reason : Option String) : DescribeChangeSetResponse :=
  (some { Status := status, StatusReason := reason }, none)

/-- A successful `DescribeStacks` answer listing one stack with the status given. -/
def stackAnswer (status : String) : DescribeStacksResponse :=
  (some { Stacks := [{ StackStatus := status, Outputs := [] }] }, none)

/-- The stack of `TestStack_GetOutputs_Mock`, with the captured outputs given. -/
def mockStack {σ : Type} (api : CloudFormationAPI σ) (outputs : GoMap) : Stack σ :=
  { template := MockTemplate "mock-stack" "us-east-1" "{}-body",
    cloudFormationClient := some api, Outputs := outputs }

/-- A script: the stack does not exist, the changeset is created, and `DescribeChangeSet`
and `DescribeStacks` (after the existence probe) give the answers listed. -/
def scriptOf (changeSets : List DescribeChangeSetResponse)
    (polls : List DescribeStacksResponse) : Script :=
  { create := none, changeSets := changeSets, delete := none, execute := none,
    describeStacks := (none, some (Errorf "does not exist")) :: polls }

/-- A client that answers every status request with an in-progress status. -/
def inProgressClient : CloudFormationAPI Unit where
  CreateChangeSet := fun _ w => (none, w)
  DescribeChangeSet := fun _ w => (changeSetAnswer ChangeSetStatusCreateInProgress none, w)
  DeleteChangeSet := fun _ w => (none, w)
  ExecuteChangeSet := fun _ w => (none, w)
  DescribeStacks := fun _ w => (stackAnswer StackStatusCreateInProgress, w)

/-- An SDK on which no default configuration can be loaded. -/
def noSDK {σ : Type} : AwsSDK σ :=
  { NewFromDefaultConfig := fun _ => .error (Errorf "no configuration") }

/-! ## template.go -/

/-- Go `map[string]V` for the value types of the template: an association list, read
with `GoMapOf.get` and written with `GoMapOf.set`, in which a key occurs at most once when
it is built with `GoMapOf.set` from the empty map. -/
abbrev GoMapOf (α : Type) := List (String × α)

/-- The Go lookup `v, ok := m[k]`. -/
def GoMapOf.get {α : Type} (m : GoMapOf α) (k : String) : Option α := List.lookup k m

/-- The Go assignment `m[k] = v`. -/
def GoMapOf.set {α : Type} (m : GoMapOf α) (k : String) (v : α) : GoMapOf α :=
  (k, v) :: m.filter (fun e => e.1 ≠ k)

/-- The keys of a map, in the order of the list. -/
def GoMapOf.keys {α : Type} (m : GoMapOf α) : List String := m.map Prod.fst

/-- The library type `cfn.Parameter` of goformation: the fields the repository sets
(`Default` is an `interface{}`, absent when nil). -/
structure CfnParameter where
  Description : String
  Default : Option String
  deriving DecidableEq, Repr

/-- The library interface `cfn.Resource` of goformation, by the one method it declares. -/
structure CfnResource where
  AWSCloudFormationType : String
  deriving DecidableEq, Repr

/-- The library type `cfn.Output` of goformation: the fields the repository sets. -/
structure CfnOutput where
  Description : String
  Value : String
  deriving DecidableEq, Repr

/-- The library type `cfn.Template` of goformation: the three maps `Build` fills. -/
structure CfnTemplate where
  Parameters : GoMapOf CfnParameter
  Resources : GoMapOf CfnResource
  Outputs : GoMapOf CfnOutput
  deriving DecidableEq, Repr

/-- The struct `TemplateComponent`. -/
structure TemplateComponent where
  Region : String
  Params : List Parameter
  Parameters : GoMapOf CfnParameter
  Resources : GoMapOf CfnResource
  Outputs : GoMapOf CfnOutput
  DryRunOutputs : GoMap
  deriving DecidableEq, Repr

/-- The function `NewTemplate`. -/
def NewTemplate (region : String) : TemplateComponent :=
  { Region := region, Params := [], Parameters := [], Resources := [], Outputs := [],
    DryRunOutputs := [] }

/-- The method `AddParameter`: the mapping entry is assigned, the list is appended to. -/
def TemplateComponent.AddParameter (t : TemplateComponent) (name : String)
    (parameter : CfnParameter) (defaultValue : String) : TemplateComponent :=
  { t with
    Parameters := GoMapOf.set t.Parameters name parameter
    Params := t.Params ++ [{ ParameterKey := some name, ParameterValue := some defaultValue }] }

/-- The method `AddResource`. -/
def TemplateComponent.AddResource (t : TemplateComponent) (name : String)
    (resource : CfnResource) : TemplateComponent :=
  { t with Resources := GoMapOf.set t.Resources name resource }

/-- The method `AddOutput`. -/
def TemplateComponent.AddOutput (t : TemplateComponent) (name : String) (output : CfnOutput)
    (dryRunValue : String) : TemplateComponent :=
  { t with
    Outputs := GoMapOf.set t.Outputs name output
    DryRunOutputs := GoMap.set t.DryRunOutputs name dryRunValue }

/-- The method `GetParameters` of `TemplateComponent`. -/
def TemplateComponent.GetParameters (t : TemplateComponent) : List Parameter := t.Params

/-- The method `GetDryRunOutputs` of `TemplateComponent`. -/
def TemplateComponent.GetDryRunOutputs (t : TemplateComponent) : GoMap := t.DryRunOutputs

/-- The method `GetRegion` of `TemplateComponent`. -/
def TemplateComponent.GetRegion (t : TemplateComponent) : String := t.Region

/-- The method `Build`: the three maps are copied, key by key, into a new document. -/
def TemplateComponent.Build (t : TemplateComponent) : CfnTemplate :=
  { Parameters := t.Parameters.foldr (fun kv m => GoMapOf.set m kv.1 kv.2) []
    Resources := t.Resources.foldr (fun kv m => GoMapOf.set m kv.1 kv.2) []
    Outputs := t.Outputs.foldr (fun kv m => GoMapOf.set m kv.1 kv.2) [] }

/-- The loop `for i, p := range t.Params` of `SetParameterValue`, run on the list: an
entry whose key is `name` is replaced in place by one with the same key and the new
value; `*p.ParameterKey` panics on an entry without a key, the entries before it being
already replaced. -/
def setParamsLoop (name value : String) : List Parameter → Outcome Unit × List Parameter
  | [] => (.ret (), [])
  | p :: rest =>
    match p.ParameterKey with
    | none => (.panic nilDeref, p :: rest)
    | some key =>
      let r := setParamsLoop name value rest
      if key = name then
        (r.1, { ParameterKey := p.ParameterKey, ParameterValue := some value } :: r.2)
      else (r.1, p :: r.2)

/-- The method `SetParameterValue` of `TemplateComponent`: the returned error and the
template afterwards. On a known name the mapping is assigned the definition just read
from it (`t.Parameters[name] = param`), then the list is updated. -/
def TemplateComponent.SetParameterValue (t : TemplateComponent) (name value : String) :
    Outcome (Option GoError) × TemplateComponent :=
  match GoMapOf.get t.Parameters name with
  | some param =>
    let t1 := { t with Parameters := GoMapOf.set t.Parameters name param }
    let r := setParamsLoop name value t1.Params
    match r.1 with
    | .panic p => (.panic p, { t1 with Params := r.2 })
    | .ret _ => (.ret none, { t1 with Params := r.2 })
  | none => (.ret (some (Errorf ("parameter " ++ name ++ " not found"))), t)

/-- The replacement the loop of `SetParameterValue` makes in an entry that has a key: the
entry under the name gets the new value, any other entry stays. -/
def rebind (name value : String) (p : Parameter) : Parameter :=
  if p.ParameterKey = some name then
    { ParameterKey := p.ParameterKey, ParameterValue := some value }
  else p

/-- A call of one of the four methods that change a `TemplateComponent`. -/
inductive TemplateCall where
  | AddParameter (name : String) (parameter : CfnParameter) (defaultValue : String)
  | AddResource (name : String) (resource : CfnResource)
  | AddOutput (name : String) (output : CfnOutput) (dryRunValue : String)
  | SetParameterValue (name value : String)
  deriving DecidableEq, Repr

/-- The template after one call. -/
def TemplateCall.run (t : TemplateComponent) : TemplateCall → TemplateComponent
  | .AddParameter name parameter defaultValue => t.AddParameter name parameter defaultValue
  | .AddResource name resource => t.AddResource name resource
  | .AddOutput name output dryRunValue => t.AddOutput name output dryRunValue
  | .SetParameterValue name value => (t.SetParameterValue name value).2

/-- The template reached from `NewTemplate(region)` by a sequence of calls. -/
def templateAfter (region : String) (calls : List TemplateCall) : TemplateComponent :=
  calls.foldl TemplateCall.run (NewTemplate region)

/-- The keys of the entries of the ordered submission list (an entry without a key has
none). -/
def paramKeys (params : List Parameter) : List String :=
  params.filterMap (fun p => p.ParameterKey)

/-! ## The interface `Template` on an object with state -/

/-- An implementation of the interface `Template` on objects of state `τ`: `view` gives
the answers of the methods that only read the object, `SetParameterValue` is the one
method that changes it (the returned error and the object afterwards). -/
structure TemplateObject (τ : Type) where
  view : τ → Template
  SetParameterValue : τ → String → String → Outcome (Option GoError) × τ

/-- Modelled from the spec: a component template of the package `components`, whose
implementations are not among the sources (only their tests are). It embeds a
`TemplateComponent` and adds the stack name and the export name, "a deterministic string
derived from the stack\x27s own name plus a short logical suffix" (the name, a dash and the
suffix, as `MockTemplate` in stack_test.go). `JSON` is the serialisation of goformation. -/
structure Component where
  stackName : String
  JSON : CfnTemplate → Except GoError String
  template : TemplateComponent

/-- Modelled from the spec: the answers of the reading methods of a component. -/
def Component.view (c : Component) : Template :=
  { GetStackName := c.stackName
    GetRegion := c.template.GetRegion
    GetParameters := c.template.GetParameters
    GetDryRunOutputs := c.template.GetDryRunOutputs
    GetExportName := fun name => c.stackName ++ "-" ++ name
    BuildJSON := c.JSON c.template.Build }

/-- Modelled from the spec: a component as an implementation of `Template`; its
`SetParameterValue` is the one of the embedded `TemplateComponent`. -/
def componentObject : TemplateObject Component :=
  { view := Component.view
    SetParameterValue := fun c name value =>
      ((c.template.SetParameterValue name value).1,
        { c with template := (c.template.SetParameterValue name value).2 }) }

/-- The struct `MockTemplate` of stack_test.go as an implementation of `Template`: its
`SetParameterValue` returns nil and changes nothing. -/
def mockTemplateObject : TemplateObject Template :=
  { view := fun t => t
    SetParameterValue := fun t _ _ => (.ret none, t) }

/-- A certificate component "acme-certificate" whose one output, the export
"acme-certificate-Arn", has the dry-run value "arn:example:cert/123". -/
def acmeCertificate : Component :=
  { stackName := "acme-certificate"
    JSON := fun _ => .ok "certificate-body"
    template := (NewTemplate "us-east-1").AddOutput "acme-certificate-Arn"
      { Description := "certificate", Value := "arn" } "arn:example:cert/123" }

/-- The template of `TestTemplate_AddParameter_AddResource_AddOutput` before the call of
`SetParameterValue`. -/
def testTemplate : TemplateComponent :=
  (((NewTemplate "us-east-1").AddParameter "Param1"
    { Description := "desc", Default := some "default" } "default").AddResource "Res1"
    { AWSCloudFormationType := "AWS::S3::Bucket" }).AddOutput "Out1"
    { Description := "desc", Value := "value" } "dryrunval"

/-- The template reached from `NewTemplate(region)` by `AddParameter` calls only, each given
by its name, its definition and its default value. -/
def templateOfParameters (region : String) (adds : List (String × CfnParameter × String)) :
    TemplateComponent :=
  adds.foldl (fun t a => t.AddParameter a.1 a.2.1 a.2.2) (NewTemplate region)

/-! ## haws.go -/

set_option linter.dupNamespace false

/-- A `*stack.Stack` of the registry: a stack whose embedded `Template` is an object, in the
state `state`, that `SetParameterValue` can change. -/
structure StackObject (σ τ : Type) where
  methods : TemplateObject τ
  state : τ
  cloudFormationClient : Option (CloudFormationAPI σ)
  Outputs : GoMap

/-- The function `NewStack` on a template object. -/
def NewStackObject {σ τ : Type} (methods : TemplateObject τ) (state : τ) : StackObject σ τ :=
  { methods := methods, state := state, cloudFormationClient := none, Outputs := [] }

/-- The stack as `Run`, `DryRun` and `GetOutputs` see it: they only read the template. -/
def StackObject.toStack {σ τ : Type} (s : StackObject σ τ) : Stack σ :=
  { template := s.methods.view s.state
    cloudFormationClient := s.cloudFormationClient
    Outputs := s.Outputs }

/-- The stack object after a method of stack.go has run on it: the client handle and the
captured outputs are the ones the method left. -/
def StackObject.ofStack {σ τ : Type} (s : StackObject σ τ) (st : Stack σ) : StackObject σ τ :=
  { s with cloudFormationClient := st.cloudFormationClient, Outputs := st.Outputs }

/-- The struct `Haws`. The map `stacks` is given by its four entries: `New`, the only
function that builds a `Haws` (the fields are unexported), assigns exactly the keys
"certificate", "bucket", "cloudfront" and "user", and no method adds or removes a key. -/
structure Haws (σ τ : Type) where
  dryRun : Bool
  certificate : StackObject σ τ
  bucket : StackObject σ τ
  cloudfront : StackObject σ τ
  user : StackObject σ τ

/-- The lookup `st, ok := h.stacks[name]`. -/
def Haws.stacks {σ τ : Type} (h : Haws σ τ) (name : String) : Option (StackObject σ τ) :=
  if name = "certificate" then some h.certificate
  else if name = "bucket" then some h.bucket
  else if name = "cloudfront" then some h.cloudfront
  else if name = "user" then some h.user
  else none

/-- The registry after a method has changed the stack that `h.stacks[name]` points to. -/
def Haws.store {σ τ : Type} (h : Haws σ τ) (name : String) (s : StackObject σ τ) : Haws σ τ :=
  if name = "certificate" then { h with certificate := s }
  else if name = "bucket" then { h with bucket := s }
  else if name = "cloudfront" then { h with cloudfront := s }
  else if name = "user" then { h with user := s }
  else h

/-- A method of `Haws` that `Deploy` calls, with the arguments that are constants of the
code. -/
inductive Method where
  | DeployStack (name : String)
  | GetStackOutput (name : String)
  | GetOutputByName (stack output : String)
  | SetStackParameterValue (stack parameter : String)
  deriving DecidableEq, Repr

/-- A call that `Deploy` made on a method of `Haws`: the arguments, the value returned by
`GetOutputByName` or passed to `SetStackParameterValue`, and the error returned (or the
panic). -/
inductive Step where
  | DeployStack (name : String) (err : Outcome (Option GoError))
  | GetStackOutput (name : String) (err : Outcome (Option GoError))
  | GetOutputByName (stack output value : String) (err : Outcome (Option GoError))
  | SetStackParameterValue (stack parameter value : String) (err : Outcome (Option GoError))
  deriving DecidableEq, Repr

/-- The method a step called. -/
def Step.method : Step → Method
  | .DeployStack name _ => .DeployStack name
  | .GetStackOutput name _ => .GetStackOutput name
  | .GetOutputByName stack output _ _ => .GetOutputByName stack output
  | .SetStackParameterValue stack parameter _ _ => .SetStackParameterValue stack parameter

/-- The error a step returned, or its panic. -/
def Step.result : Step → Outcome (Option GoError)
  | .DeployStack _ err => err
  | .GetStackOutput _ err => err
  | .GetOutputByName _ _ _ err => err
  | .SetStackParameterValue _ _ _ err => err

/-- What a method of `Haws` did: the returned error (or the panic), the registry and the
world of the remote service afterwards, the calls made on the remote clients and the calls
made on the methods of `Haws`, both in order. -/
structure HawsExec (σ τ : Type) where
  out : Outcome (Option GoError)
  haws : Haws σ τ
  world : σ
  calls : List Call
  steps : List Step

/-- The statement `if err := step; err != nil { return err }` followed by `next`: when
the step returned nil the rest runs on what the step left, otherwise (an error or a panic)
the step ends the method. -/
def HawsExec.andThen {σ τ : Type} (x : HawsExec σ τ)
    (next : Haws σ τ → σ → HawsExec σ τ) : HawsExec σ τ :=
  match x.out with
  | .ret none =>
    let y := next x.haws x.world
    { out := y.out, haws := y.haws, world := y.world, calls := x.calls ++ y.calls,
      steps := x.steps ++ y.steps }
  | _ => x

/-- Nothing done: no error, no call. -/
def HawsExec.skip {σ τ : Type} (h : Haws σ τ) (w : σ) : HawsExec σ τ :=
  { out := .ret none, haws := h, world := w, calls := [], steps := [] }

/-- The method `DeployStack`; `csName` is the name the name generator gives when `Run`
creates its changeset. A name that is no key of the registry gives a nil `*stack.Stack`,
on which `DryRun` and `Run` panic when they reach the embedded template. -/
def Haws.DeployStack {σ τ : Type} (sdk : AwsSDK σ) (csName : String) (h : Haws σ τ)
    (name : String) (w : σ) : HawsExec σ τ :=
  match h.stacks name with
  | none =>
    { out := .panic nilDeref, haws := h, world := w, calls := [],
      steps := [.DeployStack name (.panic nilDeref)] }
  | some s =>
    let r := if h.dryRun then DryRun s.toStack w else Run sdk csName s.toStack w
    { out := r.out, haws := h.store name (s.ofStack r.stack), world := r.world,
      calls := r.calls, steps := [.DeployStack name r.out] }

/-- The method `GetStackOutput`. -/
def Haws.GetStackOutput {σ τ : Type} (sdk : AwsSDK σ) (h : Haws σ τ) (name : String)
    (w : σ) : HawsExec σ τ :=
  match h.stacks name with
  | none =>
    { out := .panic nilDeref, haws := h, world := w, calls := [],
      steps := [.GetStackOutput name (.panic nilDeref)] }
  | some s =>
    let r := GetOutputs sdk s.toStack w
    { out := r.out, haws := h.store name (s.ofStack r.stack), world := r.world,
      calls := r.calls, steps := [.GetStackOutput name r.out] }

/-- The error of a name that is no key of the registry. -/
def stackNotInRegistry (stack : String) : GoError :=
  Errorf ("stack " ++ stack ++ " not found")

/-- The method `SetStackParameterValue`: `SetParameterValue` on the template of the stack
named `stack`. -/
def Haws.SetStackParameterValue {σ τ : Type} (h : Haws σ τ) (stack parameter value : String)
    (w : σ) : HawsExec σ τ :=
  match h.stacks stack with
  | some st =>
    let r := st.methods.SetParameterValue st.state parameter value
    { out := r.1, haws := h.store stack { st with state := r.2 }, world := w, calls := [],
      steps := [.SetStackParameterValue stack parameter value r.1] }
  | none =>
    { out := .ret (some (stackNotInRegistry stack)), haws := h, world := w, calls := [],
      steps := [.SetStackParameterValue stack parameter value
        (.ret (some (stackNotInRegistry stack)))] }

/-- The method `GetOutputByName`: the pair `(string, error)`; a key that is not captured
reads as the empty string. -/
def Haws.GetOutputByName {σ τ : Type} (h : Haws σ τ) (stack output : String) :
    String × Option GoError :=
  match h.stacks stack with
  | some st =>
    ((GoMap.get st.Outputs ((st.methods.view st.state).GetExportName output)).getD "", none)
  | none => ("", some (stackNotInRegistry stack))

/-- The second and third statements of the body of `if stack == "cloudfront"` in `Deploy`:
the output "certificateArn" of the stack "certificate" is read, and the parameter
"certificateArn" of the stack "certificate" is set to it. -/
def Haws.rebindCertificate {σ τ : Type} (h1 : Haws σ τ) (w1 : σ) : HawsExec σ τ :=
  let read := h1.GetOutputByName "certificate" "certificateArn"
  HawsExec.andThen
    { out := .ret read.2, haws := h1, world := w1, calls := [],
      steps := [.GetOutputByName "certificate" "certificateArn" read.1 (.ret read.2)] }
    fun h2 w2 => h2.SetStackParameterValue "certificate" "certificateArn" read.1 w2

/-- The body of `if stack == "cloudfront"` in `Deploy`: the outputs of the stack
"certificate" are fetched, then its output is read and the parameter is set. -/
def Haws.beforeCloudfront {σ τ : Type} (sdk : AwsSDK σ) (h : Haws σ τ) (w : σ) :
    HawsExec σ τ :=
  (h.GetStackOutput sdk "certificate" w).andThen Haws.rebindCertificate

/-- The loop `for _, stack := range stacks` of `Deploy`; `names` gives, for a stage, the
name the name generator gives to its changeset. -/
def Haws.deployStages {σ τ : Type} (sdk : AwsSDK σ) (names : String → String) :
    List String → Haws σ τ → σ → HawsExec σ τ
  | [], h, w => HawsExec.skip h w
  | stack :: rest, h, w =>
    ((if stack = "cloudfront" then h.beforeCloudfront sdk w else HawsExec.skip h w).andThen
      fun h1 w1 => h1.DeployStack sdk (names stack) stack w1).andThen
      fun h2 w2 => Haws.deployStages sdk names rest h2 w2

/-- The method `Deploy`. -/
def Haws.Deploy {σ τ : Type} (sdk : AwsSDK σ) (names : String → String) (h : Haws σ τ)
    (w : σ) : HawsExec σ τ :=
  Haws.deployStages sdk names ["certificate", "bucket", "cloudfront", "user"] h w

/-- The calls `Deploy` makes on the methods of `Haws` when none fails, in order. -/
def deployPlan : List Method :=
  [.DeployStack "certificate", .DeployStack "bucket", .GetStackOutput "certificate",
    .GetOutputByName "certificate" "certificateArn",
    .SetStackParameterValue "certificate" "certificateArn",
    .DeployStack "cloudfront", .DeployStack "user"]

/-- The steps of an execution follow a plan: the methods called are the first methods of
the plan, in its order; when nil is returned they are the whole plan and every step
returned nil; and a step that did not return nil is the last one, its result being the
result of the execution. -/
def FollowsPlan {σ τ : Type} (plan : List Method) (x : HawsExec σ τ) : Prop :=
  (∃ rest, plan = x.steps.map Step.method ++ rest) ∧
  (x.out = .ret none →
    x.steps.map Step.method = plan ∧ ∀ s ∈ x.steps, s.result = .ret none) ∧
  (∀ pre s post, x.steps = pre ++ s :: post → s.result ≠ .ret none →
    post = [] ∧ x.out = s.result)

/-- The calls the loop of `Deploy` makes on the methods of `Haws` for one stage, when none
fails. -/
def stagePlan (stack : String) : List Method :=
  (if stack = "cloudfront" then
    [.GetStackOutput "certificate", .GetOutputByName "certificate" "certificateArn",
      .SetStackParameterValue "certificate" "certificateArn"]
  else []) ++ [.DeployStack stack]

/-- The calls the loop of `Deploy` makes for a list of stages, when none fails. -/
def stagesPlan : List String → List Method
  | [] => []
  | stack :: rest => stagePlan stack ++ stagesPlan rest

/-- What no method called by `Deploy` changes in a registry: the flag, the methods of the
four templates, and the states of the templates of "bucket", "cloudfront" and "user". -/
def Haws.fixed {σ τ : Type} (h : Haws σ τ) :
    Bool × TemplateObject τ × (TemplateObject τ × τ) × (TemplateObject τ × τ) ×
      (TemplateObject τ × τ) :=
  (h.dryRun, h.certificate.methods, (h.bucket.methods, h.bucket.state),
    (h.cloudfront.methods, h.cloudfront.state), (h.user.methods, h.user.state))

/-! ## Test doubles for haws.go -/

/-- An SDK whose default configuration gives the client `api`. -/
def sdkOf {σ : Type} (api : CloudFormationAPI σ) : AwsSDK σ :=
  { NewFromDefaultConfig := fun _ => .ok api }

/-- A registry of four new stacks on the `MockTemplate` of stack_test.go. -/
def mockHaws (dryRun : Bool) : Haws Unit Template :=
  { dryRun := dryRun
    certificate :=
      NewStackObject mockTemplateObject (MockTemplate "mock-certificate" "us-east-1" "{}-body")
    bucket := NewStackObject mockTemplateObject (MockTemplate "mock-bucket" "us-east-1" "{}-body")
    cloudfront :=
      NewStackObject mockTemplateObject (MockTemplate "mock-cloudfront" "us-east-1" "{}-body")
    user := NewStackObject mockTemplateObject (MockTemplate "mock-user" "us-east-1" "{}-body") }

/-- A component for examples, serialised to its stack name followed by "-body". -/
def exampleComponent (stackName : String) (template : TemplateComponent) : Component :=
  { stackName := stackName, JSON := fun _ => .ok (stackName ++ "-body"), template := template }

/-- A registry of four new stacks on components, for examples: the template of the stack
"certificate" is given; the template of the stack "cloudfront" has the parameter
"certificateArn", whose value is the placeholder "acme-certificate-Arn". -/
def acmeHaws (dryRun : Bool) (certificateTemplate : TemplateComponent) : Haws Script Component :=
  { dryRun := dryRun
    certificate :=
      NewStackObject componentObject (exampleComponent "acme-certificate" certificateTemplate)
    bucket :=
      NewStackObject componentObject (exampleComponent "acme-bucket" (NewTemplate "us-east-1"))
    cloudfront :=
      NewStackObject componentObject (exampleComponent "acme-cloudfront"
        ((NewTemplate "us-east-1").AddParameter "certificateArn"
          { Description := "certificate", Default := none } "acme-certificate-Arn"))
    user :=
      NewStackObject componentObject (exampleComponent "acme-user" (NewTemplate "us-east-1")) }

/-- A successful `DescribeStacks` answer listing one stack, created, with one output. -/
def outputAnswer (key value : String) : DescribeStacksResponse :=
  (some { Stacks := [{ StackStatus := StackStatusCreateComplete,
                       Outputs := [{ OutputKey := some key, OutputValue := some value }] }] },
    none)

/-- A script on which a deployment succeeds: no stack exists before its stage, every
changeset is ready and every stack is created at the first request, and the outputs of the
stack "acme-certificate", requested after the second stage, are the one output
"acme-certificate-certificateArn" with the value "arn:real:cert/1". -/
def deployScript : Script :=
  { create := none
    changeSets := List.replicate 4 (changeSetAnswer ChangeSetStatusCreateComplete none)
    delete := none
    execute := none
    describeStacks :=
      [(none, some (Errorf "does not exist")), stackAnswer StackStatusCreateComplete,
       (none, some (Errorf "does not exist")), stackAnswer StackStatusCreateComplete,
       outputAnswer "acme-certificate-certificateArn" "arn:real:cert/1",
       (none, some (Errorf "does not exist")), stackAnswer StackStatusCreateComplete,
       (none, some (Errorf "does not exist")), stackAnswer StackStatusCreateComplete] }

/-- The changeset name given to a stage in the examples. -/
def exampleNames (stage : String) : String := "cs-" ++ stage

/-- A template for the stack "certificate" that declares a parameter "certificateArn", with
the value "unset". -/
def certificateWithParameter : TemplateComponent :=
  (NewTemplate "us-east-1").AddParameter "certificateArn"
    { Description := "certificate", Default := none } "unset"

/-! ## The methods a stack has from its embedded template -/

/-- The method `GetStackName` of a stack: the one of the `Template` it embeds. -/
def Stack.GetStackName {σ : Type} (st : Stack σ) : String := st.template.GetStackName

/-- The method `GetExportName` of a stack: the one of the `Template` it embeds. -/
def Stack.GetExportName {σ : Type} (st : Stack σ) (name : String) : String :=
  st.template.GetExportName name

/-- A script for examples: the changeset is reported in progress, then FAILED with the
`EmptyChangeSet` reason; `DeleteChangeSet` is accepted. -/
def noopScript : Script :=
  scriptOf [changeSetAnswer ChangeSetStatusCreateInProgress none,
    changeSetAnswer ChangeSetStatusFailed (some EmptyChangeSet)] []

/-- A script for examples: the changeset is reported in progress, then FAILED with the
reason "boom". -/
def failedScript : Script :=
  scriptOf [changeSetAnswer ChangeSetStatusCreateInProgress none,
    changeSetAnswer ChangeSetStatusFailed (some "boom")] []

/-- A script for examples: the changeset is reported in progress, then CREATE_COMPLETE, and
the stack is reported created at the first request. -/
def readyScript : Script :=
  scriptOf [changeSetAnswer ChangeSetStatusCreateInProgress none,
    changeSetAnswer ChangeSetStatusCreateComplete none] [stackAnswer StackStatusCreateComplete]

/-! # Theorems -/

section Projections

@[simp] theorem Exec.after_calls {σ α : Type} (c : Call) (x : Exec σ α) :
    (x.after c).calls = c :: x.calls := rfl

@[simp] theorem Exec.after_out {σ α : Type} (c : Call) (x : Exec σ α) :
    (x.after c).out = x.out := rfl

@[simp] theorem Exec.after_world {σ α : Type} (c : Call) (x : Exec σ α) :
    (x.after c).world = x.world := rfl

theorem describeChangeSetResponses_map (inp : DescribeChangeSetInput)
    (rs : List DescribeChangeSetResponse) :
    describeChangeSetResponses (rs.map (Call.DescribeChangeSet inp)) = rs := by
  induction rs with
  | nil => rfl
  | cons r rs ih =>
    simpa [describeChangeSetResponses, Call.describeChangeSet?] using ih

theorem describeStacksResponses_map (inp : DescribeStacksInput)
    (rs : List DescribeStacksResponse) :
    describeStacksResponses (rs.map (Call.DescribeStacks inp)) = rs := by
  induction rs with
  | nil => rfl
  | cons r rs ih =>
    simpa [describeStacksResponses, Call.describeStacks?] using ih

theorem filterMap_map_eq_nil {α β γ : Type} (f : α → β) (g : β → Option γ)
    (h : ∀ a, g (f a) = none) (l : List α) : (l.map f).filterMap g = [] := by
  induction l with
  | nil => rfl
  | cons a l ih => simp [List.filterMap_cons, h a, ih]

theorem find?_append_decisive {α : Type} (p : α → Bool) (pre : List α) (last : α)
    (tail : List α) (hpre : ∀ r ∈ pre, p r = false) (hlast : p last = true) :
    (pre ++ last :: tail).find? p = some last := by
  induction pre with
  | nil => simp [List.find?, hlast]
  | cons a pre ih =>
    have ha : p a = false := hpre a (List.mem_cons_self _ _)
    simp only [List.cons_append, List.find?, ha]
    exact ih (fun r hr => hpre r (List.mem_cons_of_mem _ hr))

theorem find?_eq_none_of_all {α : Type} (p : α → Bool) (l : List α)
    (h : ∀ r ∈ l, p r = false) : l.find? p = none := by
  induction l with
  | nil => rfl
  | cons a l ih =>
    have ha : p a = false := h a (List.mem_cons_self _ _)
    simp only [List.find?, ha]
    exact ih (fun r hr => h r (List.mem_cons_of_mem _ hr))

end Projections

section Polling

theorem changeSetStatusFailed_ne_complete :
    ChangeSetStatusFailed ≠ ChangeSetStatusCreateComplete := by decide

/-- The shape of every run of the loop of `waitForChangeSet`: either all the attempts were
answered by a pending status and it timed out, or some answer within the attempts stopped
it, with the verdict of that answer. -/
theorem waitForChangeSetLoop_shape {σ : Type} (api : CloudFormationAPI σ) (t : Template)
    (csName : String) :
    ∀ (n : Nat) (w : σ),
      (∃ pre : List DescribeChangeSetResponse,
        pre.length = n ∧ (∀ r ∈ pre, changeSetPending r = true) ∧
        (waitForChangeSetLoop api t csName n w).calls
          = pre.map (Call.DescribeChangeSet ⟨csName, t.GetStackName⟩) ∧
        (waitForChangeSetLoop api t csName n w).out = .ret (false, some changeSetTimeout)) ∨
      (∃ (pre : List DescribeChangeSetResponse) (last : DescribeChangeSetResponse)
          (tail : List Call),
        pre.length < n ∧ (∀ r ∈ pre, changeSetPending r = true) ∧
        changeSetPending last = false ∧
        (waitForChangeSetLoop api t csName n w).calls
          = pre.map (Call.DescribeChangeSet ⟨csName, t.GetStackName⟩)
            ++ Call.DescribeChangeSet ⟨csName, t.GetStackName⟩ last :: tail ∧
        ChangeSetVerdict t csName last tail (waitForChangeSetLoop api t csName n w).out)
  | 0, w => Or.inl ⟨[], rfl, by simp, rfl, rfl⟩
  | n + 1, w => by
    have ih := waitForChangeSetLoop_shape api t csName n
      (api.DescribeChangeSet ⟨csName, t.GetStackName⟩ w).2
    rw [waitForChangeSetLoop]
    generalize api.DescribeChangeSet ⟨csName, t.GetStackName⟩ w = r at ih ⊢
    obtain ⟨⟨o, e⟩, w1⟩ := r
    cases e with
    | some err =>
      exact Or.inr ⟨[], (o, some err), [], by simp, by simp, by cases o <;> rfl, rfl,
        .remoteError o err⟩
    | none =>
      cases o with
      | none => exact Or.inr ⟨[], (none, none), [], by simp, by simp, rfl, rfl, .nilOutput⟩
      | some desc =>
        by_cases hcc : desc.Status = ChangeSetStatusCreateComplete
        · exact Or.inr ⟨[], (some desc, none), [], by simp, by simp,
            by simp [changeSetPending, hcc], by simp [hcc], by simpa [hcc] using .ready desc hcc⟩
        · by_cases hf : desc.Status = ChangeSetStatusFailed
          · have hne := changeSetStatusFailed_ne_complete
            cases hreason : desc.StatusReason with
            | none =>
              exact Or.inr ⟨[], (some desc, none), [], by simp, by simp,
                by simp [changeSetPending, hf], by simp [hf, hne, hreason],
                by simpa [hf, hne, hreason] using .nilReason desc hf hreason⟩
            | some reason =>
              by_cases hempty : reason = EmptyChangeSet
              · subst hempty
                cases hd : (api.DeleteChangeSet ⟨csName, t.GetStackName⟩ w1).1 with
                | none =>
                  exact Or.inr ⟨[], (some desc, none),
                    [Call.DeleteChangeSet ⟨csName, t.GetStackName⟩ none], by simp, by simp,
                    by simp [changeSetPending, hf], by simp [hf, hne, hreason, hd],
                    by simpa [hf, hne, hreason, hd] using .emptyDeleted desc hf hreason⟩
                | some e =>
                  exact Or.inr ⟨[], (some desc, none),
                    [Call.DeleteChangeSet ⟨csName, t.GetStackName⟩ (some e)], by simp, by simp,
                    by simp [changeSetPending, hf], by simp [hf, hne, hreason, hd],
                    by simpa [hf, hne, hreason, hd] using .emptyDeleteError desc hf hreason e⟩
              · exact Or.inr ⟨[], (some desc, none), [], by simp, by simp,
                  by simp [changeSetPending, hf], by simp [hf, hne, hreason, hempty],
                  by simpa [hf, hne, hreason, hempty] using
                    .failed desc hf reason hreason hempty⟩
          · have hp : changeSetPending (some desc, none) = true := by
              simp [changeSetPending, hcc, hf]
            simp only [hcc, hf, if_false]
            rcases ih with ⟨pre, hlen, hpre, hcalls, hout⟩ | ⟨pre, last, tail, hlen, hpre, hlast, hcalls, hv⟩
            · refine Or.inl ⟨(some desc, none) :: pre, by simp [hlen], ?_, ?_, ?_⟩
              · intro r hr
                rcases List.mem_cons.1 hr with rfl | hr
                · exact hp
                · exact hpre r hr
              · simp [hcalls]
              · simpa using hout
            · refine Or.inr ⟨(some desc, none) :: pre, last, tail, by simp; omega, ?_, hlast, ?_, ?_⟩
              · intro r hr
                rcases List.mem_cons.1 hr with rfl | hr
                · exact hp
                · exact hpre r hr
              · simp [hcalls]
              · simpa using hv

theorem isFailureStatus_targetStatus (csType : String) :
    isFailureStatus (targetStatus csType) = false := by
  unfold targetStatus
  split
  · decide
  · decide

/-- The shape of every run of the polling loop of `executeChangeSet`. -/
theorem executeChangeSetLoop_shape {σ : Type} (api : CloudFormationAPI σ) (t : Template)
    (target : String) :
    ∀ (n : Nat) (w : σ),
      (∃ pre : List DescribeStacksResponse,
        pre.length = n ∧ (∀ r ∈ pre, stackPending target r = true) ∧
        (executeChangeSetLoop api t target n w).calls
          = pre.map (Call.DescribeStacks ⟨t.GetStackName⟩) ∧
        (executeChangeSetLoop api t target n w).out = .ret (some stackOperationTimeout)) ∨
      (∃ (pre : List DescribeStacksResponse) (last : DescribeStacksResponse),
        pre.length < n ∧ (∀ r ∈ pre, stackPending target r = true) ∧
        stackPending target last = false ∧
        (executeChangeSetLoop api t target n w).calls
          = pre.map (Call.DescribeStacks ⟨t.GetStackName⟩)
            ++ [Call.DescribeStacks ⟨t.GetStackName⟩ last] ∧
        StackVerdict target last (executeChangeSetLoop api t target n w).out)
  | 0, w => Or.inl ⟨[], rfl, by simp, rfl, rfl⟩
  | n + 1, w => by
    have ih := executeChangeSetLoop_shape api t target n
      (api.DescribeStacks ⟨t.GetStackName⟩ w).2
    rw [executeChangeSetLoop]
    generalize api.DescribeStacks ⟨t.GetStackName⟩ w = r at ih ⊢
    obtain ⟨⟨o, e⟩, w1⟩ := r
    cases e with
    | some err =>
      exact Or.inr ⟨[], (o, some err), by simp, by simp, by cases o <;> rfl, rfl,
        .remoteError o err⟩
    | none =>
      cases o with
      | none => exact Or.inr ⟨[], (none, none), by simp, by simp, rfl, rfl, .nilOutput⟩
      | some resp =>
        cases hst : resp.Stacks with
        | nil =>
          exact Or.inr ⟨[], (some resp, none), by simp, by simp,
            by simp [stackPending, hst], by simp [hst],
            by simpa [hst] using .notFound resp hst⟩
        | cons first rest =>
          by_cases ht : first.StackStatus = target
          · exact Or.inr ⟨[], (some resp, none), by simp, by simp,
              by simp [stackPending, hst, stackDecisive, ht], by simp [hst, ht],
              by simpa [hst, ht] using .done resp first rest hst ht⟩
          · by_cases hf : isFailureStatus first.StackStatus = true
            · exact Or.inr ⟨[], (some resp, none), by simp, by simp,
                by simp [stackPending, hst, stackDecisive, hf], by simp [hst, ht, hf],
                by simpa [hst, ht, hf] using .failed resp first rest hst ht hf⟩
            · have hp : stackPending target (some resp, none) = true := by
                simp [stackPending, hst, stackDecisive, ht, hf]
              simp only [hst, ht, hf, if_false]
              rcases ih with ⟨pre, hlen, hpre, hcalls, hout⟩ | ⟨pre, last, hlen, hpre, hlast, hcalls, hv⟩
              · refine Or.inl ⟨(some resp, none) :: pre, by simp [hlen], ?_, ?_, ?_⟩
                · intro r hr
                  rcases List.mem_cons.1 hr with rfl | hr
                  · exact hp
                  · exact hpre r hr
                · simp [hcalls]
                · simpa using hout
              · refine Or.inr ⟨(some resp, none) :: pre, last, by simp; omega, ?_, hlast, ?_, ?_⟩
                · intro r hr
                  rcases List.mem_cons.1 hr with rfl | hr
                  · exact hp
                  · exact hpre r hr
                · simp [hcalls]
                · simpa using hv

/-- The calls that follow the answer which stopped `waitForChangeSet` are no
`DescribeChangeSet`, `CreateChangeSet`, `ExecuteChangeSet` or `DescribeStacks` calls. -/
theorem ChangeSetVerdict.tail_projections {t : Template} {csName : String}
    {last : DescribeChangeSetResponse} {tail : List Call}
    {out : Outcome (Bool × Option GoError)} (h : ChangeSetVerdict t csName last tail out) :
    describeChangeSetResponses tail = [] ∧ createChangeSetCalls tail = [] ∧
    executeChangeSetCalls tail = [] ∧ describeStacksResponses tail = [] := by
  cases h <;> exact ⟨rfl, rfl, rfl, rfl⟩

/-- A run of the loop of `waitForChangeSet` makes no call other than `DescribeChangeSet`
and `DeleteChangeSet`. -/
theorem waitForChangeSetLoop_others {σ : Type} (api : CloudFormationAPI σ) (t : Template)
    (csName : String) (n : Nat) (w : σ) :
    createChangeSetCalls (waitForChangeSetLoop api t csName n w).calls = [] ∧
    executeChangeSetCalls (waitForChangeSetLoop api t csName n w).calls = [] ∧
    describeStacksResponses (waitForChangeSetLoop api t csName n w).calls = [] := by
  rcases waitForChangeSetLoop_shape api t csName n w with
    ⟨pre, _, _, hcalls, _⟩ | ⟨pre, last, tail, _, _, _, hcalls, hv⟩
  · rw [hcalls]
    exact ⟨filterMap_map_eq_nil _ _ (fun _ => rfl) pre,
      filterMap_map_eq_nil _ _ (fun _ => rfl) pre, filterMap_map_eq_nil _ _ (fun _ => rfl) pre⟩
  · obtain ⟨_, h2, h3, h4⟩ := hv.tail_projections
    rw [hcalls]
    refine ⟨?_, ?_, ?_⟩
    · unfold createChangeSetCalls at h2 ⊢
      rw [List.filterMap_append, filterMap_map_eq_nil _ _ (fun _ => rfl) pre,
        List.filterMap_cons]
      simpa [Call.createChangeSet?] using h2
    · unfold executeChangeSetCalls at h3 ⊢
      rw [List.filterMap_append, filterMap_map_eq_nil _ _ (fun _ => rfl) pre,
        List.filterMap_cons]
      simpa [Call.executeChangeSet?] using h3
    · unfold describeStacksResponses at h4 ⊢
      rw [List.filterMap_append, filterMap_map_eq_nil _ _ (fun _ => rfl) pre,
        List.filterMap_cons]
      simpa [Call.describeStacks?] using h4

/-- When the answers of a run of the loop of `waitForChangeSet` have a first decisive one,
that answer is the last `DescribeChangeSet` answer of the run, all the answers before it
were pending, and the run ends by the verdict of that answer. -/
theorem waitForChangeSetLoop_decided {σ : Type} (api : CloudFormationAPI σ) (t : Template)
    (csName : String) (n : Nat) (w : σ) (R : DescribeChangeSetResponse)
    (h : firstDecisiveChangeSet
      (describeChangeSetResponses (waitForChangeSetLoop api t csName n w).calls) = some R) :
    ∃ (pre : List DescribeChangeSetResponse) (tail : List Call),
      pre.length < n ∧ (∀ r ∈ pre, changeSetPending r = true) ∧
      (waitForChangeSetLoop api t csName n w).calls
        = pre.map (Call.DescribeChangeSet ⟨csName, t.GetStackName⟩)
          ++ Call.DescribeChangeSet ⟨csName, t.GetStackName⟩ R :: tail ∧
      describeChangeSetResponses (waitForChangeSetLoop api t csName n w).calls = pre ++ [R] ∧
      ChangeSetVerdict t csName R tail (waitForChangeSetLoop api t csName n w).out := by
  rcases waitForChangeSetLoop_shape api t csName n w with
    ⟨pre, _, hpre, hcalls, _⟩ | ⟨pre, last, tail, hlen, hpre, hlast, hcalls, hv⟩
  · rw [hcalls, describeChangeSetResponses_map] at h
    rw [firstDecisiveChangeSet, find?_eq_none_of_all _ _ (fun r hr => by simp [hpre r hr])] at h
    exact absurd h (by simp)
  · have hresp : describeChangeSetResponses (waitForChangeSetLoop api t csName n w).calls
        = pre ++ [last] := by
      rw [hcalls]
      unfold describeChangeSetResponses
      rw [List.filterMap_append, List.filterMap_cons]
      have h1 := describeChangeSetResponses_map ⟨csName, t.GetStackName⟩ pre
      have h2 := hv.tail_projections.1
      unfold describeChangeSetResponses at h1 h2
      simp [Call.describeChangeSet?, h1, h2]
    rw [hresp, firstDecisiveChangeSet,
      find?_append_decisive _ pre last [] (fun r hr => by simp [hpre r hr]) (by simp [hlast])] at h
    cases h
    exact ⟨pre, tail, hlen, hpre, hcalls, hresp, hv⟩

/-- The `DeleteChangeSet` calls of a run of the loop of `waitForChangeSet` are those made
after the answer that stopped it. -/
theorem deleteChangeSetCalls_wait (inp : DescribeChangeSetInput)
    (pre : List DescribeChangeSetResponse) (R : DescribeChangeSetResponse) (tail : List Call) :
    deleteChangeSetCalls (pre.map (Call.DescribeChangeSet inp)
      ++ Call.DescribeChangeSet inp R :: tail) = deleteChangeSetCalls tail := by
  unfold deleteChangeSetCalls
  rw [List.filterMap_append, filterMap_map_eq_nil _ _ (fun _ => rfl) pre, List.filterMap_cons]
  simp [Call.deleteChangeSet?]

/-- The calls of `executeChangeSet`: one `ExecuteChangeSet` call, then at most 120
`DescribeStacks` calls, and none when `ExecuteChangeSet` gave an error. -/
theorem executeChangeSet_calls {σ : Type} (api : CloudFormationAPI σ) (t : Template)
    (csName csType : String) (w : σ) :
    ∃ (e : Option GoError) (rs : List DescribeStacksResponse),
      (executeChangeSet api t csName csType w).calls
        = Call.ExecuteChangeSet ⟨csName, csName, t.GetStackName⟩ e
          :: rs.map (Call.DescribeStacks ⟨t.GetStackName⟩) ∧
      rs.length ≤ 120 ∧
      (∀ err, e = some err → rs = [] ∧ (executeChangeSet api t csName csType w).out = .ret e) := by
  unfold executeChangeSet
  simp only []
  split
  · rename_i err herr
    exact ⟨some err, [], by simp [herr], by simp, fun _ _ => ⟨rfl, rfl⟩⟩
  · rename_i herr
    rcases executeChangeSetLoop_shape api t (targetStatus csType) 120
        (api.ExecuteChangeSet ⟨csName, csName, t.GetStackName⟩ w).2 with
      ⟨pre, hlen, _, hcalls, _⟩ | ⟨pre, last, hlen, _, _, hcalls, _⟩
    · exact ⟨none, pre, by simp [herr, hcalls], by omega, fun _ h => by cases h⟩
    · exact ⟨none, pre ++ [last], by simp [herr, hcalls], by simp; omega, fun _ h => by cases h⟩

/-- The calls of `executeChangeSet`, by kind. -/
theorem executeChangeSet_projections {σ : Type} (api : CloudFormationAPI σ) (t : Template)
    (csName csType : String) (w : σ) :
    describeChangeSetResponses (executeChangeSet api t csName csType w).calls = [] ∧
    createChangeSetCalls (executeChangeSet api t csName csType w).calls = [] ∧
    deleteChangeSetCalls (executeChangeSet api t csName csType w).calls = [] ∧
    (executeChangeSetCalls (executeChangeSet api t csName csType w).calls).map (fun c => c.1)
      = [⟨csName, csName, t.GetStackName⟩] := by
  obtain ⟨e, rs, hcalls, _, _⟩ := executeChangeSet_calls api t csName csType w
  rw [hcalls]
  refine ⟨?_, ?_, ?_, ?_⟩
  · unfold describeChangeSetResponses
    rw [List.filterMap_cons, filterMap_map_eq_nil _ _ (fun _ => rfl) rs]
    rfl
  · unfold createChangeSetCalls
    rw [List.filterMap_cons, filterMap_map_eq_nil _ _ (fun _ => rfl) rs]
    rfl
  · unfold deleteChangeSetCalls
    rw [List.filterMap_cons, filterMap_map_eq_nil _ _ (fun _ => rfl) rs]
    rfl
  · unfold executeChangeSetCalls
    rw [List.filterMap_cons, filterMap_map_eq_nil _ _ (fun _ => rfl) rs]
    rfl

end Polling

section RunShape

/-- What `Run` does once it has a client `api` and the serialised template. -/
theorem Run_trace_of_client {σ : Type} (api : CloudFormationAPI σ) (csName : String)
    (t : Template) (w : σ) (body : String) (x : Exec σ (String × String × Option GoError))
    (hx : x = initialChangeSet api t csName body w) :
    ∃ (probe : DescribeStacksResponse) (inp : CreateChangeSetInput) (ce : Option GoError)
      (csType : String),
      x.calls = [Call.DescribeStacks ⟨t.GetStackName⟩ probe, Call.CreateChangeSet inp ce] ∧
      inp.ChangeSetName = csName ∧
      ((∃ e, ce = some e ∧ x.out = .ret ("", "", some e)) ∨
       (ce = none ∧ x.out = .ret (csName, csType, none) ∧
        x.world = (api.CreateChangeSet inp (api.DescribeStacks ⟨t.GetStackName⟩ w).2).2)) := by
  subst hx
  unfold initialChangeSet stackExist
  simp only []
  split
  · rename_i err herr
    exact ⟨_, _, _, "", rfl, rfl, Or.inl ⟨err, herr, rfl⟩⟩
  · rename_i herr
    exact ⟨_, _, _, _, rfl, rfl, Or.inr ⟨herr, rfl, rfl⟩⟩

/-- Every run of `Run` either stops before any call (no client could be created, or the
template does not serialise) or follows one of the traces of `RunTrace`. -/
theorem Run_trace {σ : Type} (sdk : AwsSDK σ) (csName : String) (st : Stack σ) (w : σ) :
    ((Run sdk csName st w).calls = [] ∧ ∃ e, (Run sdk csName st w).out = .ret (some e)) ∨
    ∃ api : CloudFormationAPI σ,
      RunTrace api st.template csName (Run sdk csName st w).calls (Run sdk csName st w).out := by
  unfold Run
  simp only []
  split
  · exact Or.inl ⟨rfl, _, rfl⟩
  · rename_i api hclient
    split
    · exact Or.inl ⟨rfl, _, rfl⟩
    · rename_i body hjson
      obtain ⟨probe, inp, ce, csType, hcalls, hname, hcase⟩ :=
        Run_trace_of_client api csName st.template w body _ rfl
      refine Or.inr ⟨api, ?_⟩
      rcases hcase with ⟨e, hce, hout⟩ | ⟨hce, hout, hworld⟩
      · subst hce
        simp only [hout, hcalls]
        exact .createFailed probe inp e hname
      · subst hce
        simp only [hout, hcalls]
        clear hworld hout hcalls
        generalize (initialChangeSet api st.template csName body w).world = w2
        cases hw : (waitForChangeSet api st.template csName w2).out with
        | panic p =>
          simp only [List.cons_append, List.nil_append]
          exact .waitPanic probe inp w2 p hname hw
        | ret v =>
          obtain ⟨ok, e⟩ := v
          cases e with
          | some err =>
            simp only [List.cons_append, List.nil_append]
            exact .waitError probe inp w2 ok err hname hw
          | none =>
            cases ok with
            | true =>
              simp only [List.cons_append, List.nil_append, if_true]
              exact .noChanges probe inp w2 hname hw
            | false =>
              have hex := RunTrace.executed probe inp w2 csType hname hw
              simp only [List.cons_append, List.nil_append, Bool.false_eq_true, if_false]
              cases hx : (executeChangeSet api st.template csName csType
                  (waitForChangeSet api st.template csName w2).world).out with
              | panic p =>
                rw [hx] at hex
                simpa using hex
              | ret r =>
                rw [hx] at hex
                cases r with
                | none => simpa using hex
                | some err => simpa using hex

/-- A run of `Run` in which some `DescribeChangeSet` answer was decisive: the calls are the
existence probe, the accepted `CreateChangeSet`, the calls of `waitForChangeSet` and, when
`waitForChangeSet` returned `(false, nil)`, those of `executeChangeSet`. -/
theorem Run_waited {σ : Type} (sdk : AwsSDK σ) (csName : String) (st : Stack σ) (w : σ)
    (R : DescribeChangeSetResponse)
    (h : firstDecisiveChangeSet (describeChangeSetResponses (Run sdk csName st w).calls)
      = some R) :
    ∃ (api : CloudFormationAPI σ) (probe : DescribeStacksResponse)
      (inp : CreateChangeSetInput) (w2 : σ) (ext : List Call),
      inp.ChangeSetName = csName ∧
      (Run sdk csName st w).calls
        = Call.DescribeStacks ⟨st.template.GetStackName⟩ probe :: Call.CreateChangeSet inp none
          :: ((waitForChangeSet api st.template csName w2).calls ++ ext) ∧
      describeChangeSetResponses (Run sdk csName st w).calls
        = describeChangeSetResponses (waitForChangeSet api st.template csName w2).calls ∧
      createChangeSetCalls (Run sdk csName st w).calls = [(inp, none)] ∧
      deleteChangeSetCalls (Run sdk csName st w).calls
        = deleteChangeSetCalls (waitForChangeSet api st.template csName w2).calls ∧
      ((∃ p, (waitForChangeSet api st.template csName w2).out = .panic p) ∨
       (∃ b e, (waitForChangeSet api st.template csName w2).out = .ret (b, some e) ∧
          (Run sdk csName st w).out = .ret (some e) ∧
          executeChangeSetCalls (Run sdk csName st w).calls = []) ∨
       ((waitForChangeSet api st.template csName w2).out = .ret (true, none) ∧
          (Run sdk csName st w).out = .ret none ∧
          executeChangeSetCalls (Run sdk csName st w).calls = []) ∨
       ((waitForChangeSet api st.template csName w2).out = .ret (false, none) ∧
          (executeChangeSetCalls (Run sdk csName st w).calls).map (fun c => c.1)
            = [⟨csName, csName, st.template.GetStackName⟩])) := by
  rcases Run_trace sdk csName st w with ⟨h0, _⟩ | ⟨api, hrt⟩
  · rw [h0] at h
    exact absurd h (by simp [firstDecisiveChangeSet, describeChangeSetResponses])
  · revert h
    generalize (Run sdk csName st w).calls = calls at hrt ⊢
    generalize (Run sdk csName st w).out = out at hrt ⊢
    intro h
    have hproj : ∀ (probe : DescribeStacksResponse) (inp : CreateChangeSetInput) (w2 : σ),
        describeChangeSetResponses
            (Call.DescribeStacks ⟨st.template.GetStackName⟩ probe :: Call.CreateChangeSet inp none
              :: ((waitForChangeSet api st.template csName w2).calls ++ []))
          = describeChangeSetResponses (waitForChangeSet api st.template csName w2).calls ∧
        createChangeSetCalls
            (Call.DescribeStacks ⟨st.template.GetStackName⟩ probe :: Call.CreateChangeSet inp none
              :: ((waitForChangeSet api st.template csName w2).calls ++ []))
          = [(inp, none)] ∧
        deleteChangeSetCalls
            (Call.DescribeStacks ⟨st.template.GetStackName⟩ probe :: Call.CreateChangeSet inp none
              :: ((waitForChangeSet api st.template csName w2).calls ++ []))
          = deleteChangeSetCalls (waitForChangeSet api st.template csName w2).calls ∧
        executeChangeSetCalls
            (Call.DescribeStacks ⟨st.template.GetStackName⟩ probe :: Call.CreateChangeSet inp none
              :: ((waitForChangeSet api st.template csName w2).calls ++ []))
          = [] := by
      intro probe inp w2
      obtain ⟨h1, h2, _⟩ := waitForChangeSetLoop_others api st.template csName 30 w2
      unfold createChangeSetCalls at h1
      unfold executeChangeSetCalls at h2
      unfold waitForChangeSet
      simp [describeChangeSetResponses, createChangeSetCalls, deleteChangeSetCalls,
        executeChangeSetCalls, List.filterMap_cons, Call.describeChangeSet?,
        Call.createChangeSet?, Call.deleteChangeSet?, Call.executeChangeSet?, h1, h2]
    cases hrt with
    | createFailed probe inp e hname =>
      exact absurd h (by simp [firstDecisiveChangeSet, describeChangeSetResponses,
        List.filterMap_cons, Call.describeChangeSet?])
    | waitPanic probe inp w2 p hname hw =>
      obtain ⟨h1, h2, h3, _⟩ := hproj probe inp w2
      simp only [List.append_nil] at h1 h2 h3
      exact ⟨api, probe, inp, w2, [], hname, by simp, h1, h2, h3, Or.inl ⟨p, hw⟩⟩
    | waitError probe inp w2 b e hname hw =>
      obtain ⟨h1, h2, h3, h4⟩ := hproj probe inp w2
      simp only [List.append_nil] at h1 h2 h3 h4
      exact ⟨api, probe, inp, w2, [], hname, by simp, h1, h2, h3,
        Or.inr (Or.inl ⟨b, e, hw, rfl, h4⟩)⟩
    | noChanges probe inp w2 hname hw =>
      obtain ⟨h1, h2, h3, h4⟩ := hproj probe inp w2
      simp only [List.append_nil] at h1 h2 h3 h4
      exact ⟨api, probe, inp, w2, [], hname, by simp, h1, h2, h3,
        Or.inr (Or.inr (Or.inl ⟨hw, rfl, h4⟩))⟩
    | executed probe inp w2 csType hname hw =>
      obtain ⟨h1, h2, h3, h4⟩ := hproj probe inp w2
      simp only [List.append_nil] at h1 h2 h3 h4
      obtain ⟨e1, e2, e3, e4⟩ := executeChangeSet_projections api st.template csName csType
        (waitForChangeSet api st.template csName w2).world
      unfold describeChangeSetResponses at h1 e1
      unfold createChangeSetCalls at h2 e2
      unfold deleteChangeSetCalls at h3 e3
      unfold executeChangeSetCalls at h4 e4
      simp only [List.filterMap_cons, Call.describeChangeSet?, Call.createChangeSet?,
        Call.deleteChangeSet?, Call.executeChangeSet?] at h1 h2 h3 h4
      refine ⟨api, probe, inp, w2, _, hname, rfl, ?_, ?_, ?_, Or.inr (Or.inr (Or.inr ⟨hw, ?_⟩))⟩
      · simp [describeChangeSetResponses, List.filterMap_cons, List.filterMap_append,
          Call.describeChangeSet?, e1]
      · simpa [createChangeSetCalls, List.filterMap_cons, List.filterMap_append,
          Call.createChangeSet?, e2] using h2
      · simp [deleteChangeSetCalls, List.filterMap_cons, List.filterMap_append,
          Call.deleteChangeSet?, e3]
      · simp only [executeChangeSetCalls, List.filterMap_cons, List.filterMap_append,
          Call.executeChangeSet?, h4, List.nil_append]
        exact e4

end RunShape

/-! ## The changeset protocol of `Run` -/

section Claims

/-- The no-op changeset, read on the recorded answers. In every run of `Run` in which the
client accepted `CreateChangeSet`, the first decisive `DescribeChangeSet` answer (all earlier ones being
pending) was FAILED with exactly the `EmptyChangeSet` reason, and `DeleteChangeSet`
succeeded: that answer came within the 30 attempts, `DeleteChangeSet` was called exactly
once, for the changeset name given to `CreateChangeSet`, `Run` returned nil, and
`ExecuteChangeSet` was never called. -/
theorem Run_noop_recorded {σ : Type} (sdk : AwsSDK σ) (csName : String) (st : Stack σ)
    (w : σ)
    (_hcreate : ∀ c ∈ createChangeSetCalls (Run sdk csName st w).calls, c.2 = none)
    (hfirst : firstDecisiveChangeSet (describeChangeSetResponses (Run sdk csName st w).calls)
      = some (some ⟨ChangeSetStatusFailed, some EmptyChangeSet⟩, none))
    (hdelete : ∀ c ∈ deleteChangeSetCalls (Run sdk csName st w).calls, c.2 = none) :
    (describeChangeSetResponses (Run sdk csName st w).calls).length ≤ 30 ∧
    (createChangeSetCalls (Run sdk csName st w).calls).map (fun c => c.1.ChangeSetName)
      = [csName] ∧
    deleteChangeSetCalls (Run sdk csName st w).calls
      = [(⟨csName, st.template.GetStackName⟩, none)] ∧
    (Run sdk csName st w).out = .ret none ∧
    executeChangeSetCalls (Run sdk csName st w).calls = [] := by
  obtain ⟨api, probe, inp, w2, ext, hname, -, hresp, hcreate, hdel, hcase⟩ :=
    Run_waited sdk csName st w _ hfirst
  rw [hresp] at hfirst ⊢
  obtain ⟨pre, tail, hlen, -, hwcalls, hwresp, hv⟩ :=
    waitForChangeSetLoop_decided api st.template csName 30 w2 _ hfirst
  have hdt := deleteChangeSetCalls_wait ⟨csName, st.template.GetStackName⟩ pre
    (some ⟨ChangeSetStatusFailed, some EmptyChangeSet⟩, none) tail
  rw [← hwcalls] at hdt
  rw [hdel] at hdelete ⊢
  change deleteChangeSetCalls (waitForChangeSet api st.template csName w2).calls = _ at hdt
  rw [hdt] at hdelete ⊢
  change ChangeSetVerdict _ _ _ _ (waitForChangeSet api st.template csName w2).out at hv
  change describeChangeSetResponses (waitForChangeSet api st.template csName w2).calls = _
    at hwresp
  refine ⟨by rw [hwresp]; simp; omega, by rw [hcreate]; simp [hname], ?_⟩
  generalize (waitForChangeSet api st.template csName w2).out = wout at hv hcase
  cases hv with
  | ready d h => exact absurd h changeSetStatusFailed_ne_complete
  | nilReason d h hr => cases hr
  | emptyDeleted d h hr =>
    rcases hcase with ⟨p, hp⟩ | ⟨b, e, hw, -⟩ | ⟨-, hout, hexec⟩ | ⟨hw, -⟩
    · cases hp
    · cases hw
    · exact ⟨rfl, hout, hexec⟩
    · cases hw
  | emptyDeleteError d h hr e =>
    have := hdelete (⟨csName, st.template.GetStackName⟩, some e)
      (by simp [deleteChangeSetCalls, Call.deleteChangeSet?])
    cases this
  | failed d h m hr hm =>
    cases hr
    exact absurd rfl hm

/-- C2, as stated, fails: the bound of 30 attempts is missing from it. A client accepts
`CreateChangeSet` and answers `DescribeChangeSet` with CREATE_IN_PROGRESS thirty times and
then with FAILED and the reason "boom", so that its first decisive answer reports FAILED
with a reason other than `EmptyChangeSet`; `Run` stops after the thirtieth answer and
returns the timeout error, whose text does not contain "boom". -/
theorem Run_failed_changeset_after_budget :
    firstDecisiveChangeSet
        (List.replicate 30 (changeSetAnswer "CREATE_IN_PROGRESS" none)
          ++ [changeSetAnswer "FAILED" (some "boom")])
      = some (some ⟨ChangeSetStatusFailed, some "boom"⟩, none) ∧
    "boom" ≠ EmptyChangeSet ∧
    (Run noSDK "cs-1" (mockStack scripted [])
      (scriptOf (List.replicate 30 (changeSetAnswer "CREATE_IN_PROGRESS" none)
        ++ [changeSetAnswer "FAILED" (some "boom")]) [])).out
      = .ret (some (Errorf "timed out waiting for change set creation to complete")) ∧
    ¬ ("boom".data <:+: "timed out waiting for change set creation to complete".data) ∧
    (describeChangeSetResponses (Run noSDK "cs-1" (mockStack scripted [])
      (scriptOf (List.replicate 30 (changeSetAnswer "CREATE_IN_PROGRESS" none)
        ++ [changeSetAnswer "FAILED" (some "boom")]) [])).calls).length = 30 := by
  decide

/-- The failed changeset, read on the recorded answers. In every run of `Run` in which the
first decisive `DescribeChangeSet` answer came within the 30 attempts (it is among the
answers `Run` received, fewer than 30 pending ones before it) and was FAILED with a reason
`m` other than `EmptyChangeSet`: `Run` returned the error "change set creation failed: "
followed by `m`, that answer was the last `DescribeChangeSet` call, and neither
`ExecuteChangeSet` nor `DeleteChangeSet` was called. -/
theorem Run_failed_recorded {σ : Type} (sdk : AwsSDK σ) (csName : String) (st : Stack σ)
    (w : σ) (m : String) (hm : m ≠ EmptyChangeSet)
    (hfirst : firstDecisiveChangeSet (describeChangeSetResponses (Run sdk csName st w).calls)
      = some (some ⟨ChangeSetStatusFailed, some m⟩, none)) :
    (Run sdk csName st w).out
      = .ret (some (Errorf ("change set creation failed: " ++ m))) ∧
    (∃ pre : List DescribeChangeSetResponse,
      describeChangeSetResponses (Run sdk csName st w).calls
        = pre ++ [(some ⟨ChangeSetStatusFailed, some m⟩, none)] ∧
      (∀ r ∈ pre, changeSetPending r = true) ∧ pre.length < 30) ∧
    executeChangeSetCalls (Run sdk csName st w).calls = [] ∧
    deleteChangeSetCalls (Run sdk csName st w).calls = [] := by
  obtain ⟨api, probe, inp, w2, ext, hname, -, hresp, -, hdel, hcase⟩ :=
    Run_waited sdk csName st w _ hfirst
  rw [hresp] at hfirst ⊢
  obtain ⟨pre, tail, hlen, hpre, hwcalls, hwresp, hv⟩ :=
    waitForChangeSetLoop_decided api st.template csName 30 w2 _ hfirst
  have hdt := deleteChangeSetCalls_wait ⟨csName, st.template.GetStackName⟩ pre
    (some ⟨ChangeSetStatusFailed, some m⟩, none) tail
  rw [← hwcalls] at hdt
  rw [hdel]
  change deleteChangeSetCalls (waitForChangeSet api st.template csName w2).calls = _ at hdt
  rw [hdt]
  change ChangeSetVerdict _ _ _ _ (waitForChangeSet api st.template csName w2).out at hv
  change describeChangeSetResponses (waitForChangeSet api st.template csName w2).calls = _
    at hwresp
  refine ⟨?_, ⟨pre, hwresp, hpre, hlen⟩, ?_⟩
  all_goals
    generalize (waitForChangeSet api st.template csName w2).out = wout at hv hcase
    cases hv with
    | ready d h => exact absurd h changeSetStatusFailed_ne_complete
    | nilReason d h hr => cases hr
    | emptyDeleted d h hr =>
      cases hr
      exact absurd rfl hm
    | emptyDeleteError d h hr e =>
      cases hr
      exact absurd rfl hm
    | failed d h m1 hr hm1 =>
      cases hr
      rcases hcase with ⟨p, hp⟩ | ⟨b, e, hw, hout, hexec⟩ | ⟨hw, -⟩ | ⟨hw, -⟩
      · cases hp
      · cases hw
        first
          | exact hout
          | exact ⟨hexec, rfl⟩
      · cases hw
      · cases hw

/-- The ready changeset, read on the recorded answers. When the first decisive
`DescribeChangeSet` answer received (all earlier
ones being pending) is CREATE_COMPLETE, `waitForChangeSet` returns `(false, nil)` and that
answer came within the 30 attempts; and in such a run of `Run`, `ExecuteChangeSet` was
called exactly once, with the changeset name given to `CreateChangeSet`, and
`DeleteChangeSet` was never called. -/
theorem Run_ready_recorded {σ : Type} :
    (∀ (api : CloudFormationAPI σ) (t : Template) (csName : String) (w : σ)
        (d : DescribeChangeSetOutput),
      d.Status = ChangeSetStatusCreateComplete →
      firstDecisiveChangeSet
        (describeChangeSetResponses (waitForChangeSet api t csName w).calls)
        = some (some d, none) →
      (waitForChangeSet api t csName w).out = .ret (false, none) ∧
      (describeChangeSetResponses (waitForChangeSet api t csName w).calls).length ≤ 30) ∧
    (∀ (sdk : AwsSDK σ) (csName : String) (st : Stack σ) (w : σ)
        (d : DescribeChangeSetOutput),
      d.Status = ChangeSetStatusCreateComplete →
      firstDecisiveChangeSet (describeChangeSetResponses (Run sdk csName st w).calls)
        = some (some d, none) →
      (createChangeSetCalls (Run sdk csName st w).calls).map (fun c => c.1.ChangeSetName)
        = [csName] ∧
      (executeChangeSetCalls (Run sdk csName st w).calls).map (fun c => c.1)
        = [⟨csName, csName, st.template.GetStackName⟩] ∧
      deleteChangeSetCalls (Run sdk csName st w).calls = []) := by
  have key : ∀ (api : CloudFormationAPI σ) (t : Template) (csName : String) (w : σ)
      (d : DescribeChangeSetOutput),
      d.Status = ChangeSetStatusCreateComplete →
      firstDecisiveChangeSet
        (describeChangeSetResponses (waitForChangeSet api t csName w).calls)
        = some (some d, none) →
      (waitForChangeSet api t csName w).out = .ret (false, none) ∧
      (describeChangeSetResponses (waitForChangeSet api t csName w).calls).length ≤ 30 ∧
      deleteChangeSetCalls (waitForChangeSet api t csName w).calls = [] := by
    intro api t csName w d hd hfirst
    obtain ⟨pre, tail, hlen, -, hwcalls, hwresp, hv⟩ :=
      waitForChangeSetLoop_decided api t csName 30 w _ hfirst
    have hdt := deleteChangeSetCalls_wait ⟨csName, t.GetStackName⟩ pre (some d, none) tail
    rw [← hwcalls] at hdt
    change deleteChangeSetCalls (waitForChangeSet api t csName w).calls = _ at hdt
    change ChangeSetVerdict _ _ _ _ (waitForChangeSet api t csName w).out at hv
    change describeChangeSetResponses (waitForChangeSet api t csName w).calls = _ at hwresp
    rw [hdt, hwresp]
    have hne : d.Status ≠ ChangeSetStatusFailed := by
      rw [hd]
      decide
    generalize (waitForChangeSet api t csName w).out = wout at hv
    cases hv with
    | ready d h => exact ⟨rfl, by simp; omega, rfl⟩
    | nilReason d h hr => exact absurd h hne
    | emptyDeleted d h hr => exact absurd h hne
    | emptyDeleteError d h hr e => exact absurd h hne
    | failed d h m1 hr hm1 => exact absurd h hne
  refine ⟨fun api t csName w d hd hfirst => ?_, fun sdk csName st w d hd hfirst => ?_⟩
  · obtain ⟨h1, h2, -⟩ := key api t csName w d hd hfirst
    exact ⟨h1, h2⟩
  · obtain ⟨api, probe, inp, w2, ext, hname, -, hresp, hcreate, hdel, hcase⟩ :=
      Run_waited sdk csName st w _ hfirst
    rw [hresp] at hfirst
    obtain ⟨hout, -, hdel0⟩ := key api st.template csName w2 d hd hfirst
    refine ⟨by rw [hcreate]; simp [hname], ?_, by rw [hdel, hdel0]⟩
    rw [hout] at hcase
    rcases hcase with ⟨p, hp⟩ | ⟨b, e, hw, -⟩ | ⟨hw, -⟩ | ⟨-, hexec⟩
    · cases hp
    · cases hw
    · cases hw
    · exact hexec

end Claims

/-! ## Polling: first decisive status and timeouts -/

section PollingClaims

theorem stackStatus?_of_pending (target : String) (r : DescribeStacksResponse)
    (h : stackPending target r = true) :
    ∃ s, stackStatus? r = some s ∧ stackDecisive target s = false := by
  obtain ⟨o, e⟩ := r
  cases e with
  | some err => cases o <;> simp [stackPending] at h
  | none =>
    cases o with
    | none => simp [stackPending] at h
    | some resp =>
      cases hst : resp.Stacks with
      | nil => simp [stackPending, hst] at h
      | cons first rest =>
        refine ⟨first.StackStatus, by simp [stackStatus?, hst], ?_⟩
        simpa [stackPending, hst] using h

theorem stackStatuses_pending (target : String) (pre : List DescribeStacksResponse)
    (h : ∀ r ∈ pre, stackPending target r = true) :
    (stackStatuses pre).length = pre.length ∧
    ∀ p ∈ stackStatuses pre, stackDecisive target p = false := by
  induction pre with
  | nil => exact ⟨rfl, by simp [stackStatuses]⟩
  | cons r pre ih =>
    obtain ⟨s, hs, hd⟩ := stackStatus?_of_pending target r (h r (List.mem_cons_self _ _))
    obtain ⟨ih1, ih2⟩ := ih (fun x hx => h x (List.mem_cons_of_mem _ hx))
    unfold stackStatuses at ih1 ih2 ⊢
    rw [List.filterMap_cons, hs]
    refine ⟨by simp [ih1], ?_⟩
    intro p hp
    rcases List.mem_cons.1 hp with rfl | hp
    · exact hd
    · exact ih2 p hp

theorem describeStacksResponses_snoc (inp : DescribeStacksInput)
    (pre : List DescribeStacksResponse) (last : DescribeStacksResponse) :
    describeStacksResponses
      (pre.map (Call.DescribeStacks inp) ++ [Call.DescribeStacks inp last]) = pre ++ [last] := by
  have h := describeStacksResponses_map inp (pre ++ [last])
  simpa using h

/-- The `DescribeStacks` answers of `executeChangeSet` are those of its polling loop. -/
theorem executeChangeSet_cases {σ : Type} (api : CloudFormationAPI σ) (t : Template)
    (csName csType : String) (w : σ) :
    (∃ err, executeChangeSetCalls (executeChangeSet api t csName csType w).calls
        = [(⟨csName, csName, t.GetStackName⟩, some err)] ∧
      describeStacksResponses (executeChangeSet api t csName csType w).calls = []) ∨
    (∃ w1,
      describeStacksResponses (executeChangeSet api t csName csType w).calls
        = describeStacksResponses (executeChangeSetLoop api t (targetStatus csType) 120 w1).calls ∧
      (executeChangeSet api t csName csType w).out
        = (executeChangeSetLoop api t (targetStatus csType) 120 w1).out) := by
  unfold executeChangeSet
  simp only []
  split
  · rename_i err herr
    exact Or.inl ⟨err, by simp [executeChangeSetCalls, Call.executeChangeSet?, herr],
      by simp [describeStacksResponses, Call.describeStacks?]⟩
  · exact Or.inr ⟨_, by simp [describeStacksResponses, Call.describeStacks?], rfl⟩

/-- C4, as stated, fails: the bound of 120 attempts is missing from it. `ExecuteChangeSet`
succeeds and the client answers `DescribeStacks` with CREATE_IN_PROGRESS 120 times and
then with CREATE_COMPLETE: every answer is successful and lists a stack, and the first
status that is the target or a failure status is the target of a CREATE changeset;
`executeChangeSet` stops after the 120th answer and returns the timeout error, not nil. -/
theorem executeChangeSet_decisive_after_budget :
    (∀ r ∈ List.replicate 120 (stackAnswer "CREATE_IN_PROGRESS") ++ [stackAnswer "CREATE_COMPLETE"],
      stacksListed r = true) ∧
    (stackStatuses
        (List.replicate 120 (stackAnswer "CREATE_IN_PROGRESS") ++ [stackAnswer "CREATE_COMPLETE"])).find?
        (stackDecisive (targetStatus "CREATE")) = some (targetStatus "CREATE") ∧
    (executeChangeSet scripted (MockTemplate "mock-stack" "us-east-1" "{}-body") "cs-1" "CREATE"
      { create := none, changeSets := [], delete := none, execute := none,
        describeStacks := List.replicate 120 (stackAnswer "CREATE_IN_PROGRESS")
          ++ [stackAnswer "CREATE_COMPLETE"] }).out
      = .ret (some (Errorf "timed out waiting for stack operation to complete")) ∧
    (describeStacksResponses
      (executeChangeSet scripted (MockTemplate "mock-stack" "us-east-1" "{}-body") "cs-1" "CREATE"
        { create := none, changeSets := [], delete := none, execute := none,
          describeStacks := List.replicate 120 (stackAnswer "CREATE_IN_PROGRESS")
            ++ [stackAnswer "CREATE_COMPLETE"] }).calls).length = 120 := by
  decide

/-- Stack-status polling, on the answers received. In every run of `executeChangeSet` in
which `ExecuteChangeSet` succeeded and every `DescribeStacks` answer was successful and
listed at least one stack, if `s` is the first status, among the answers received, that is
the target or a failure status, then: when `s` is the target, `executeChangeSet` returned
nil; when `s` is a failure status, it returned the error "stack operation failed: "
followed by `s`; and the answer carrying `s` was the last `DescribeStacks` call, after
fewer than 120 pending ones. -/
theorem executeChangeSet_decided_on_received {σ : Type} (api : CloudFormationAPI σ)
    (t : Template) (csName csType : String) (w : σ) (s : String)
    (_hexec : ∀ c ∈ executeChangeSetCalls (executeChangeSet api t csName csType w).calls,
      c.2 = none)
    (hok : ∀ r ∈ describeStacksResponses (executeChangeSet api t csName csType w).calls,
      stacksListed r = true)
    (hfirst : (stackStatuses
        (describeStacksResponses (executeChangeSet api t csName csType w).calls)).find?
          (stackDecisive (targetStatus csType)) = some s) :
    targetStatus "CREATE" = "CREATE_COMPLETE" ∧ targetStatus "UPDATE" = "UPDATE_COMPLETE" ∧
    (s = targetStatus csType → (executeChangeSet api t csName csType w).out = .ret none) ∧
    (isFailureStatus s = true → (executeChangeSet api t csName csType w).out
        = .ret (some (Errorf ("stack operation failed: " ++ s)))) ∧
    (∃ pre : List String,
      stackStatuses (describeStacksResponses (executeChangeSet api t csName csType w).calls)
        = pre ++ [s] ∧
      (∀ p ∈ pre, stackDecisive (targetStatus csType) p = false) ∧
      (describeStacksResponses (executeChangeSet api t csName csType w).calls).length
        = pre.length + 1 ∧
      pre.length < 120) := by
  refine ⟨by decide, by decide, ?_⟩
  rcases executeChangeSet_cases api t csName csType w with ⟨err, -, h0⟩ | ⟨w1, hresp, hout⟩
  · rw [h0] at hfirst
    exact absurd hfirst (by simp [stackStatuses])
  · rw [hresp] at hfirst hok ⊢
    rw [hout]
    rcases executeChangeSetLoop_shape api t (targetStatus csType) 120 w1 with
      ⟨pre, -, hpre, hcalls, -⟩ | ⟨pre, last, hbudget, hpre, hlast, hcalls, hv⟩
    · rw [hcalls, describeStacksResponses_map] at hfirst
      rw [find?_eq_none_of_all _ _ (stackStatuses_pending _ pre hpre).2] at hfirst
      cases hfirst
    · have hrs : describeStacksResponses
          (executeChangeSetLoop api t (targetStatus csType) 120 w1).calls = pre ++ [last] := by
        rw [hcalls, describeStacksResponses_snoc]
      rw [hrs] at hfirst hok ⊢
      obtain ⟨hlen, hnd⟩ := stackStatuses_pending _ pre hpre
      have hlisted := hok last (by simp)
      generalize (executeChangeSetLoop api t (targetStatus csType) 120 w1).out = out at hv
      have hsplit : stackStatuses (pre ++ [last])
          = stackStatuses pre ++ stackStatuses [last] := by
        simp [stackStatuses, List.filterMap_append]
      cases hv with
      | remoteError o e => cases o <;> simp [stacksListed] at hlisted
      | nilOutput => simp [stacksListed] at hlisted
      | notFound resp h => simp [stacksListed, h] at hlisted
      | done resp first rest h ht =>
        have hl : stackStatuses [(some resp, none)] = [first.StackStatus] := by
          simp [stackStatuses, stackStatus?, h]
        rw [hsplit, hl, find?_append_decisive _ _ first.StackStatus [] hnd
          (by simp [stackDecisive, ht])] at hfirst
        cases hfirst
        refine ⟨fun _ => rfl, fun hf => ?_,
          ⟨stackStatuses pre, by rw [hsplit, hl], hnd, by simp [hlen], by omega⟩⟩
        rw [ht, isFailureStatus_targetStatus] at hf
        cases hf
      | failed resp first rest h ht hf =>
        have hl : stackStatuses [(some resp, none)] = [first.StackStatus] := by
          simp [stackStatuses, stackStatus?, h]
        rw [hsplit, hl, find?_append_decisive _ _ first.StackStatus [] hnd
          (by simp [stackDecisive, hf])] at hfirst
        cases hfirst
        exact ⟨fun hs => absurd hs ht, fun _ => rfl,
          ⟨stackStatuses pre, by rw [hsplit, hl], hnd, by simp [hlen], by omega⟩⟩

theorem changeSetTimeout_ne_failed (m : String) : changeSetTimeout ≠ changeSetFailed m := by
  intro h
  have h1 := congrArg (fun e => e.msg.data.head?) h
  simp [changeSetTimeout, changeSetFailed, Errorf, String.data_append] at h1

theorem stackOperationTimeout_ne_failed (s : String) :
    stackOperationTimeout ≠ stackOperationFailed s := by
  intro h
  have h1 := congrArg (fun e => e.msg.data.head?) h
  simp [stackOperationTimeout, stackOperationFailed, Errorf, String.data_append] at h1

/-- C5. Both polling loops are bounded and end in a timeout error of their own.
`waitForChangeSet` never makes more than 30 `DescribeChangeSet` calls, and when it made 30
and all were answered by a pending status it returns its timeout error;
`executeChangeSet` never makes more than 120 `DescribeStacks` calls, and when it made 120
and all were answered by a pending status it returns its timeout error. The timeout
errors differ from the errors reporting a failed changeset, a failed stack operation or a
missing stack. -/
theorem polling_bounded_timeout {σ : Type} (api : CloudFormationAPI σ) (t : Template)
    (csName csType : String) (w : σ) :
    (describeChangeSetResponses (waitForChangeSet api t csName w).calls).length ≤ 30 ∧
    ((describeChangeSetResponses (waitForChangeSet api t csName w).calls).length = 30 →
      (∀ r ∈ describeChangeSetResponses (waitForChangeSet api t csName w).calls,
        changeSetPending r = true) →
      (waitForChangeSet api t csName w).out
        = .ret (false, some (Errorf "timed out waiting for change set creation to complete"))) ∧
    (describeStacksResponses (executeChangeSet api t csName csType w).calls).length ≤ 120 ∧
    ((describeStacksResponses (executeChangeSet api t csName csType w).calls).length = 120 →
      (∀ r ∈ describeStacksResponses (executeChangeSet api t csName csType w).calls,
        stackPending (targetStatus csType) r = true) →
      (executeChangeSet api t csName csType w).out
        = .ret (some (Errorf "timed out waiting for stack operation to complete"))) ∧
    (∀ m, changeSetTimeout ≠ changeSetFailed m) ∧
    (∀ s, stackOperationTimeout ≠ stackOperationFailed s) ∧
    stackOperationTimeout ≠ stackNotFound := by
  refine ⟨?_, ?_, ?_, ?_, changeSetTimeout_ne_failed, stackOperationTimeout_ne_failed,
    by decide⟩
  · unfold waitForChangeSet
    rcases waitForChangeSetLoop_shape api t csName 30 w with
      ⟨pre, hlen, -, hcalls, -⟩ | ⟨pre, last, tail, hlen, -, -, hcalls, hv⟩
    · rw [hcalls, describeChangeSetResponses_map]
      omega
    · have h2 := hv.tail_projections.1
      have h1 := describeChangeSetResponses_map ⟨csName, t.GetStackName⟩ pre
      unfold describeChangeSetResponses at h1 h2 ⊢
      rw [hcalls, List.filterMap_append, List.filterMap_cons, h1]
      simp [Call.describeChangeSet?, h2]
      omega
  · intro _ hall
    unfold waitForChangeSet at hall ⊢
    rcases waitForChangeSetLoop_shape api t csName 30 w with
      ⟨pre, hlen, -, hcalls, hout⟩ | ⟨pre, last, tail, hlen, -, hlast, hcalls, hv⟩
    · exact hout
    · have h1 := describeChangeSetResponses_map ⟨csName, t.GetStackName⟩ pre
      have hmem : last ∈ describeChangeSetResponses
          (waitForChangeSetLoop api t csName 30 w).calls := by
        unfold describeChangeSetResponses at h1 ⊢
        rw [hcalls, List.filterMap_append, List.filterMap_cons, h1]
        simp [Call.describeChangeSet?]
      rw [hall last hmem] at hlast
      cases hlast
  · obtain ⟨e, rs, hcalls, hlen, -⟩ := executeChangeSet_calls api t csName csType w
    have h1 := describeStacksResponses_map ⟨t.GetStackName⟩ rs
    unfold describeStacksResponses at h1 ⊢
    rw [hcalls, List.filterMap_cons, h1]
    simpa [Call.describeStacks?] using hlen
  · intro hlen hall
    rcases executeChangeSet_cases api t csName csType w with ⟨err, -, h0⟩ | ⟨w1, hresp, hout⟩
    · rw [h0] at hlen
      cases hlen
    · rw [hresp] at hall
      rw [hout]
      rcases executeChangeSetLoop_shape api t (targetStatus csType) 120 w1 with
        ⟨pre, -, -, -, hto⟩ | ⟨pre, last, -, -, hlast, hcalls, -⟩
      · exact hto
      · have hmem : last ∈ describeStacksResponses
            (executeChangeSetLoop api t (targetStatus csType) 120 w1).calls := by
          rw [hcalls, describeStacksResponses_snoc]
          simp
        rw [hall last hmem] at hlast
        cases hlast

end PollingClaims

/-! ## The run of `TestStack_Run_Mock` -/

section MockRun

/-- What `Run` returns when the changeset was created and became ready: the result of
`executeChangeSet`. -/
theorem Run_out_of_ready {σ : Type} (sdk : AwsSDK σ) (csName : String) (st : Stack σ) (w : σ)
    (api : CloudFormationAPI σ) (body csType : String)
    (hc : st.cloudFormationClient = some api) (hj : st.template.BuildJSON = .ok body)
    (hi : (initialChangeSet api st.template csName body w).out = .ret (csName, csType, none))
    (hw : (waitForChangeSet api st.template csName
      (initialChangeSet api st.template csName body w).world).out = .ret (false, none)) :
    (Run sdk csName st w).out
      = (executeChangeSet api st.template csName csType
          (waitForChangeSet api st.template csName
            (initialChangeSet api st.template csName body w).world).world).out := by
  unfold Run
  simp only [hc, templateJson, hj, hi, hw, Bool.false_eq_true, if_false]
  split <;> simp_all

theorem executeChangeSet_out_of_ok {σ : Type} (api : CloudFormationAPI σ) (t : Template)
    (csName csType : String) (w : σ)
    (h : (api.ExecuteChangeSet ⟨csName, csName, t.GetStackName⟩ w).1 = none) :
    (executeChangeSet api t csName csType w).out
      = (executeChangeSetLoop api t (targetStatus csType) 120
          (api.ExecuteChangeSet ⟨csName, csName, t.GetStackName⟩ w).2).out := by
  unfold executeChangeSet
  simp only [h, Exec.after_out]

theorem mockCFNRun_poll_update (t : Template) :
    ∀ (n : Nat) (m : MockCFNRun), m.describeStacksErr = none → 1 ≤ m.describeStacksCnt →
      (executeChangeSetLoop mockCFNRun t StackStatusUpdateComplete n m).out
        = .ret (some stackOperationTimeout)
  | 0, _, _, _ => rfl
  | n + 1, m, herr, hcnt => by
    obtain ⟨a, b, c, d, e, f⟩ := m
    simp only at herr hcnt
    subst herr
    have ih := mockCFNRun_poll_update t n ⟨a, b, c, d, none, f + 1⟩ rfl (by simp)
    have hlt : ¬ (f + 1 < 2) := by omega
    have hstep : mockCFNRun.DescribeStacks ⟨t.GetStackName⟩ ⟨a, b, c, d, none, f⟩
        = ((some { Stacks := [{ StackStatus := StackStatusCreateComplete, Outputs := [] }] },
            none), ⟨a, b, c, d, none, f + 1⟩) := by
      simp only [mockCFNRun, hlt, if_false]
    have h1 : StackStatusCreateComplete ≠ StackStatusUpdateComplete := by decide
    have h2 : isFailureStatus StackStatusCreateComplete = false := by decide
    rw [executeChangeSetLoop]
    simp only [hstep, h1, h2, Bool.false_eq_true, if_false, Exec.after_out]
    exact ih

/-- C6. On the client `mockCFNRun` of `TestStack_Run_Mock` (no call returns an error,
`DescribeChangeSet` reports CREATE_IN_PROGRESS and then CREATE_COMPLETE, `DescribeStacks`
reports CREATE_IN_PROGRESS on its first call and CREATE_COMPLETE afterwards), `Run` on the
test's stack does not return nil: the existence probe takes the first `DescribeStacks`
answer, the changeset is of type UPDATE, and the polling for UPDATE_COMPLETE ends in the
timeout error. -/
theorem Run_mockCFNRun_times_out (body csName : String) :
    (Run noSDK csName
      { template := MockTemplate "mock-stack" "us-east-1" body,
        cloudFormationClient := some mockCFNRun, Outputs := [] }
      (MockCFNRun.new none none)).out
      = .ret (some (Errorf "timed out waiting for stack operation to complete")) := by
  have hi : (initialChangeSet mockCFNRun (MockTemplate "mock-stack" "us-east-1" body) csName
      body (MockCFNRun.new none none)).out = .ret (csName, "UPDATE", none) := rfl
  have hiw : (initialChangeSet mockCFNRun (MockTemplate "mock-stack" "us-east-1" body) csName
      body (MockCFNRun.new none none)).world = ⟨none, none, 0, none, none, 1⟩ := rfl
  have hw : (waitForChangeSet mockCFNRun (MockTemplate "mock-stack" "us-east-1" body) csName
      ⟨none, none, 0, none, none, 1⟩).out = .ret (false, none) := rfl
  have hww : (waitForChangeSet mockCFNRun (MockTemplate "mock-stack" "us-east-1" body) csName
      ⟨none, none, 0, none, none, 1⟩).world = ⟨none, none, 2, none, none, 1⟩ := rfl
  have ht : targetStatus "UPDATE" = StackStatusUpdateComplete := by decide
  have hx : (executeChangeSet mockCFNRun (MockTemplate "mock-stack" "us-east-1" body) csName
      "UPDATE" ⟨none, none, 2, none, none, 1⟩).out
      = (executeChangeSetLoop mockCFNRun (MockTemplate "mock-stack" "us-east-1" body)
          StackStatusUpdateComplete 120 ⟨none, none, 2, none, none, 1⟩).out := by
    rw [executeChangeSet_out_of_ok mockCFNRun (MockTemplate "mock-stack" "us-east-1" body)
      csName "UPDATE" ⟨none, none, 2, none, none, 1⟩ rfl, ht]
    simp only [mockCFNRun]
  rw [Run_out_of_ready noSDK csName
    { template := MockTemplate "mock-stack" "us-east-1" body,
      cloudFormationClient := some mockCFNRun, Outputs := [] }
    (MockCFNRun.new none none) mockCFNRun body "UPDATE" rfl rfl hi (by rw [hiw]; exact hw)]
  simp only []
  rw [hiw, hww, hx]
  exact mockCFNRun_poll_update _ 120 ⟨none, none, 2, none, none, 1⟩ rfl (Nat.le_refl 1)

end MockRun

/-! ## Errors of the remote calls -/

section Errors

theorem errorsEndRun_nil (P : GoError → Prop) : ErrorsEndRun [] P := by
  intro pre c post e h _
  cases pre <;> cases h

theorem errorsEndRun_singleton (c : Call) (P : GoError → Prop)
    (h : ∀ e, c.err = some e → P e) : ErrorsEndRun [c] P := by
  intro pre c1 post e heq herr
  cases pre with
  | nil =>
    simp only [List.nil_append, List.cons.injEq] at heq
    obtain ⟨rfl, rfl⟩ := heq
    exact ⟨rfl, h e herr⟩
  | cons x pre =>
    simp only [List.cons_append, List.cons.injEq] at heq
    cases pre <;> cases heq.2

theorem errorsEndRun_append (a b : List Call) (P : GoError → Prop)
    (ha : ∀ c ∈ a, c.err = none) (hb : ErrorsEndRun b P) : ErrorsEndRun (a ++ b) P := by
  induction a with
  | nil => simpa using hb
  | cons x a ih =>
    intro pre c post e heq herr
    cases pre with
    | nil =>
      simp only [List.nil_append, List.cons_append, List.cons.injEq] at heq
      obtain ⟨rfl, -⟩ := heq
      rw [ha _ (List.mem_cons_self _ _)] at herr
      cases herr
    | cons y pre =>
      simp only [List.cons_append, List.cons.injEq] at heq
      exact ih (fun c hc => ha c (List.mem_cons_of_mem _ hc)) pre c post e heq.2 herr

theorem errorsEndRun_cons (x : Call) (l : List Call) (P : GoError → Prop)
    (hx : x.err = none) (hl : ErrorsEndRun l P) : ErrorsEndRun (x :: l) P :=
  errorsEndRun_append [x] l P (fun c hc => by rw [List.mem_singleton.1 hc]; exact hx) hl

theorem ErrorsEndRun.mono {l : List Call} {P Q : GoError → Prop} (h : ErrorsEndRun l P)
    (hPQ : ∀ e, P e → Q e) : ErrorsEndRun l Q :=
  fun pre c post e heq herr => ⟨(h pre c post e heq herr).1, hPQ e (h pre c post e heq herr).2⟩

theorem ErrorsEndRun.quiet {l : List Call} {P : GoError → Prop} (h : ErrorsEndRun l P)
    (hP : ∀ e, ¬ P e) : ∀ c ∈ l, c.err = none := by
  intro c hc
  obtain ⟨pre, post, rfl⟩ := List.append_of_mem hc
  cases herr : c.err with
  | none => rfl
  | some e => exact absurd (h pre c post e rfl herr).2 (hP e)

theorem changeSetPending_err (r : DescribeChangeSetResponse) (h : changeSetPending r = true) :
    r.2 = none := by
  obtain ⟨o, e⟩ := r
  cases e with
  | none => rfl
  | some err => cases o <;> simp [changeSetPending] at h

theorem stackPending_err (target : String) (r : DescribeStacksResponse)
    (h : stackPending target r = true) : r.2 = none := by
  obtain ⟨o, e⟩ := r
  cases e with
  | none => rfl
  | some err => cases o <;> simp [stackPending] at h

/-- In `waitForChangeSet`, a call that answered with an error is the last call, and its
error is returned. -/
theorem waitForChangeSet_errors {σ : Type} (api : CloudFormationAPI σ) (t : Template)
    (csName : String) (w : σ) :
    ErrorsEndRun (waitForChangeSet api t csName w).calls
      (fun e => (waitForChangeSet api t csName w).out = .ret (false, some e)) := by
  unfold waitForChangeSet
  rcases waitForChangeSetLoop_shape api t csName 30 w with
    ⟨pre, -, hpre, hcalls, -⟩ | ⟨pre, last, tail, -, hpre, -, hcalls, hv⟩
  · rw [hcalls, ← List.append_nil (List.map _ pre)]
    refine errorsEndRun_append _ _ _ ?_ (errorsEndRun_nil _)
    intro c hc
    obtain ⟨r, hr, rfl⟩ := List.mem_map.1 hc
    exact changeSetPending_err r (hpre r hr)
  · rw [hcalls]
    refine errorsEndRun_append _ _ _ ?_ ?_
    · intro c hc
      obtain ⟨r, hr, rfl⟩ := List.mem_map.1 hc
      exact changeSetPending_err r (hpre r hr)
    · generalize (waitForChangeSetLoop api t csName 30 w).out = out at hv
      cases hv with
      | remoteError o e =>
        exact errorsEndRun_singleton _ _ (fun e1 h1 => by cases h1; rfl)
      | nilOutput => exact errorsEndRun_singleton _ _ (fun e1 h1 => by cases h1)
      | ready d h => exact errorsEndRun_singleton _ _ (fun e1 h1 => by cases h1)
      | nilReason d h hr => exact errorsEndRun_singleton _ _ (fun e1 h1 => by cases h1)
      | emptyDeleted d h hr =>
        exact errorsEndRun_cons _ _ _ rfl
          (errorsEndRun_singleton _ _ (fun e1 h1 => by cases h1))
      | emptyDeleteError d h hr e =>
        exact errorsEndRun_cons _ _ _ rfl
          (errorsEndRun_singleton _ _ (fun e1 h1 => by cases h1; rfl))
      | failed d h m hr hm => exact errorsEndRun_singleton _ _ (fun e1 h1 => by cases h1)

/-- In `executeChangeSet`, a call that answered with an error is the last call, and its
error is returned. -/
theorem executeChangeSet_errors {σ : Type} (api : CloudFormationAPI σ) (t : Template)
    (csName csType : String) (w : σ) :
    ErrorsEndRun (executeChangeSet api t csName csType w).calls
      (fun e => (executeChangeSet api t csName csType w).out = .ret (some e)) := by
  unfold executeChangeSet
  simp only []
  split
  · rename_i err herr
    exact errorsEndRun_singleton _ _ (fun e1 h1 => by
      simp only [Call.err, herr, Option.some.injEq] at h1
      rw [h1])
  · rename_i herr
    simp only [Exec.after_calls, Exec.after_out]
    refine errorsEndRun_cons _ _ _ (by simp [Call.err, herr]) ?_
    rcases executeChangeSetLoop_shape api t (targetStatus csType) 120
        (api.ExecuteChangeSet ⟨csName, csName, t.GetStackName⟩ w).2 with
      ⟨pre, -, hpre, hcalls, -⟩ | ⟨pre, last, -, hpre, -, hcalls, hv⟩
    · rw [hcalls, ← List.append_nil (List.map _ pre)]
      refine errorsEndRun_append _ _ _ ?_ (errorsEndRun_nil _)
      intro c hc
      obtain ⟨r, hr, rfl⟩ := List.mem_map.1 hc
      exact stackPending_err _ r (hpre r hr)
    · rw [hcalls]
      refine errorsEndRun_append _ _ _ ?_ ?_
      · intro c hc
        obtain ⟨r, hr, rfl⟩ := List.mem_map.1 hc
        exact stackPending_err _ r (hpre r hr)
      · generalize (executeChangeSetLoop api t (targetStatus csType) 120
          (api.ExecuteChangeSet ⟨csName, csName, t.GetStackName⟩ w).2).out = out at hv
        cases hv with
        | remoteError o e =>
          exact errorsEndRun_singleton _ _ (fun e1 h1 => by cases h1; rfl)
        | nilOutput => exact errorsEndRun_singleton _ _ (fun e1 h1 => by cases h1)
        | notFound resp h => exact errorsEndRun_singleton _ _ (fun e1 h1 => by cases h1)
        | done resp first rest h ht =>
          exact errorsEndRun_singleton _ _ (fun e1 h1 => by cases h1)
        | failed resp first rest h ht hf =>
          exact errorsEndRun_singleton _ _ (fun e1 h1 => by cases h1)

theorem mem_createChangeSetCalls (inp : CreateChangeSetInput) (e : Option GoError)
    (l : List Call) (h : Call.CreateChangeSet inp e ∈ l) : (inp, e) ∈ createChangeSetCalls l :=
  List.mem_filterMap.2 ⟨_, h, rfl⟩

/-- C7. `Run` propagates the errors of the remote calls unchanged and stops. Every call
after the first one (the first call is the existence probe of `stackExist`, whose error
only selects the changeset type) that answers with an error `e` is the last call of the
run, and `Run` returns exactly `e`: this holds for `CreateChangeSet`, `DescribeChangeSet`,
`DeleteChangeSet`, `ExecuteChangeSet` and the status-polling `DescribeStacks`. In
particular, when `CreateChangeSet` answers with an error, no `DescribeChangeSet`,
`DeleteChangeSet` or `ExecuteChangeSet` call is made. -/
theorem Run_propagates_errors {σ : Type} (sdk : AwsSDK σ) (csName : String) (st : Stack σ)
    (w : σ) :
    (∀ (pre : List Call) (c : Call) (post : List Call) (e : GoError),
      (Run sdk csName st w).calls = pre ++ c :: post → pre ≠ [] → c.err = some e →
      post = [] ∧ (Run sdk csName st w).out = .ret (some e)) ∧
    (∀ (inp : CreateChangeSetInput) (e : GoError),
      Call.CreateChangeSet inp (some e) ∈ (Run sdk csName st w).calls →
      (Run sdk csName st w).out = .ret (some e) ∧
      describeChangeSetResponses (Run sdk csName st w).calls = [] ∧
      deleteChangeSetCalls (Run sdk csName st w).calls = [] ∧
      executeChangeSetCalls (Run sdk csName st w).calls = []) := by
  rcases Run_trace sdk csName st w with ⟨h0, -⟩ | ⟨api, hrt⟩
  · rw [h0]
    exact ⟨fun pre c post e h => (by cases pre <;> cases h), fun inp e h => (by cases h)⟩
  · generalize (Run sdk csName st w).calls = calls at hrt ⊢
    generalize (Run sdk csName st w).out = out at hrt ⊢
    have tailed : ∀ (probe : Call) (rest : List Call),
        ErrorsEndRun rest (fun e => out = .ret (some e)) →
        ∀ (pre : List Call) (c : Call) (post : List Call) (e : GoError),
          probe :: rest = pre ++ c :: post → pre ≠ [] → c.err = some e →
          post = [] ∧ out = .ret (some e) := by
      intro probe rest hrest pre c post e heq hpre herr
      cases pre with
      | nil => exact absurd rfl hpre
      | cons y pre =>
        simp only [List.cons_append, List.cons.injEq] at heq
        exact hrest pre c post e heq.2 herr
    have nocreate : ∀ (probe : DescribeStacksResponse) (inp0 : CreateChangeSetInput)
        (rest : List Call) (inp : CreateChangeSetInput) (e : GoError),
        createChangeSetCalls rest = [] →
        Call.CreateChangeSet inp (some e) ∈
          Call.DescribeStacks ⟨st.template.GetStackName⟩ probe
            :: Call.CreateChangeSet inp0 none :: rest → False := by
      intro probe inp0 rest inp e hrest hmem
      have hin := mem_createChangeSetCalls inp (some e) _ hmem
      have hcs : createChangeSetCalls
          (Call.DescribeStacks ⟨st.template.GetStackName⟩ probe
            :: Call.CreateChangeSet inp0 none :: rest) = [(inp0, none)] := by
        unfold createChangeSetCalls at hrest ⊢
        simp only [List.filterMap_cons, Call.createChangeSet?, hrest]
      rw [hcs, List.mem_singleton] at hin
      cases hin
    cases hrt with
    | createFailed probe inp e hname =>
      refine ⟨tailed _ _ (errorsEndRun_singleton _ _ (fun e1 h1 => by cases h1; rfl)), ?_⟩
      intro inp1 e1 hmem
      simp only [List.mem_cons, List.mem_singleton, Call.CreateChangeSet.injEq, Option.some.injEq,
        false_or, List.not_mem_nil, or_false] at hmem
      rcases hmem with hbad | ⟨-, he⟩
      · cases hbad
      · subst he
        exact ⟨rfl, rfl, rfl, rfl⟩
    | waitPanic probe inp w2 p hname hw =>
      refine ⟨tailed _ _ (errorsEndRun_cons _ _ _ rfl
        ((waitForChangeSet_errors api st.template csName w2).mono (fun e he => ?_))), ?_⟩
      · rw [hw] at he
        cases he
      · intro inp1 e1 hmem
        exact (nocreate probe inp _ inp1 e1
          (waitForChangeSetLoop_others api st.template csName 30 w2).1 hmem).elim
    | waitError probe inp w2 b e hname hw =>
      refine ⟨tailed _ _ (errorsEndRun_cons _ _ _ rfl
        ((waitForChangeSet_errors api st.template csName w2).mono (fun e1 he => ?_))), ?_⟩
      · rw [hw] at he
        cases he
        rfl
      · intro inp1 e1 hmem
        exact (nocreate probe inp _ inp1 e1
          (waitForChangeSetLoop_others api st.template csName 30 w2).1 hmem).elim
    | noChanges probe inp w2 hname hw =>
      refine ⟨tailed _ _ (errorsEndRun_cons _ _ _ rfl
        ((waitForChangeSet_errors api st.template csName w2).mono (fun e1 he => ?_))), ?_⟩
      · rw [hw] at he
        cases he
      · intro inp1 e1 hmem
        exact (nocreate probe inp _ inp1 e1
          (waitForChangeSetLoop_others api st.template csName 30 w2).1 hmem).elim
    | executed probe inp w2 csType hname hw =>
      have hquiet := (waitForChangeSet_errors api st.template csName w2).quiet
        (fun e he => by rw [hw] at he; cases he)
      refine ⟨tailed _ _ (errorsEndRun_cons _ _ _ rfl
        (errorsEndRun_append _ _ _ hquiet
          (executeChangeSet_errors api st.template csName csType _))), ?_⟩
      intro inp1 e1 hmem
      refine (nocreate probe inp _ inp1 e1 ?_ hmem).elim
      have h1 := (waitForChangeSetLoop_others api st.template csName 30 w2).1
      have h2 := (executeChangeSet_projections api st.template csName csType
        (waitForChangeSet api st.template csName w2).world).2.1
      unfold createChangeSetCalls at h1 h2 ⊢
      rw [List.filterMap_append, h2]
      unfold waitForChangeSet
      rw [h1]
      rfl

end Errors

/-! ## `GetOutputs` -/

section Outputs

theorem lookup_filter_ne (m : GoMap) (k k1 : String) (h : k1 ≠ k) :
    List.lookup k1 (m.filter (fun e => e.1 ≠ k)) = List.lookup k1 m := by
  induction m with
  | nil => rfl
  | cons x m ih =>
    obtain ⟨a, b⟩ := x
    by_cases ha : a = k
    · subst ha
      have hk : (k1 == a) = false := by simpa using h
      simp only [ne_eq, decide_not] at ih
      simp [List.filter_cons, List.lookup_cons, hk, ih]
    · simp only [ne_eq, decide_not] at ih
      by_cases hk : k1 = a
      · subst hk
        simp [List.filter_cons, List.lookup_cons, ha]
      · have hk1 : (k1 == a) = false := by simpa using hk
        simp [List.filter_cons, List.lookup_cons, ha, hk1, ih]

theorem GoMap.get_set (m : GoMap) (k v k1 : String) :
    (m.set k v).get k1 = if k1 = k then some v else m.get k1 := by
  unfold GoMap.get GoMap.set
  by_cases h : k1 = k
  · subst h
    simp [List.lookup_cons]
  · have hk : (k1 == k) = false := by simpa using h
    have hf := lookup_filter_ne m k k1 h
    simp only [ne_eq, decide_not] at hf
    simp [List.lookup_cons, hk, h, hf]

/-- The loop of `GetOutputs` on outputs whose keys and values are all present: it does not
panic, and afterwards a key maps to the value reported for it, or else to what it mapped
to before. -/
theorem storeOutputs_present (outs : List Output) :
    ∀ (m : GoMap), (∀ a ∈ outs, a.OutputKey ≠ none ∧ a.OutputValue ≠ none) →
      (storeOutputs outs m).1 = .ret () ∧
      ∀ k, GoMap.get (storeOutputs outs m).2 k =
        match reportedValue outs k with
        | some v => some v
        | none => GoMap.get m k := by
  induction outs with
  | nil => intro m _; exact ⟨rfl, fun k => rfl⟩
  | cons a rest ih =>
    intro m h
    obtain ⟨hk, hv⟩ := h a (List.mem_cons_self _ _)
    obtain ⟨key, val⟩ := a
    cases key with
    | none => exact absurd rfl hk
    | some key =>
      cases val with
      | none => exact absurd rfl hv
      | some val =>
        obtain ⟨ih1, ih2⟩ := ih (m.set key val) (fun x hx => h x (List.mem_cons_of_mem _ hx))
        refine ⟨by simpa [storeOutputs] using ih1, fun k => ?_⟩
        have := ih2 k
        simp only [storeOutputs, reportedValue] at this ⊢
        rw [this, GoMap.get_set]
        cases reportedValue rest k with
        | some v => rfl
        | none =>
          by_cases hkk : k = key
          · subst hkk
            simp
          · have : ¬ key = k := fun h => hkk h.symm
            simp [hkk, this]

/-- What `GetOutputs` does, by the answer `r` of its one `DescribeStacks` call. -/
theorem GetOutputs_of_response {σ : Type} (sdk : AwsSDK σ) (st : Stack σ) (w : σ)
    (r : DescribeStacksResponse)
    (h : describeStacksResponses (GetOutputs sdk st w).calls = [r]) :
    (∀ e, r.2 = some e →
      (GetOutputs sdk st w).out = .ret (some e) ∧
      (GetOutputs sdk st w).stack.Outputs = st.Outputs) ∧
    (∀ resp, r = (some resp, none) → 1 < resp.Stacks.length →
      (GetOutputs sdk st w).out = .ret (some (multipleResults st.template.GetStackName)) ∧
      (GetOutputs sdk st w).stack.Outputs = st.Outputs) ∧
    (∀ resp, r = (some resp, none) → resp.Stacks = [] →
      (GetOutputs sdk st w).out = .panic indexOutOfRange ∧
      (GetOutputs sdk st w).stack.Outputs = st.Outputs) ∧
    (∀ resp first, r = (some resp, none) → resp.Stacks = [first] →
      (storeOutputs first.Outputs st.Outputs).1 = .ret () →
      (GetOutputs sdk st w).out = .ret none ∧
      (GetOutputs sdk st w).stack.Outputs = (storeOutputs first.Outputs st.Outputs).2) := by
  unfold GetOutputs at h ⊢
  generalize (match st.cloudFormationClient with
    | some api => Except.ok api
    | none => sdk.NewFromDefaultConfig (some st.template.GetRegion)) = client at h ⊢
  cases client with
  | error err => simp [describeStacksResponses] at h
  | ok api =>
    simp only [] at h ⊢
    generalize api.DescribeStacks ⟨st.template.GetStackName⟩ w = x at h ⊢
    obtain ⟨⟨o, e⟩, w1⟩ := x
    have hr : r = (o, e) := by
      revert h
      cases e with
      | some err => intro h; simpa [describeStacksResponses, Call.describeStacks?] using h.symm
      | none =>
        cases o with
        | none => intro h; simpa [describeStacksResponses, Call.describeStacks?] using h.symm
        | some resp =>
          intro h
          simp only [] at h
          split at h
          · simpa [describeStacksResponses, Call.describeStacks?] using h.symm
          · split at h
            · simpa [describeStacksResponses, Call.describeStacks?] using h.symm
            · split at h <;>
                simpa [describeStacksResponses, Call.describeStacks?] using h.symm
    subst hr
    clear h
    refine ⟨?_, ?_, ?_, ?_⟩
    · intro err herr
      simp only [] at herr
      subst herr
      exact ⟨rfl, rfl⟩
    · intro resp hresp hlen
      cases hresp
      simp [hlen, multipleResults]
    · intro resp hresp hnil
      cases hresp
      simp [hnil]
    · intro resp first hresp hone hstore
      cases hresp
      simp [hone, hstore]

end Outputs

section OutputsClaims

/-- C8. `GetOutputs` on zero matches. When the `DescribeStacks` call succeeds with an empty
list of stacks, `GetOutputs` does not return an error: it panics on `response.Stacks[0]`
(index out of range); the captured outputs are as before. -/
theorem GetOutputs_zero_stacks {σ : Type} (sdk : AwsSDK σ) (st : Stack σ) (w : σ)
    (h : describeStacksResponses (GetOutputs sdk st w).calls = [(some ⟨[]⟩, none)]) :
    (GetOutputs sdk st w).out = .panic indexOutOfRange ∧
    (GetOutputs sdk st w).stack.Outputs = st.Outputs :=
  (GetOutputs_of_response sdk st w _ h).2.2.1 ⟨[]⟩ rfl rfl

/-- The run behind `GetOutputs_zero_stacks`, on a client that lists no stack. -/
theorem GetOutputs_zero_stacks_witness :
    (GetOutputs noSDK (mockStack scripted [])
        { create := none, changeSets := [], delete := none, execute := none,
          describeStacks := [(some ⟨[]⟩, none)] }).out = .panic indexOutOfRange ∧
    (GetOutputs noSDK (mockStack scripted [])
        { create := none, changeSets := [], delete := none, execute := none,
          describeStacks := [(some ⟨[]⟩, none)] }).stack.Outputs = [] :=
  GetOutputs_zero_stacks noSDK (mockStack scripted [])
    { create := none, changeSets := [], delete := none, execute := none,
      describeStacks := [(some ⟨[]⟩, none)] } (by decide)

/-- C9, as stated, fails: on the client of `TestStack_GetOutputs_Mock`, which lists one
stack reporting only the key "mock-key", a stack that had captured the key "old" before
still has it after `GetOutputs` returned nil. -/
theorem GetOutputs_keeps_unreported_key :
    describeStacksResponses (GetOutputs noSDK (mockStack mockCFNSuccess [("old", "x")]) ()).calls
      = [(some ⟨[⟨"", [⟨some "mock-key", some "mock-value"⟩]⟩]⟩, none)] ∧
    (GetOutputs noSDK (mockStack mockCFNSuccess [("old", "x")]) ()).out = .ret none ∧
    reportedValue [⟨some "mock-key", some "mock-value"⟩] "old" = none ∧
    GoMap.get (GetOutputs noSDK (mockStack mockCFNSuccess [("old", "x")]) ()).stack.Outputs "old"
      = some "x" := by
  decide

/-- C9, amended. When the `DescribeStacks` call lists exactly one stack, whose outputs have
their keys and values present, `GetOutputs` returns nil and merges the reported pairs into
the captured outputs: afterwards every reported key maps to the value reported for it (the
last one, when a key is reported twice) and every other key maps to what it mapped to
before. On a map that was empty before, the captured outputs are exactly the reported
pairs. -/
theorem GetOutputs_one_stack {σ : Type} (sdk : AwsSDK σ) (st : Stack σ) (w : σ)
    (first : StackDescription)
    (h : describeStacksResponses (GetOutputs sdk st w).calls = [(some ⟨[first]⟩, none)])
    (hp : ∀ a ∈ first.Outputs, a.OutputKey ≠ none ∧ a.OutputValue ≠ none) :
    (GetOutputs sdk st w).out = .ret none ∧
    (∀ k, GoMap.get (GetOutputs sdk st w).stack.Outputs k =
      match reportedValue first.Outputs k with
      | some v => some v
      | none => GoMap.get st.Outputs k) ∧
    (st.Outputs = [] →
      ∀ k, GoMap.get (GetOutputs sdk st w).stack.Outputs k = reportedValue first.Outputs k) := by
  obtain ⟨hret, hget⟩ := storeOutputs_present first.Outputs st.Outputs hp
  obtain ⟨hout, hmap⟩ := (GetOutputs_of_response sdk st w _ h).2.2.2 ⟨[first]⟩ first rfl rfl hret
  rw [hmap]
  refine ⟨hout, hget, fun hempty k => ?_⟩
  rw [hget k, hempty]
  cases reportedValue first.Outputs k <;> rfl

/-- The runs behind `GetOutputs_one_stack`: the test `TestStack_GetOutputs_Mock`, on a stack
that had captured the key "old" before, and on a stack as `NewStack` makes it. -/
theorem GetOutputs_one_stack_witness :
    ((GetOutputs noSDK (mockStack mockCFNSuccess [("old", "x")]) ()).out = .ret none ∧
      (∀ k, GoMap.get
          (GetOutputs noSDK (mockStack mockCFNSuccess [("old", "x")]) ()).stack.Outputs k =
        match reportedValue [⟨some "mock-key", some "mock-value"⟩] k with
        | some v => some v
        | none => GoMap.get [("old", "x")] k)) ∧
    (∀ k, GoMap.get (GetOutputs noSDK (mockStack mockCFNSuccess []) ()).stack.Outputs k
      = reportedValue [⟨some "mock-key", some "mock-value"⟩] k) :=
  ⟨⟨(GetOutputs_one_stack noSDK (mockStack mockCFNSuccess [("old", "x")]) ()
        ⟨"", [⟨some "mock-key", some "mock-value"⟩]⟩ (by decide) (by decide)).1,
    (GetOutputs_one_stack noSDK (mockStack mockCFNSuccess [("old", "x")]) ()
        ⟨"", [⟨some "mock-key", some "mock-value"⟩]⟩ (by decide) (by decide)).2.1⟩,
   (GetOutputs_one_stack noSDK (mockStack mockCFNSuccess []) ()
      ⟨"", [⟨some "mock-key", some "mock-value"⟩]⟩ (by decide) (by decide)).2.2 rfl⟩

/-- C10. `GetOutputs` is atomic on failure. When the `DescribeStacks` call answers with an
error `e`, `GetOutputs` returns exactly `e`; when it lists more than one stack,
`GetOutputs` returns the error "multiple results for the same stack name " followed by
the stack name; in both cases the captured outputs are as before. -/
theorem GetOutputs_atomic_on_failure {σ : Type} (sdk : AwsSDK σ) (st : Stack σ) (w : σ) :
    (∀ (o : Option DescribeStacksOutput) (e : GoError),
      describeStacksResponses (GetOutputs sdk st w).calls = [(o, some e)] →
      (GetOutputs sdk st w).out = .ret (some e) ∧
      (GetOutputs sdk st w).stack.Outputs = st.Outputs) ∧
    (∀ (resp : DescribeStacksOutput),
      describeStacksResponses (GetOutputs sdk st w).calls = [(some resp, none)] →
      1 < resp.Stacks.length →
      (GetOutputs sdk st w).out
        = .ret (some (Errorf ("multiple results for the same stack name "
            ++ st.template.GetStackName))) ∧
      (GetOutputs sdk st w).stack.Outputs = st.Outputs) :=
  ⟨fun _ e h => (GetOutputs_of_response sdk st w _ h).1 e rfl,
   fun resp h hlen => (GetOutputs_of_response sdk st w _ h).2.1 resp rfl hlen⟩

/-- The runs behind `GetOutputs_atomic_on_failure`: the test
`TestStack_GetOutputs_MockError`, and a client that lists two stacks. -/
theorem GetOutputs_atomic_on_failure_witness :
    ((GetOutputs noSDK (mockStack mockCFNError [("old", "x")]) ()).out
        = .ret (some (Errorf "mock error")) ∧
      (GetOutputs noSDK (mockStack mockCFNError [("old", "x")]) ()).stack.Outputs
        = [("old", "x")]) ∧
    ((GetOutputs noSDK (mockStack scripted [("old", "x")])
        { create := none, changeSets := [], delete := none, execute := none,
          describeStacks := [(some ⟨[⟨"CREATE_COMPLETE", []⟩, ⟨"CREATE_COMPLETE", []⟩]⟩, none)] }).out
        = .ret (some (Errorf ("multiple results for the same stack name " ++ "mock-stack"))) ∧
      (GetOutputs noSDK (mockStack scripted [("old", "x")])
        { create := none, changeSets := [], delete := none, execute := none,
          describeStacks := [(some ⟨[⟨"CREATE_COMPLETE", []⟩, ⟨"CREATE_COMPLETE", []⟩]⟩, none)] }
        ).stack.Outputs = [("old", "x")]) :=
  ⟨(GetOutputs_atomic_on_failure noSDK (mockStack mockCFNError [("old", "x")]) ()).1
      none (Errorf "mock error") (by decide),
   (GetOutputs_atomic_on_failure noSDK (mockStack scripted [("old", "x")])
      { create := none, changeSets := [], delete := none, execute := none,
        describeStacks := [(some ⟨[⟨"CREATE_COMPLETE", []⟩, ⟨"CREATE_COMPLETE", []⟩]⟩, none)] }).2
      ⟨[⟨"CREATE_COMPLETE", []⟩, ⟨"CREATE_COMPLETE", []⟩]⟩ (by decide) (by decide)⟩

end OutputsClaims

/-! ## Runs that meet the hypotheses of the theorems above -/

section Witnesses

/-- The run behind `Run_noop_recorded`: one pending answer, then FAILED with the
`EmptyChangeSet` reason. -/
theorem Run_noop_recorded_example :
    (describeChangeSetResponses (Run noSDK "cs-1" (mockStack scripted [])
      (scriptOf [changeSetAnswer "CREATE_IN_PROGRESS" none,
        changeSetAnswer "FAILED" (some EmptyChangeSet)] [])).calls).length ≤ 30 ∧
    (createChangeSetCalls (Run noSDK "cs-1" (mockStack scripted [])
      (scriptOf [changeSetAnswer "CREATE_IN_PROGRESS" none,
        changeSetAnswer "FAILED" (some EmptyChangeSet)] [])).calls).map
          (fun c => c.1.ChangeSetName) = ["cs-1"] ∧
    deleteChangeSetCalls (Run noSDK "cs-1" (mockStack scripted [])
      (scriptOf [changeSetAnswer "CREATE_IN_PROGRESS" none,
        changeSetAnswer "FAILED" (some EmptyChangeSet)] [])).calls
      = [(⟨"cs-1", "mock-stack"⟩, none)] ∧
    (Run noSDK "cs-1" (mockStack scripted [])
      (scriptOf [changeSetAnswer "CREATE_IN_PROGRESS" none,
        changeSetAnswer "FAILED" (some EmptyChangeSet)] [])).out = .ret none ∧
    executeChangeSetCalls (Run noSDK "cs-1" (mockStack scripted [])
      (scriptOf [changeSetAnswer "CREATE_IN_PROGRESS" none,
        changeSetAnswer "FAILED" (some EmptyChangeSet)] [])).calls = [] :=
  Run_noop_recorded noSDK "cs-1" (mockStack scripted [])
    (scriptOf [changeSetAnswer "CREATE_IN_PROGRESS" none,
      changeSetAnswer "FAILED" (some EmptyChangeSet)] [])
    (by decide) (by decide) (by decide)

/-- The run behind `Run_failed_recorded`: one pending answer, then FAILED with the reason
"boom". -/
theorem Run_failed_recorded_example :
    (Run noSDK "cs-1" (mockStack scripted [])
      (scriptOf [changeSetAnswer "CREATE_IN_PROGRESS" none,
        changeSetAnswer "FAILED" (some "boom")] [])).out
      = .ret (some (Errorf ("change set creation failed: " ++ "boom"))) ∧
    (∃ pre : List DescribeChangeSetResponse,
      describeChangeSetResponses (Run noSDK "cs-1" (mockStack scripted [])
        (scriptOf [changeSetAnswer "CREATE_IN_PROGRESS" none,
          changeSetAnswer "FAILED" (some "boom")] [])).calls
        = pre ++ [(some ⟨ChangeSetStatusFailed, some "boom"⟩, none)] ∧
      (∀ r ∈ pre, changeSetPending r = true) ∧ pre.length < 30) ∧
    executeChangeSetCalls (Run noSDK "cs-1" (mockStack scripted [])
      (scriptOf [changeSetAnswer "CREATE_IN_PROGRESS" none,
        changeSetAnswer "FAILED" (some "boom")] [])).calls = [] ∧
    deleteChangeSetCalls (Run noSDK "cs-1" (mockStack scripted [])
      (scriptOf [changeSetAnswer "CREATE_IN_PROGRESS" none,
        changeSetAnswer "FAILED" (some "boom")] [])).calls = [] :=
  Run_failed_recorded noSDK "cs-1" (mockStack scripted [])
    (scriptOf [changeSetAnswer "CREATE_IN_PROGRESS" none,
      changeSetAnswer "FAILED" (some "boom")] [])
    "boom" (by decide) (by decide)

/-- The runs behind `Run_ready_recorded`: one pending answer, then CREATE_COMPLETE; the
stack is then reported CREATE_COMPLETE. -/
theorem Run_ready_recorded_example :
    ((waitForChangeSet scripted (MockTemplate "mock-stack" "us-east-1" "{}-body") "cs-1"
        (scriptOf [changeSetAnswer "CREATE_IN_PROGRESS" none,
          changeSetAnswer "CREATE_COMPLETE" none] [])).out = .ret (false, none) ∧
      (describeChangeSetResponses
        (waitForChangeSet scripted (MockTemplate "mock-stack" "us-east-1" "{}-body") "cs-1"
          (scriptOf [changeSetAnswer "CREATE_IN_PROGRESS" none,
            changeSetAnswer "CREATE_COMPLETE" none] [])).calls).length ≤ 30) ∧
    ((createChangeSetCalls (Run noSDK "cs-1" (mockStack scripted [])
        (scriptOf [changeSetAnswer "CREATE_IN_PROGRESS" none,
          changeSetAnswer "CREATE_COMPLETE" none]
          [stackAnswer "CREATE_COMPLETE"])).calls).map (fun c => c.1.ChangeSetName)
        = ["cs-1"] ∧
      (executeChangeSetCalls (Run noSDK "cs-1" (mockStack scripted [])
        (scriptOf [changeSetAnswer "CREATE_IN_PROGRESS" none,
          changeSetAnswer "CREATE_COMPLETE" none]
          [stackAnswer "CREATE_COMPLETE"])).calls).map (fun c => c.1)
        = [⟨"cs-1", "cs-1", "mock-stack"⟩] ∧
      deleteChangeSetCalls (Run noSDK "cs-1" (mockStack scripted [])
        (scriptOf [changeSetAnswer "CREATE_IN_PROGRESS" none,
          changeSetAnswer "CREATE_COMPLETE" none]
          [stackAnswer "CREATE_COMPLETE"])).calls = []) :=
  ⟨(@Run_ready_recorded Script).1 scripted (MockTemplate "mock-stack" "us-east-1" "{}-body")
      "cs-1"
      (scriptOf [changeSetAnswer "CREATE_IN_PROGRESS" none,
        changeSetAnswer "CREATE_COMPLETE" none] [])
      ⟨"CREATE_COMPLETE", none⟩ (by decide) (by decide),
   (@Run_ready_recorded Script).2 noSDK "cs-1" (mockStack scripted [])
      (scriptOf [changeSetAnswer "CREATE_IN_PROGRESS" none,
        changeSetAnswer "CREATE_COMPLETE" none] [stackAnswer "CREATE_COMPLETE"])
      ⟨"CREATE_COMPLETE", none⟩ (by decide) (by decide)⟩

/-- The runs behind `polling_bounded_timeout`: a client that reports every status as in
progress uses up the 30 and the 120 attempts. -/
theorem polling_bounded_timeout_witness :
    (waitForChangeSet inProgressClient (MockTemplate "mock-stack" "us-east-1" "{}-body")
        "cs-1" ()).out
      = .ret (false, some (Errorf "timed out waiting for change set creation to complete")) ∧
    (executeChangeSet inProgressClient (MockTemplate "mock-stack" "us-east-1" "{}-body")
        "cs-1" "CREATE" ()).out
      = .ret (some (Errorf "timed out waiting for stack operation to complete")) :=
  ⟨(polling_bounded_timeout inProgressClient
      (MockTemplate "mock-stack" "us-east-1" "{}-body") "cs-1" "CREATE" ()).2.1
      (by decide) (by decide),
   (polling_bounded_timeout inProgressClient
      (MockTemplate "mock-stack" "us-east-1" "{}-body") "cs-1" "CREATE" ()).2.2.2.1
      (by decide) (by decide)⟩

/-- The runs behind `Run_propagates_errors`: the tests
`TestStack_Run_Mock_ExecuteChangeSetError` (the error of `ExecuteChangeSet` is the fifth and
last call) and `TestStack_Run_Mock_CreateChangeSetError`. -/
theorem Run_propagates_errors_witness :
    (([] : List Call) = [] ∧
      (Run noSDK "cs-1" (mockStack mockCFNRun [])
        (MockCFNRun.new none (some (Errorf "execute changeset error")))).out
        = .ret (some (Errorf "execute changeset error"))) ∧
    ((Run noSDK "cs-1" (mockStack mockCFNRun [])
        (MockCFNRun.new (some (Errorf "create changeset error")) none)).out
        = .ret (some (Errorf "create changeset error")) ∧
      describeChangeSetResponses (Run noSDK "cs-1" (mockStack mockCFNRun [])
        (MockCFNRun.new (some (Errorf "create changeset error")) none)).calls = [] ∧
      deleteChangeSetCalls (Run noSDK "cs-1" (mockStack mockCFNRun [])
        (MockCFNRun.new (some (Errorf "create changeset error")) none)).calls = [] ∧
      executeChangeSetCalls (Run noSDK "cs-1" (mockStack mockCFNRun [])
        (MockCFNRun.new (some (Errorf "create changeset error")) none)).calls = []) :=
  ⟨(Run_propagates_errors noSDK "cs-1" (mockStack mockCFNRun [])
      (MockCFNRun.new none (some (Errorf "execute changeset error")))).1
      [Call.DescribeStacks ⟨"mock-stack"⟩ (stackAnswer "CREATE_IN_PROGRESS"),
       Call.CreateChangeSet ⟨"cs-1", "cs-1", "UPDATE", [], "mock-stack", "{}-body"⟩ none,
       Call.DescribeChangeSet ⟨"cs-1", "mock-stack"⟩ (changeSetAnswer "CREATE_IN_PROGRESS" none),
       Call.DescribeChangeSet ⟨"cs-1", "mock-stack"⟩ (changeSetAnswer "CREATE_COMPLETE" none)]
      (Call.ExecuteChangeSet ⟨"cs-1", "cs-1", "mock-stack"⟩
        (some (Errorf "execute changeset error")))
      [] (Errorf "execute changeset error") (by decide) (by decide) (by decide),
   (Run_propagates_errors noSDK "cs-1" (mockStack mockCFNRun [])
      (MockCFNRun.new (some (Errorf "create changeset error")) none)).2
      ⟨"cs-1", "cs-1", "UPDATE", [], "mock-stack", "{}-body"⟩
      (Errorf "create changeset error") (by decide)⟩

end Witnesses

/-! ## The recorded answers are the successive answers of the client -/

section Answers

/-- On a pending answer the loop of `waitForChangeSet` goes on with one attempt less. -/
theorem waitForChangeSetLoop_pending_step {σ : Type} (api : CloudFormationAPI σ)
    (t : Template) (csName : String) (n : Nat) (w : σ)
    (h : changeSetPending (api.DescribeChangeSet ⟨csName, t.GetStackName⟩ w).1 = true) :
    waitForChangeSetLoop api t csName (n + 1) w
      = (waitForChangeSetLoop api t csName n
          (api.DescribeChangeSet ⟨csName, t.GetStackName⟩ w).2).after
          (Call.DescribeChangeSet ⟨csName, t.GetStackName⟩
            (api.DescribeChangeSet ⟨csName, t.GetStackName⟩ w).1) := by
  rw [waitForChangeSetLoop]
  generalize api.DescribeChangeSet ⟨csName, t.GetStackName⟩ w = r at h ⊢
  obtain ⟨⟨o, e⟩, w1⟩ := r
  cases e with
  | some err => cases o <;> simp [changeSetPending] at h
  | none =>
    cases o with
    | none => simp [changeSetPending] at h
    | some desc =>
      simp only [changeSetPending, Bool.and_eq_true, decide_eq_true_eq] at h
      simp [h.1, h.2]

/-- On a pending answer the polling loop of `executeChangeSet` goes on with one attempt
less. -/
theorem executeChangeSetLoop_pending_step {σ : Type} (api : CloudFormationAPI σ)
    (t : Template) (target : String) (n : Nat) (w : σ)
    (h : stackPending target (api.DescribeStacks ⟨t.GetStackName⟩ w).1 = true) :
    executeChangeSetLoop api t target (n + 1) w
      = (executeChangeSetLoop api t target n (api.DescribeStacks ⟨t.GetStackName⟩ w).2).after
          (Call.DescribeStacks ⟨t.GetStackName⟩ (api.DescribeStacks ⟨t.GetStackName⟩ w).1) := by
  rw [executeChangeSetLoop]
  generalize api.DescribeStacks ⟨t.GetStackName⟩ w = r at h ⊢
  obtain ⟨⟨o, e⟩, w1⟩ := r
  cases e with
  | some err => cases o <;> simp [stackPending] at h
  | none =>
    cases o with
    | none => simp [stackPending] at h
    | some resp =>
      cases hst : resp.Stacks with
      | nil => simp [stackPending, hst] at h
      | cons first rest =>
        simp only [stackPending, hst, stackDecisive, Bool.not_eq_true', Bool.or_eq_false_iff,
          decide_eq_false_iff_not] at h
        simp [hst, h.1, h.2]

/-- The first call of a run of the loop of `waitForChangeSet` with an attempt left is the
`DescribeChangeSet` call answered by the client in the world of the start. -/
theorem waitForChangeSetLoop_first_call {σ : Type} (api : CloudFormationAPI σ) (t : Template)
    (csName : String) (n : Nat) (w : σ) :
    ∃ rest, (waitForChangeSetLoop api t csName (n + 1) w).calls
      = Call.DescribeChangeSet ⟨csName, t.GetStackName⟩
          (api.DescribeChangeSet ⟨csName, t.GetStackName⟩ w).1 :: rest := by
  rw [waitForChangeSetLoop]
  simp only []
  repeat' split
  all_goals exact ⟨_, rfl⟩

/-- The first call of a run of the polling loop of `executeChangeSet` with an attempt left
is the `DescribeStacks` call answered by the client in the world of the start. -/
theorem executeChangeSetLoop_first_call {σ : Type} (api : CloudFormationAPI σ) (t : Template)
    (target : String) (n : Nat) (w : σ) :
    ∃ rest, (executeChangeSetLoop api t target (n + 1) w).calls
      = Call.DescribeStacks ⟨t.GetStackName⟩ (api.DescribeStacks ⟨t.GetStackName⟩ w).1
          :: rest := by
  rw [executeChangeSetLoop]
  simp only []
  repeat' split
  all_goals exact ⟨_, rfl⟩

/-- Within the attempts, the answers received by `waitForChangeSet` are the successive
answers of the client: when the client's first `k` answers are pending and `k` is less
than the number of attempts, the run receives the answers `0` to `k`, in order. -/
theorem waitForChangeSetLoop_receives {σ : Type} (api : CloudFormationAPI σ) (t : Template)
    (csName : String) :
    ∀ (k n : Nat) (w : σ), k < n →
      (∀ j, j < k →
        changeSetPending (nthDescribeChangeSet api ⟨csName, t.GetStackName⟩ j w) = true) →
      ∃ rest, describeChangeSetResponses (waitForChangeSetLoop api t csName n w).calls
        = (List.range (k + 1)).map
            (fun j => nthDescribeChangeSet api ⟨csName, t.GetStackName⟩ j w) ++ rest
  | 0, 0, _, h, _ => absurd h (by omega)
  | 0, n + 1, w, _, _ => by
    obtain ⟨rest, hrest⟩ := waitForChangeSetLoop_first_call api t csName n w
    exact ⟨describeChangeSetResponses rest, by
      rw [hrest]
      rfl⟩
  | k + 1, 0, _, h, _ => absurd h (by omega)
  | k + 1, n + 1, w, h, hp => by
    have h0 := hp 0 (by omega)
    obtain ⟨rest, hrest⟩ := waitForChangeSetLoop_receives api t csName k n
      (api.DescribeChangeSet ⟨csName, t.GetStackName⟩ w).2 (by omega)
      (fun j hj => hp (j + 1) (by omega))
    refine ⟨rest, ?_⟩
    rw [waitForChangeSetLoop_pending_step api t csName n w h0, Exec.after_calls]
    have hcons : describeChangeSetResponses
        (Call.DescribeChangeSet ⟨csName, t.GetStackName⟩
          (api.DescribeChangeSet ⟨csName, t.GetStackName⟩ w).1
          :: (waitForChangeSetLoop api t csName n
              (api.DescribeChangeSet ⟨csName, t.GetStackName⟩ w).2).calls)
        = (api.DescribeChangeSet ⟨csName, t.GetStackName⟩ w).1
          :: describeChangeSetResponses (waitForChangeSetLoop api t csName n
              (api.DescribeChangeSet ⟨csName, t.GetStackName⟩ w).2).calls := by
      simp [describeChangeSetResponses, List.filterMap_cons, Call.describeChangeSet?]
    rw [hcons, hrest, List.range_succ_eq_map (k + 1)]
    simp only [List.map_cons, List.map_map, List.cons_append]
    rfl

/-- Within the attempts, the answers received by the polling of `executeChangeSet` are the
successive answers of the client: when the client's first `k` answers are pending and `k`
is less than the number of attempts, the run receives the answers `0` to `k`, in order. -/
theorem executeChangeSetLoop_receives {σ : Type} (api : CloudFormationAPI σ) (t : Template)
    (target : String) :
    ∀ (k n : Nat) (w : σ), k < n →
      (∀ j, j < k →
        stackPending target (nthDescribeStacks api ⟨t.GetStackName⟩ j w) = true) →
      ∃ rest, describeStacksResponses (executeChangeSetLoop api t target n w).calls
        = (List.range (k + 1)).map (fun j => nthDescribeStacks api ⟨t.GetStackName⟩ j w)
          ++ rest
  | 0, 0, _, h, _ => absurd h (by omega)
  | 0, n + 1, w, _, _ => by
    obtain ⟨rest, hrest⟩ := executeChangeSetLoop_first_call api t target n w
    exact ⟨describeStacksResponses rest, by
      rw [hrest]
      rfl⟩
  | k + 1, 0, _, h, _ => absurd h (by omega)
  | k + 1, n + 1, w, h, hp => by
    have h0 := hp 0 (by omega)
    obtain ⟨rest, hrest⟩ := executeChangeSetLoop_receives api t target k n
      (api.DescribeStacks ⟨t.GetStackName⟩ w).2 (by omega)
      (fun j hj => hp (j + 1) (by omega))
    refine ⟨rest, ?_⟩
    rw [executeChangeSetLoop_pending_step api t target n w h0, Exec.after_calls]
    have hcons : describeStacksResponses
        (Call.DescribeStacks ⟨t.GetStackName⟩ (api.DescribeStacks ⟨t.GetStackName⟩ w).1
          :: (executeChangeSetLoop api t target n
              (api.DescribeStacks ⟨t.GetStackName⟩ w).2).calls)
        = (api.DescribeStacks ⟨t.GetStackName⟩ w).1
          :: describeStacksResponses (executeChangeSetLoop api t target n
              (api.DescribeStacks ⟨t.GetStackName⟩ w).2).calls := by
      simp [describeStacksResponses, List.filterMap_cons, Call.describeStacks?]
    rw [hcons, hrest, List.range_succ_eq_map (k + 1)]
    simp only [List.map_cons, List.map_map, List.cons_append]
    rfl

end Answers

/-! ## Stack-status polling, on the successive answers of the client -/

section StackPolling

/-- On an answer that is not pending the polling loop of `executeChangeSet` stops: it has
made this one call, and ends by the verdict of the answer. -/
theorem executeChangeSetLoop_decisive_step {σ : Type} (api : CloudFormationAPI σ)
    (t : Template) (target : String) (n : Nat) (w : σ)
    (h : stackPending target (api.DescribeStacks ⟨t.GetStackName⟩ w).1 = false) :
    (executeChangeSetLoop api t target (n + 1) w).calls
      = [Call.DescribeStacks ⟨t.GetStackName⟩ (api.DescribeStacks ⟨t.GetStackName⟩ w).1] ∧
    StackVerdict target (api.DescribeStacks ⟨t.GetStackName⟩ w).1
      (executeChangeSetLoop api t target (n + 1) w).out := by
  rw [executeChangeSetLoop]
  generalize api.DescribeStacks ⟨t.GetStackName⟩ w = r at h ⊢
  obtain ⟨⟨o, e⟩, w1⟩ := r
  cases e with
  | some err => exact ⟨rfl, .remoteError o err⟩
  | none =>
    cases o with
    | none => exact ⟨rfl, .nilOutput⟩
    | some resp =>
      cases hst : resp.Stacks with
      | nil => exact ⟨by simp [hst], by simpa [hst] using .notFound resp hst⟩
      | cons first rest =>
        by_cases ht : first.StackStatus = target
        · exact ⟨by simp [hst, ht], by simpa [hst, ht] using .done resp first rest hst ht⟩
        · by_cases hf : isFailureStatus first.StackStatus = true
          · exact ⟨by simp [hst, ht, hf],
              by simpa [hst, ht, hf] using .failed resp first rest hst ht hf⟩
          · simp [stackPending, hst, stackDecisive, ht, hf] at h

/-- The polling loop of `executeChangeSet` on a client whose answers `0` to `k - 1` are
pending and whose answer `k` is not, with `k` less than the number of attempts: the calls
made are exactly the `DescribeStacks` calls answered by the answers `0` to `k`, and the
loop ends by the verdict of the answer `k`. -/
theorem executeChangeSetLoop_script {σ : Type} (api : CloudFormationAPI σ) (t : Template)
    (target : String) :
    ∀ (k n : Nat) (w : σ), k < n →
      (∀ j, j < k →
        stackPending target (nthDescribeStacks api ⟨t.GetStackName⟩ j w) = true) →
      stackPending target (nthDescribeStacks api ⟨t.GetStackName⟩ k w) = false →
      (executeChangeSetLoop api t target n w).calls
        = (List.range (k + 1)).map
            (fun j => Call.DescribeStacks ⟨t.GetStackName⟩
              (nthDescribeStacks api ⟨t.GetStackName⟩ j w)) ∧
      StackVerdict target (nthDescribeStacks api ⟨t.GetStackName⟩ k w)
        (executeChangeSetLoop api t target n w).out
  | 0, 0, _, h, _, _ => absurd h (by omega)
  | 0, n + 1, w, _, _, hk => executeChangeSetLoop_decisive_step api t target n w hk
  | k + 1, 0, _, h, _, _ => absurd h (by omega)
  | k + 1, n + 1, w, h, hp, hk => by
    have h0 := hp 0 (by omega)
    obtain ⟨hcalls, hv⟩ := executeChangeSetLoop_script api t target k n
      (api.DescribeStacks ⟨t.GetStackName⟩ w).2 (by omega)
      (fun j hj => hp (j + 1) (by omega)) hk
    rw [executeChangeSetLoop_pending_step api t target n w h0]
    refine ⟨?_, hv⟩
    rw [Exec.after_calls, hcalls, List.range_succ_eq_map (k + 1)]
    simp only [List.map_cons, List.map_map]
    rfl

/-- C4, amended. Stack-status polling is decided by the first decisive status that comes
within the 120 attempts. After a successful `ExecuteChangeSet`, let the client answer the
successive `DescribeStacks` calls so that the answers `0` to `k - 1` are successful, list
a stack and carry a status that is neither the target nor a failure status, and the answer
`k` is successful and lists a stack whose status `s` is the target or a failure status,
with `k < 120`. Then `executeChangeSet` returns nil when `s` is the target, it returns the
error "stack operation failed: " followed by `s` when `s` is a failure status (it ends in
FAILED or ROLLBACK_COMPLETE), and the `DescribeStacks` calls it makes are exactly those
answered by the answers `0` to `k`: none after the decisive one. The target is
CREATE_COMPLETE for CREATE and UPDATE_COMPLETE for UPDATE (the first two conjuncts). -/
theorem executeChangeSet_first_decisive {σ : Type} (api : CloudFormationAPI σ)
    (t : Template) (csName csType : String) (w : σ) (k : Nat) (s : String)
    (hexec : (api.ExecuteChangeSet ⟨csName, csName, t.GetStackName⟩ w).1 = none)
    (hk : k < 120)
    (hpending : ∀ j, j < k →
      stackPending (targetStatus csType)
        (nthDescribeStacks api ⟨t.GetStackName⟩ j
          (api.ExecuteChangeSet ⟨csName, csName, t.GetStackName⟩ w).2) = true)
    (hstatus : stackStatus?
        (nthDescribeStacks api ⟨t.GetStackName⟩ k
          (api.ExecuteChangeSet ⟨csName, csName, t.GetStackName⟩ w).2) = some s)
    (hdecisive : stackDecisive (targetStatus csType) s = true) :
    targetStatus "CREATE" = "CREATE_COMPLETE" ∧ targetStatus "UPDATE" = "UPDATE_COMPLETE" ∧
    (s = targetStatus csType → (executeChangeSet api t csName csType w).out = .ret none) ∧
    (isFailureStatus s = true → (executeChangeSet api t csName csType w).out
        = .ret (some (Errorf ("stack operation failed: " ++ s)))) ∧
    describeStacksResponses (executeChangeSet api t csName csType w).calls
      = (List.range (k + 1)).map
          (fun j => nthDescribeStacks api ⟨t.GetStackName⟩ j
            (api.ExecuteChangeSet ⟨csName, csName, t.GetStackName⟩ w).2) := by
  refine ⟨by decide, by decide, ?_⟩
  have hnp : stackPending (targetStatus csType)
      (nthDescribeStacks api ⟨t.GetStackName⟩ k
        (api.ExecuteChangeSet ⟨csName, csName, t.GetStackName⟩ w).2) = false := by
    generalize nthDescribeStacks api ⟨t.GetStackName⟩ k
      (api.ExecuteChangeSet ⟨csName, csName, t.GetStackName⟩ w).2 = r at hstatus
    obtain ⟨o, e⟩ := r
    cases e with
    | some err => cases o <;> rfl
    | none =>
      cases o with
      | none => rfl
      | some resp =>
        cases hst : resp.Stacks with
        | nil => simp [stackPending, hst]
        | cons first rest =>
          simp only [stackStatus?, hst, Option.some.injEq] at hstatus
          simp [stackPending, hst, hstatus, hdecisive]
  obtain ⟨hcalls, hv⟩ := executeChangeSetLoop_script api t (targetStatus csType) k 120
    (api.ExecuteChangeSet ⟨csName, csName, t.GetStackName⟩ w).2 hk hpending hnp
  have hout := executeChangeSet_out_of_ok api t csName csType w hexec
  have hresp : describeStacksResponses (executeChangeSet api t csName csType w).calls
      = describeStacksResponses (executeChangeSetLoop api t (targetStatus csType) 120
          (api.ExecuteChangeSet ⟨csName, csName, t.GetStackName⟩ w).2).calls := by
    unfold executeChangeSet
    simp [hexec, describeStacksResponses, List.filterMap_cons, Call.describeStacks?]
  rw [hout, hresp, hcalls]
  generalize (executeChangeSetLoop api t (targetStatus csType) 120
    (api.ExecuteChangeSet ⟨csName, csName, t.GetStackName⟩ w).2).out = out at hv
  generalize nthDescribeStacks api ⟨t.GetStackName⟩ k
    (api.ExecuteChangeSet ⟨csName, csName, t.GetStackName⟩ w).2 = r at hstatus hnp hv
  have hmap : describeStacksResponses
      ((List.range (k + 1)).map
        (fun j => Call.DescribeStacks ⟨t.GetStackName⟩
          (nthDescribeStacks api ⟨t.GetStackName⟩ j
            (api.ExecuteChangeSet ⟨csName, csName, t.GetStackName⟩ w).2)))
      = (List.range (k + 1)).map
        (fun j => nthDescribeStacks api ⟨t.GetStackName⟩ j
          (api.ExecuteChangeSet ⟨csName, csName, t.GetStackName⟩ w).2) := by
    have h := describeStacksResponses_map ⟨t.GetStackName⟩
      ((List.range (k + 1)).map
        (fun j => nthDescribeStacks api ⟨t.GetStackName⟩ j
          (api.ExecuteChangeSet ⟨csName, csName, t.GetStackName⟩ w).2))
    rw [List.map_map] at h
    exact h
  refine ⟨?_, ?_, hmap⟩
  · intro hs
    cases hv with
    | remoteError o e => cases o <;> simp [stackStatus?] at hstatus
    | nilOutput => simp [stackStatus?] at hstatus
    | notFound resp h => simp [stackStatus?, h] at hstatus
    | done resp first rest h ht => rfl
    | failed resp first rest h ht hf =>
      simp only [stackStatus?, h, Option.some.injEq] at hstatus
      exact absurd (hstatus.trans hs) ht
  · intro hfail
    cases hv with
    | remoteError o e => cases o <;> simp [stackStatus?] at hstatus
    | nilOutput => simp [stackStatus?] at hstatus
    | notFound resp h => simp [stackStatus?, h] at hstatus
    | done resp first rest h ht =>
      simp only [stackStatus?, h, Option.some.injEq] at hstatus
      rw [← hstatus, ht, isFailureStatus_targetStatus] at hfail
      cases hfail
    | failed resp first rest h ht hf =>
      simp only [stackStatus?, h, Option.some.injEq] at hstatus
      rw [hstatus]
      rfl

/-- The runs behind `executeChangeSet_first_decisive`: an UPDATE changeset whose stack is
reported in progress and then UPDATE_COMPLETE, and a CREATE changeset whose stack is
reported in progress twice and then ROLLBACK_COMPLETE (the script goes on, unread). -/
theorem executeChangeSet_first_decisive_witness :
    (executeChangeSet scripted (MockTemplate "mock-stack" "us-east-1" "{}-body") "cs-1"
      "UPDATE"
      { create := none, changeSets := [], delete := none, execute := none,
        describeStacks := [stackAnswer "UPDATE_IN_PROGRESS", stackAnswer "UPDATE_COMPLETE",
          stackAnswer "UPDATE_ROLLBACK_FAILED"] }).out = .ret none ∧
    (executeChangeSet scripted (MockTemplate "mock-stack" "us-east-1" "{}-body") "cs-1"
      "CREATE"
      { create := none, changeSets := [], delete := none, execute := none,
        describeStacks := [stackAnswer "CREATE_IN_PROGRESS", stackAnswer "ROLLBACK_IN_PROGRESS",
          stackAnswer "ROLLBACK_COMPLETE", stackAnswer "CREATE_COMPLETE"] }).out
      = .ret (some (Errorf ("stack operation failed: " ++ "ROLLBACK_COMPLETE"))) :=
  ⟨(executeChangeSet_first_decisive scripted (MockTemplate "mock-stack" "us-east-1" "{}-body")
      "cs-1" "UPDATE"
      { create := none, changeSets := [], delete := none, execute := none,
        describeStacks := [stackAnswer "UPDATE_IN_PROGRESS", stackAnswer "UPDATE_COMPLETE",
          stackAnswer "UPDATE_ROLLBACK_FAILED"] }
      1 "UPDATE_COMPLETE" (by decide) (by decide) (by decide) (by decide)
      (by decide)).2.2.1 (by decide),
   (executeChangeSet_first_decisive scripted (MockTemplate "mock-stack" "us-east-1" "{}-body")
      "cs-1" "CREATE"
      { create := none, changeSets := [], delete := none, execute := none,
        describeStacks := [stackAnswer "CREATE_IN_PROGRESS", stackAnswer "ROLLBACK_IN_PROGRESS",
          stackAnswer "ROLLBACK_COMPLETE", stackAnswer "CREATE_COMPLETE"] }
      2 "ROLLBACK_COMPLETE" (by decide) (by decide) (by decide) (by decide)
      (by decide)).2.2.2.1 (by decide)⟩

end StackPolling

/-! ## DryRun -/

section DryRunLemmas

/-- The copy loop of `DryRun`: afterwards a key of the dry-run map has its value there,
and any other key has what it had before. -/
theorem copyDryRunOutputs_get (d m : GoMap) (k : String) :
    (copyDryRunOutputs d m).get k =
      match d.get k with
      | some v => some v
      | none => m.get k := by
  induction d with
  | nil => rfl
  | cons x d ih =>
    obtain ⟨a, b⟩ := x
    have hstep : copyDryRunOutputs ((a, b) :: d) m = (copyDryRunOutputs d m).set a b := rfl
    rw [hstep, GoMap.get_set]
    by_cases h : k = a
    · subst h
      simp [GoMap.get, List.lookup_cons]
    · have hk : (k == a) = false := by simpa using h
      rw [if_neg h, ih]
      simp [GoMap.get, List.lookup_cons, hk]

/-- A successful `DryRun`: no error, and the captured outputs are the copy of the dry-run
map over the previous ones. -/
theorem DryRun_of_ok {σ : Type} (st : Stack σ) (w : σ) (body : String)
    (hjson : st.template.BuildJSON = .ok body) :
    (DryRun st w).out = .ret none ∧
      (DryRun st w).stack.Outputs =
        copyDryRunOutputs st.template.GetDryRunOutputs st.Outputs ∧
      (DryRun st w).stack.template = st.template := by
  simp [DryRun, templateJson, hjson]

/-- Every `DryRun` makes no call, leaves the world and the client handle as they were, and
leaves the template as it was. -/
theorem DryRun_silent {σ : Type} (st : Stack σ) (w : σ) :
    (DryRun st w).calls = [] ∧ (DryRun st w).world = w ∧
      (DryRun st w).stack.cloudFormationClient = st.cloudFormationClient ∧
      (DryRun st w).stack.template = st.template := by
  unfold DryRun templateJson
  cases st.template.BuildJSON <;> simp

end DryRunLemmas

/-! ## The claims on DryRun -/

section DryRunClaims

/-- C11, as stated, fails: the stack of `TestStack_GetOutputs_Mock`, holding the captured
key "old" before, still holds it after a `DryRun` that returned nil, although "old" is no
key of the dry-run outputs of its template. -/
theorem DryRun_keeps_prior_key :
    (mockStack mockCFNSuccess [("old", "x")]).template.BuildJSON = .ok "{}-body" ∧
    (DryRun (mockStack mockCFNSuccess [("old", "x")]) ()).out = .ret none ∧
    GoMap.get (mockStack mockCFNSuccess [("old", "x")]).template.GetDryRunOutputs "old"
      = none ∧
    GoMap.get (DryRun (mockStack mockCFNSuccess [("old", "x")]) ()).stack.Outputs "old"
      = some "x" :=
  ⟨rfl, by decide, by decide, by decide⟩

/-- C11, amended. When the template serialises, `DryRun` returns nil and merges the dry-run
outputs into the captured outputs: afterwards every key of the dry-run map has the value it
has there, and every other key has what it had before. On a map that was empty before, the
captured outputs are exactly the dry-run outputs. -/
theorem DryRun_merges_outputs {σ : Type} (st : Stack σ) (w : σ) (body : String)
    (hjson : st.template.BuildJSON = .ok body) :
    (DryRun st w).out = .ret none ∧
    (∀ k, GoMap.get (DryRun st w).stack.Outputs k =
      match GoMap.get st.template.GetDryRunOutputs k with
      | some v => some v
      | none => GoMap.get st.Outputs k) ∧
    (st.Outputs = [] →
      ∀ k, GoMap.get (DryRun st w).stack.Outputs k
        = GoMap.get st.template.GetDryRunOutputs k) := by
  obtain ⟨hout, houts, _⟩ := DryRun_of_ok st w body hjson
  refine ⟨hout, ?_, ?_⟩
  · intro k
    rw [houts]
    exact copyDryRunOutputs_get _ _ k
  · intro hempty k
    rw [houts, copyDryRunOutputs_get, hempty]
    cases GoMap.get st.template.GetDryRunOutputs k <;> rfl

/-- The amended C11 on the stack of `TestStack_GetOutputs_Mock` with one captured key. -/
theorem DryRun_merges_outputs_witness :
    (DryRun (mockStack mockCFNSuccess [("old", "x")]) ()).out = .ret none ∧
    (∀ k, GoMap.get (DryRun (mockStack mockCFNSuccess [("old", "x")]) ()).stack.Outputs k =
      match GoMap.get (mockStack mockCFNSuccess [("old", "x")]).template.GetDryRunOutputs k with
      | some v => some v
      | none => GoMap.get [("old", "x")] k) ∧
    ((mockStack mockCFNSuccess [("old", "x")]).Outputs = [] →
      ∀ k, GoMap.get (DryRun (mockStack mockCFNSuccess [("old", "x")]) ()).stack.Outputs k
        = GoMap.get (mockStack mockCFNSuccess [("old", "x")]).template.GetDryRunOutputs k) :=
  DryRun_merges_outputs (mockStack mockCFNSuccess [("old", "x")]) () "{}-body" rfl

/-- C12. `DryRun` issues no remote call: on every stack, with or without a client handle, it
makes no call on the client, leaves the world of the remote service as it was and leaves the
client handle as it was. On a stack just returned by `NewStack` whose template serialises,
it returns nil and the captured outputs afterwards are exactly the dry-run outputs of the
template. -/
theorem DryRun_no_remote_call {σ : Type} :
    (∀ (st : Stack σ) (w : σ),
      (DryRun st w).calls = [] ∧ (DryRun st w).world = w ∧
      (DryRun st w).stack.cloudFormationClient = st.cloudFormationClient) ∧
    (∀ (t : Template) (w : σ) (body : String), t.BuildJSON = .ok body →
      (DryRun (NewStack t) w).out = .ret none ∧
      ∀ k, GoMap.get (DryRun (NewStack t) w).stack.Outputs k
        = GoMap.get t.GetDryRunOutputs k) := by
  refine ⟨fun st w => ?_, fun t w body hjson => ?_⟩
  · obtain ⟨h1, h2, h3, _⟩ := DryRun_silent st w
    exact ⟨h1, h2, h3⟩
  · obtain ⟨hout, houts, _⟩ := DryRun_of_ok (NewStack t) w body hjson
    refine ⟨hout, fun k => ?_⟩
    rw [houts, copyDryRunOutputs_get]
    show (match GoMap.get t.GetDryRunOutputs k with
      | some v => some v
      | none => GoMap.get [] k) = GoMap.get t.GetDryRunOutputs k
    cases GoMap.get t.GetDryRunOutputs k <;> rfl

/-- C12 on the certificate "acme-certificate": a fresh stack captures exactly
"acme-certificate-Arn" with the value "arn:example:cert/123", and no call is made. -/
theorem DryRun_no_remote_call_witness :
    acmeCertificate.view.BuildJSON = .ok "certificate-body" ∧
    (DryRun (NewStack acmeCertificate.view) ()).calls = [] ∧
    (DryRun (NewStack acmeCertificate.view) ()).out = .ret none ∧
    (∀ k, GoMap.get (DryRun (NewStack acmeCertificate.view) ()).stack.Outputs k
      = GoMap.get acmeCertificate.view.GetDryRunOutputs k) ∧
    (DryRun (NewStack acmeCertificate.view) ()).stack.Outputs
      = [("acme-certificate-Arn", "arn:example:cert/123")] :=
  ⟨rfl, (DryRun_no_remote_call.1 (NewStack acmeCertificate.view) ()).1,
    (DryRun_no_remote_call.2 acmeCertificate.view () "certificate-body" rfl).1,
    (DryRun_no_remote_call.2 acmeCertificate.view () "certificate-body" rfl).2,
    by decide⟩

end DryRunClaims

/-! ## template.go: maps and the ordered list -/

section TemplateLemmas

/-- Filtering a map on another key keeps the lookup of this one. -/
theorem GoMapOf.lookup_filter_other {α : Type} (m : GoMapOf α) (k k1 : String) (h : k1 ≠ k) :
    List.lookup k1 (m.filter (fun e => e.1 ≠ k)) = List.lookup k1 m := by
  induction m with
  | nil => rfl
  | cons x m ih =>
    obtain ⟨a, b⟩ := x
    simp only [ne_eq, decide_not] at ih
    by_cases ha : a = k
    · subst ha
      have hk : (k1 == a) = false := by simpa using h
      simp [List.filter_cons, List.lookup_cons, hk, ih]
    · by_cases hk : k1 = a
      · subst hk
        simp [List.filter_cons, List.lookup_cons, ha]
      · have hk1 : (k1 == a) = false := by simpa using hk
        simp [List.filter_cons, List.lookup_cons, ha, hk1, ih]

/-- Reading after an assignment. -/
theorem GoMapOf.get_after_set {α : Type} (m : GoMapOf α) (k : String) (v : α) (k1 : String) :
    GoMapOf.get (GoMapOf.set m k v) k1 = if k1 = k then some v else GoMapOf.get m k1 := by
  unfold GoMapOf.get GoMapOf.set
  by_cases h : k1 = k
  · subst h
    simp [List.lookup_cons]
  · have hk : (k1 == k) = false := by simpa using h
    have hf := GoMapOf.lookup_filter_other m k k1 h
    simp only [ne_eq, decide_not] at hf
    simp [List.lookup_cons, hk, h, hf]

/-- Assigning to a key the value it already has changes no lookup. -/
theorem GoMapOf.get_set_same {α : Type} (m : GoMapOf α) (k : String) (v : α)
    (h : GoMapOf.get m k = some v) (k1 : String) :
    GoMapOf.get (GoMapOf.set m k v) k1 = GoMapOf.get m k1 := by
  rw [GoMapOf.get_after_set]
  by_cases hk : k1 = k
  · subst hk
    rw [if_pos rfl, h]
  · rw [if_neg hk]

/-- A key is read as absent exactly when it is none of the keys of the list. -/
theorem GoMapOf.get_eq_none_iff {α : Type} (m : GoMapOf α) (k : String) :
    GoMapOf.get m k = none ↔ k ∉ GoMapOf.keys m := by
  induction m with
  | nil => simp [GoMapOf.get, GoMapOf.keys]
  | cons x m ih =>
    obtain ⟨a, b⟩ := x
    unfold GoMapOf.get GoMapOf.keys at ih ⊢
    by_cases h : k = a
    · subst h
      simp [List.lookup_cons]
    · have hk : (k == a) = false := by simpa using h
      simp [List.lookup_cons, hk, h, ih]

/-- The keys after an assignment: the key, then the other keys as they were. -/
theorem GoMapOf.keys_set {α : Type} (m : GoMapOf α) (k : String) (v : α) :
    GoMapOf.keys (GoMapOf.set m k v) = k :: (GoMapOf.keys m).filter (fun a => a ≠ k) := by
  unfold GoMapOf.keys GoMapOf.set
  simp only [List.map_cons, List.cons.injEq, true_and]
  induction m with
  | nil => rfl
  | cons x m ih =>
    obtain ⟨a, b⟩ := x
    by_cases h : a = k
    · simp [List.filter_cons, h]
      simpa using ih
    · simp [List.filter_cons, h]
      simpa using ih

/-- The keys of the entries of an appended list. -/
theorem paramKeys_append (xs ys : List Parameter) :
    paramKeys (xs ++ ys) = paramKeys xs ++ paramKeys ys := by
  simp [paramKeys, List.filterMap_append]

/-- On a list whose entries all have a key the loop of `SetParameterValue` does not
panic and replaces, in place, the entries under the name. -/
theorem setParamsLoop_of_keys (name value : String) (ps : List Parameter)
    (hkeys : ∀ p ∈ ps, p.ParameterKey ≠ none) :
    setParamsLoop name value ps = (.ret (), ps.map (rebind name value)) := by
  induction ps with
  | nil => rfl
  | cons p ps ih =>
    have hp := hkeys p (List.mem_cons_self _ _)
    have ih1 := ih (fun q hq => hkeys q (List.mem_cons_of_mem _ hq))
    cases hkey : p.ParameterKey with
    | none => exact absurd hkey hp
    | some key =>
      by_cases hk : key = name
      · simp [setParamsLoop, hkey, hk, ih1, rebind]
      · simp [setParamsLoop, hkey, hk, ih1, rebind]

/-- The replacement keeps the key of an entry. -/
theorem rebind_key (name value : String) (p : Parameter) :
    (rebind name value p).ParameterKey = p.ParameterKey := by
  unfold rebind
  split <;> rfl

/-- The replacement keeps the keys of the list. -/
theorem paramKeys_map_rebind (name value : String) (ps : List Parameter) :
    paramKeys (ps.map (rebind name value)) = paramKeys ps := by
  induction ps with
  | nil => rfl
  | cons p ps ih =>
    unfold paramKeys at ih ⊢
    simp only [List.map_cons, List.filterMap_cons, rebind_key, ih]

end TemplateLemmas

/-! ## SetParameterValue -/

section SetParameterValueLemmas

/-- The method `SetParameterValue` on a known name and a list whose entries all have a
key: nil is returned, the mapping is assigned the definition it had, the entries of the
list under the name are replaced, and nothing else changes. -/
theorem SetParameterValue_of_known (t : TemplateComponent) (name value : String)
    (param : CfnParameter) (hknown : GoMapOf.get t.Parameters name = some param)
    (hkeys : ∀ p ∈ t.Params, p.ParameterKey ≠ none) :
    t.SetParameterValue name value =
      (.ret none,
        { t with
          Parameters := GoMapOf.set t.Parameters name param
          Params := t.Params.map (rebind name value) }) := by
  unfold TemplateComponent.SetParameterValue
  simp only [hknown, setParamsLoop_of_keys name value t.Params hkeys]

/-- The method `SetParameterValue` on an unknown name. -/
theorem SetParameterValue_of_unknown (t : TemplateComponent) (name value : String)
    (hunknown : GoMapOf.get t.Parameters name = none) :
    t.SetParameterValue name value =
      (.ret (some (Errorf ("parameter " ++ name ++ " not found"))), t) := by
  unfold TemplateComponent.SetParameterValue
  simp only [hunknown]

/-- The loop of `SetParameterValue` keeps the keys of the list, and the absence of a key,
entry by entry, whether it panics or not. -/
theorem setParamsLoop_keys (name value : String) (ps : List Parameter) :
    (setParamsLoop name value ps).2.map (fun p => p.ParameterKey)
      = ps.map (fun p => p.ParameterKey) := by
  induction ps with
  | nil => rfl
  | cons p ps ih =>
    cases hkey : p.ParameterKey with
    | none => simp [setParamsLoop, hkey]
    | some key =>
      by_cases hk : key = name
      · simp [setParamsLoop, hkey, hk, ih]
      · simp [setParamsLoop, hkey, hk, ih]

/-- The method `SetParameterValue` never changes what the mapping holds: under every key
the definition read afterwards is the one read before. -/
theorem SetParameterValue_mapping (t : TemplateComponent) (name value k : String) :
    GoMapOf.get (t.SetParameterValue name value).2.Parameters k = GoMapOf.get t.Parameters k := by
  unfold TemplateComponent.SetParameterValue
  cases hknown : GoMapOf.get t.Parameters name with
  | none => rfl
  | some param =>
    have h := GoMapOf.get_set_same t.Parameters name param hknown k
    simp only []
    cases (setParamsLoop name value t.Params).1 <;> exact h

end SetParameterValueLemmas

/-! ## The templates reached from NewTemplate -/

section Reachable

/-- One call keeps the two facts of the template invariant: every entry of the list has a
key, and the keys of the list are the keys of the mapping. -/
theorem TemplateCall.run_invariant (t : TemplateComponent) (c : TemplateCall)
    (h1 : ∀ p ∈ t.Params, p.ParameterKey ≠ none)
    (h2 : ∀ k, k ∈ paramKeys t.Params ↔ GoMapOf.get t.Parameters k ≠ none) :
    (∀ p ∈ (TemplateCall.run t c).Params, p.ParameterKey ≠ none) ∧
    (∀ k, k ∈ paramKeys (TemplateCall.run t c).Params ↔
      GoMapOf.get (TemplateCall.run t c).Parameters k ≠ none) := by
  cases c with
  | AddParameter name parameter defaultValue =>
    constructor
    · intro p hp
      have hp1 : p ∈ t.Params ++ [{ ParameterKey := some name, ParameterValue := some defaultValue }] := hp
      rcases List.mem_append.1 hp1 with h | h
      · exact h1 p h
      · rw [List.mem_singleton.1 h]
        simp
    · intro k
      show k ∈ paramKeys (t.Params ++ [{ ParameterKey := some name, ParameterValue := some defaultValue }]) ↔
        GoMapOf.get (GoMapOf.set t.Parameters name parameter) k ≠ none
      rw [paramKeys_append, GoMapOf.get_after_set, List.mem_append]
      by_cases hk : k = name
      · subst hk
        simp [paramKeys]
      · rw [if_neg hk, ← h2 k]
        simp [paramKeys, hk]
  | AddResource name resource => exact ⟨h1, h2⟩
  | AddOutput name output dryRunValue => exact ⟨h1, h2⟩
  | SetParameterValue name value =>
    show (∀ p ∈ (t.SetParameterValue name value).2.Params, p.ParameterKey ≠ none) ∧
      (∀ k, k ∈ paramKeys (t.SetParameterValue name value).2.Params ↔
        GoMapOf.get (t.SetParameterValue name value).2.Parameters k ≠ none)
    cases hknown : GoMapOf.get t.Parameters name with
    | none =>
      rw [SetParameterValue_of_unknown t name value hknown]
      exact ⟨h1, h2⟩
    | some param =>
      rw [SetParameterValue_of_known t name value param hknown h1]
      constructor
      · intro p hp
        obtain ⟨q, hq, rfl⟩ := List.mem_map.1 hp
        rw [rebind_key]
        exact h1 q hq
      · intro k
        show k ∈ paramKeys (t.Params.map (rebind name value)) ↔
          GoMapOf.get (GoMapOf.set t.Parameters name param) k ≠ none
        rw [paramKeys_map_rebind, GoMapOf.get_set_same t.Parameters name param hknown k]
        exact h2 k

/-- A sequence of calls keeps the two facts of the template invariant. -/
theorem foldl_run_invariant (calls : List TemplateCall) (t : TemplateComponent)
    (h1 : ∀ p ∈ t.Params, p.ParameterKey ≠ none)
    (h2 : ∀ k, k ∈ paramKeys t.Params ↔ GoMapOf.get t.Parameters k ≠ none) :
    (∀ p ∈ (calls.foldl TemplateCall.run t).Params, p.ParameterKey ≠ none) ∧
    (∀ k, k ∈ paramKeys (calls.foldl TemplateCall.run t).Params ↔
      GoMapOf.get (calls.foldl TemplateCall.run t).Parameters k ≠ none) := by
  induction calls generalizing t with
  | nil => exact ⟨h1, h2⟩
  | cons c calls ih =>
    obtain ⟨h3, h4⟩ := TemplateCall.run_invariant t c h1 h2
    exact ih (TemplateCall.run t c) h3 h4

/-- In every template reached from `NewTemplate` every entry of the list has a key, and the
keys of the list are the keys of the mapping. -/
theorem templateAfter_invariant (region : String) (calls : List TemplateCall) :
    (∀ p ∈ (templateAfter region calls).Params, p.ParameterKey ≠ none) ∧
    (∀ k, k ∈ paramKeys (templateAfter region calls).Params ↔
      GoMapOf.get (templateAfter region calls).Parameters k ≠ none) := by
  unfold templateAfter
  apply foldl_run_invariant
  · intro p hp
    cases hp
  · intro k
    simp [NewTemplate, paramKeys, GoMapOf.get]

/-- A key is among the keys of the list exactly when an entry of the list has it. -/
theorem mem_paramKeys (ps : List Parameter) (k : String) :
    k ∈ paramKeys ps ↔ ∃ p ∈ ps, p.ParameterKey = some k := by
  simp [paramKeys, List.mem_filterMap]

end Reachable

/-! ## The claims on SetParameterValue and the template invariant -/

section TemplateClaims

/-- C13. `SetParameterValue` on an unknown name: for every template and every name that is
no key of the parameter mapping, the call returns the error "parameter <name> not found"
and leaves the whole template as it was (mapping, ordered list, resources, outputs, dry-run
outputs and region). -/
theorem SetParameterValue_unknown_name (t : TemplateComponent) (name value : String)
    (hunknown : name ∉ GoMapOf.keys t.Parameters) :
    (t.SetParameterValue name value).1
      = .ret (some (Errorf ("parameter " ++ name ++ " not found"))) ∧
    (t.SetParameterValue name value).2 = t := by
  rw [SetParameterValue_of_unknown t name value
    ((GoMapOf.get_eq_none_iff t.Parameters name).2 hunknown)]
  exact ⟨rfl, rfl⟩

/-- C13 on the template of the test: "Other" is no parameter of it. -/
theorem SetParameterValue_unknown_name_witness :
    (testTemplate.SetParameterValue "Other" "newval").1
      = .ret (some (Errorf ("parameter " ++ "Other" ++ " not found"))) ∧
    (testTemplate.SetParameterValue "Other" "newval").2 = testTemplate :=
  SetParameterValue_unknown_name testTemplate "Other" "newval" (by decide)

/-- C14. `SetParameterValue` on a known name: for every template whose list entries have
their key, and every name that is a key of the parameter mapping, the call returns nil;
afterwards every entry of the ordered list under the name has the new value; the list has
the length it had, and at every position the entry is the replacement of the entry that
was there (the same key with the new value under the name, the same entry under another
key); resources, outputs, dry-run outputs and region are as they were. The entries of the
list of every template reached from `NewTemplate` have their key. -/
theorem SetParameterValue_known_list :
    (∀ (t : TemplateComponent) (name v : String), name ∈ GoMapOf.keys t.Parameters →
      (∀ p ∈ t.Params, p.ParameterKey ≠ none) →
      (t.SetParameterValue name v).1 = .ret none ∧
      (∀ q ∈ (t.SetParameterValue name v).2.Params,
        q.ParameterKey = some name → q.ParameterValue = some v) ∧
      (t.SetParameterValue name v).2.Params.length = t.Params.length ∧
      (∀ (i : Nat) (p : Parameter), t.Params[i]? = some p →
        (t.SetParameterValue name v).2.Params[i]? = some (rebind name v p)) ∧
      (∀ p : Parameter, p.ParameterKey ≠ some name → rebind name v p = p) ∧
      (t.SetParameterValue name v).2.Resources = t.Resources ∧
      (t.SetParameterValue name v).2.Outputs = t.Outputs ∧
      (t.SetParameterValue name v).2.DryRunOutputs = t.DryRunOutputs ∧
      (t.SetParameterValue name v).2.Region = t.Region) ∧
    (∀ (region : String) (calls : List TemplateCall),
      ∀ p ∈ (templateAfter region calls).Params, p.ParameterKey ≠ none) := by
  refine ⟨fun t name v hknown hkeys => ?_, fun region calls =>
    (templateAfter_invariant region calls).1⟩
  have hsome : GoMapOf.get t.Parameters name ≠ none :=
    fun h => (GoMapOf.get_eq_none_iff t.Parameters name).1 h hknown
  cases hget : GoMapOf.get t.Parameters name with
  | none => exact absurd hget hsome
  | some param =>
    rw [SetParameterValue_of_known t name v param hget hkeys]
    refine ⟨rfl, ?_, ?_, ?_, ?_, rfl, rfl, rfl, rfl⟩
    · intro q hq hk
      obtain ⟨p, _, rfl⟩ := List.mem_map.1 hq
      rw [rebind_key] at hk
      simp [rebind, hk]
    · exact List.length_map _ _
    · intro i p hp
      show (t.Params.map (rebind name v))[i]? = some (rebind name v p)
      rw [List.getElem?_map, hp]
      rfl
    · intro p hp
      simp [rebind, hp]

/-- C14 on the template of the test: after `SetParameterValue("Param1", "newval")` the list
is the one entry "Param1" with the value "newval". -/
theorem SetParameterValue_known_list_witness :
    "Param1" ∈ GoMapOf.keys testTemplate.Parameters ∧
    (testTemplate.SetParameterValue "Param1" "newval").1 = .ret none ∧
    (testTemplate.SetParameterValue "Param1" "newval").2.Params.length
      = testTemplate.Params.length ∧
    (testTemplate.SetParameterValue "Param1" "newval").2.Params
      = [{ ParameterKey := some "Param1", ParameterValue := some "newval" }] :=
  ⟨by decide,
    (SetParameterValue_known_list.1 testTemplate "Param1" "newval" (by decide) (by decide)).1,
    (SetParameterValue_known_list.1 testTemplate "Param1" "newval" (by decide)
      (by decide)).2.2.1,
    by decide⟩

/-- C15, as stated, fails. `SetParameterValue` assigns to the mapping the definition it has
just read from it, so under every key the mapping holds afterwards what it held before, for
every template, name and value. On the template of the test, whose parameter "Param1" is
defined with the default "default", `SetParameterValue("Param1", "newval")` returns nil and
puts "newval" in the list, and the mapping still holds the definition with the default
"default". -/
theorem SetParameterValue_mapping_unchanged :
    (∀ (t : TemplateComponent) (name v k : String),
      GoMapOf.get (t.SetParameterValue name v).2.Parameters k = GoMapOf.get t.Parameters k) ∧
    (testTemplate.SetParameterValue "Param1" "newval").1 = .ret none ∧
    (testTemplate.SetParameterValue "Param1" "newval").2.Params
      = [{ ParameterKey := some "Param1", ParameterValue := some "newval" }] ∧
    GoMapOf.get (testTemplate.SetParameterValue "Param1" "newval").2.Parameters "Param1"
      = some { Description := "desc", Default := some "default" } :=
  ⟨SetParameterValue_mapping, by decide, by decide, by decide⟩

/-- C16. The template invariant: in every template reached from `NewTemplate` by a sequence
of `AddParameter`, `AddResource`, `AddOutput` and `SetParameterValue` calls, every entry of
the ordered list has a key that is a key of the parameter mapping, and every key of the
mapping is the key of an entry of the list. -/
theorem templateAfter_list_mirrors_mapping (region : String) (calls : List TemplateCall) :
    (∀ p ∈ (templateAfter region calls).Params,
      ∃ k, p.ParameterKey = some k ∧
        ∃ d, GoMapOf.get (templateAfter region calls).Parameters k = some d) ∧
    (∀ k d, GoMapOf.get (templateAfter region calls).Parameters k = some d →
      ∃ p ∈ (templateAfter region calls).Params, p.ParameterKey = some k) := by
  obtain ⟨h1, h2⟩ := templateAfter_invariant region calls
  constructor
  · intro p hp
    cases hkey : p.ParameterKey with
    | none => exact absurd hkey (h1 p hp)
    | some k =>
      refine ⟨k, rfl, ?_⟩
      have hk : GoMapOf.get (templateAfter region calls).Parameters k ≠ none :=
        (h2 k).1 ((mem_paramKeys _ k).2 ⟨p, hp, hkey⟩)
      cases hget : GoMapOf.get (templateAfter region calls).Parameters k with
      | none => exact absurd hget hk
      | some d => exact ⟨d, rfl⟩
  · intro k d hd
    have hk : GoMapOf.get (templateAfter region calls).Parameters k ≠ none := by
      rw [hd]
      simp
    exact (mem_paramKeys _ k).1 ((h2 k).2 hk)

end TemplateClaims

/-! ## AddParameter -/

section AddParameterLemmas

/-- One more `AddParameter` call at the end of the sequence. -/
theorem templateOfParameters_snoc (region : String)
    (adds : List (String × CfnParameter × String)) (a : String × CfnParameter × String) :
    templateOfParameters region (adds ++ [a])
      = (templateOfParameters region adds).AddParameter a.1 a.2.1 a.2.2 := by
  unfold templateOfParameters
  rw [List.foldl_append]
  rfl

/-- After `AddParameter` calls the list holds one entry per call, in the order of the
calls, with the name and the default value of the call. -/
theorem templateOfParameters_params (region : String)
    (adds : List (String × CfnParameter × String)) :
    (templateOfParameters region adds).Params
      = adds.map (fun a => { ParameterKey := some a.1, ParameterValue := some a.2.2 }) := by
  induction adds using List.reverseRecOn with
  | nil => rfl
  | append_singleton adds a ih =>
    rw [templateOfParameters_snoc]
    show (templateOfParameters region adds).Params ++ [_] = _
    rw [ih, List.map_append]
    rfl

/-- After `AddParameter` calls the mapping holds, under a name, the definition of the last
call with that name. -/
theorem templateOfParameters_get (region : String)
    (adds : List (String × CfnParameter × String)) (k : String) :
    GoMapOf.get (templateOfParameters region adds).Parameters k
      = (adds.reverse.find? (fun a => a.1 = k)).map (fun a => a.2.1) := by
  induction adds using List.reverseRecOn with
  | nil => rfl
  | append_singleton adds a ih =>
    rw [templateOfParameters_snoc]
    show GoMapOf.get (GoMapOf.set (templateOfParameters region adds).Parameters a.1 a.2.1) k = _
    rw [GoMapOf.get_after_set, ih, List.reverse_append]
    by_cases hk : k = a.1
    · subst hk
      simp [List.find?_cons]
    · have hk1 : ¬ a.1 = k := fun h => hk h.symm
      simp [List.find?_cons, hk, hk1]

/-- After `AddParameter` calls the keys of the mapping are the names of the calls, each
once, so they are no more than the entries of the list, and as many when no name was added
twice. -/
theorem templateOfParameters_keys (region : String)
    (adds : List (String × CfnParameter × String)) :
    (∀ k, k ∈ GoMapOf.keys (templateOfParameters region adds).Parameters ↔
      k ∈ adds.map (fun a => a.1)) ∧
    (GoMapOf.keys (templateOfParameters region adds).Parameters).Nodup ∧
    (GoMapOf.keys (templateOfParameters region adds).Parameters).length ≤ adds.length ∧
    ((adds.map (fun a => a.1)).Nodup →
      (GoMapOf.keys (templateOfParameters region adds).Parameters).length = adds.length) := by
  induction adds using List.reverseRecOn with
  | nil =>
    refine ⟨fun k => ?_, ?_, ?_, fun _ => ?_⟩ <;>
      simp [templateOfParameters, NewTemplate, GoMapOf.keys]
  | append_singleton adds a ih =>
    obtain ⟨h1, h2, h3, h4⟩ := ih
    have hkeys : GoMapOf.keys (templateOfParameters region (adds ++ [a])).Parameters
        = a.1 :: (GoMapOf.keys (templateOfParameters region adds).Parameters).filter
            (fun b => b ≠ a.1) := by
      rw [templateOfParameters_snoc]
      exact GoMapOf.keys_set _ _ _
    have hle : ((GoMapOf.keys (templateOfParameters region adds).Parameters).filter
        (fun b => b ≠ a.1)).length
        ≤ (GoMapOf.keys (templateOfParameters region adds).Parameters).length :=
      List.length_filter_le _ _
    rw [hkeys]
    refine ⟨fun k => ?_, ?_, ?_, fun hnd => ?_⟩
    · by_cases hk : k = a.1
      · subst hk
        simp
      · simp [hk, List.mem_filter, h1 k]
    · refine List.nodup_cons.2 ⟨?_, h2.filter _⟩
      simp [List.mem_filter]
    · simp only [List.length_cons, List.length_append, List.length_singleton]
      omega
    · rw [List.map_append, List.nodup_append] at hnd
      obtain ⟨hnd1, _, hdisj⟩ := hnd
      have hnot : a.1 ∉ GoMapOf.keys (templateOfParameters region adds).Parameters := by
        intro hmem
        exact hdisj ((h1 a.1).1 hmem) (by simp)
      have hfilter : (GoMapOf.keys (templateOfParameters region adds).Parameters).filter
          (fun b => b ≠ a.1) = GoMapOf.keys (templateOfParameters region adds).Parameters := by
        apply List.filter_eq_self.2
        intro b hb
        have : b ≠ a.1 := fun h => hnot (h ▸ hb)
        simpa using this
      rw [hfilter]
      simp only [List.length_cons, List.length_append, List.length_singleton]
      rw [h4 hnd1]
      rfl

end AddParameterLemmas

/-! ## The claim on AddParameter -/

section AddParameterClaims

/-- C17, as stated, fails: after `AddParameter("Param1", d, "first")` and
`AddParameter("Param1", d, "second")` on a new template, the mapping has the one key
"Param1" and the list returned by `GetParameters` has two entries under "Param1", the first
of them with the older default value "first". -/
theorem AddParameter_twice_duplicates :
    GoMapOf.keys (templateOfParameters "us-east-1"
      [("Param1", { Description := "desc", Default := some "first" }, "first"),
       ("Param1", { Description := "desc", Default := some "second" }, "second")]).Parameters
      = ["Param1"] ∧
    (templateOfParameters "us-east-1"
      [("Param1", { Description := "desc", Default := some "first" }, "first"),
       ("Param1", { Description := "desc", Default := some "second" }, "second")]).GetParameters
      = [{ ParameterKey := some "Param1", ParameterValue := some "first" },
         { ParameterKey := some "Param1", ParameterValue := some "second" }] ∧
    (templateOfParameters "us-east-1"
      [("Param1", { Description := "desc", Default := some "first" }, "first"),
       ("Param1", { Description := "desc", Default := some "second" }, "second")]).GetParameters.length
      ≠ (GoMapOf.keys (templateOfParameters "us-east-1"
      [("Param1", { Description := "desc", Default := some "first" }, "first"),
       ("Param1", { Description := "desc", Default := some "second" }, "second")]).Parameters).length := by
  decide

/-- C17, amended. `AddParameter` overwrites the entry of the mapping and appends to the
list: after any sequence of `AddParameter` calls starting from `NewTemplate`, the list
returned by `GetParameters` holds one entry per call, in the order of the calls, each with
the name and the default value of its call (so the last entry under a name carries the
latest default value); the mapping holds, under a name, the definition of the last call
with that name; the keys of the mapping are the names of the calls, each once, and they are
no more than the entries of the list; when no name was added twice, the list holds exactly
one entry per key of the mapping. -/
theorem AddParameter_appends (region : String)
    (adds : List (String × CfnParameter × String)) :
    (templateOfParameters region adds).GetParameters
      = adds.map (fun a => { ParameterKey := some a.1, ParameterValue := some a.2.2 }) ∧
    (∀ k, GoMapOf.get (templateOfParameters region adds).Parameters k
      = (adds.reverse.find? (fun a => a.1 = k)).map (fun a => a.2.1)) ∧
    (∀ k, k ∈ GoMapOf.keys (templateOfParameters region adds).Parameters ↔
      k ∈ adds.map (fun a => a.1)) ∧
    (GoMapOf.keys (templateOfParameters region adds).Parameters).Nodup ∧
    (GoMapOf.keys (templateOfParameters region adds).Parameters).length
      ≤ (templateOfParameters region adds).GetParameters.length ∧
    ((adds.map (fun a => a.1)).Nodup →
      (templateOfParameters region adds).GetParameters.length
        = (GoMapOf.keys (templateOfParameters region adds).Parameters).length) := by
  obtain ⟨h1, h2, h3, h4⟩ := templateOfParameters_keys region adds
  have hp := templateOfParameters_params region adds
  have hlen : (templateOfParameters region adds).GetParameters.length = adds.length := by
    show (templateOfParameters region adds).Params.length = adds.length
    rw [hp, List.length_map]
  refine ⟨hp, templateOfParameters_get region adds, h1, h2, ?_, fun hnd => ?_⟩
  · rw [hlen]
    exact h3
  · rw [hlen, h4 hnd]

/-- The amended C17 on two calls with different names: two entries for two keys. -/
theorem AddParameter_appends_witness :
    ((["Param1", "Param2"] : List String)).Nodup ∧
    (templateOfParameters "us-east-1"
      [("Param1", { Description := "desc", Default := some "first" }, "first"),
       ("Param2", { Description := "desc", Default := some "second" }, "second")]).GetParameters.length
      = (GoMapOf.keys (templateOfParameters "us-east-1"
      [("Param1", { Description := "desc", Default := some "first" }, "first"),
       ("Param2", { Description := "desc", Default := some "second" }, "second")]).Parameters).length :=
  ⟨by decide,
    (AddParameter_appends "us-east-1"
      [("Param1", { Description := "desc", Default := some "first" }, "first"),
       ("Param2", { Description := "desc", Default := some "second" }, "second")]).2.2.2.2.2
      (by decide)⟩

end AddParameterClaims

/-! ## haws.go: the order of the steps -/

section DeployOrder

/-- Nothing done follows the empty plan. -/
theorem FollowsPlan.skip {σ τ : Type} (h : Haws σ τ) (w : σ) :
    FollowsPlan [] (HawsExec.skip h w) := by
  refine ⟨⟨[], rfl⟩, fun _ => ⟨rfl, fun s hs => ?_⟩, fun pre s post hsteps _ => ?_⟩
  · cases hs
  · have hlen := congrArg List.length hsteps
    simp [HawsExec.skip] at hlen
    omega

/-- An execution of one step, whose result is the result of the execution, follows the
plan of that one method. -/
theorem FollowsPlan.single {σ τ : Type} (x : HawsExec σ τ) (s : Step)
    (hsteps : x.steps = [s]) (hres : s.result = x.out) :
    FollowsPlan [s.method] x := by
  refine ⟨⟨[], by simp [hsteps]⟩, fun hout => ⟨by simp [hsteps], fun s1 hs1 => ?_⟩,
    fun pre s1 post hsplit _ => ?_⟩
  · rw [hsteps, List.mem_singleton] at hs1
    rw [hs1, hres, hout]
  · rw [hsteps] at hsplit
    cases pre with
    | nil =>
      simp only [List.nil_append, List.cons.injEq] at hsplit
      obtain ⟨hs, hpost⟩ := hsplit
      exact ⟨hpost.symm, by rw [← hs, hres]⟩
    | cons a pre =>
      have hlen := congrArg List.length hsplit
      simp at hlen

/-- Sequencing follows the plans in sequence. -/
theorem FollowsPlan.andThen {σ τ : Type} (p1 p2 : List Method) (x : HawsExec σ τ)
    (next : Haws σ τ → σ → HawsExec σ τ) (hx : FollowsPlan p1 x)
    (hnext : ∀ h w, FollowsPlan p2 (next h w)) :
    FollowsPlan (p1 ++ p2) (x.andThen next) := by
  obtain ⟨⟨restx, hA⟩, hB, hC⟩ := hx
  by_cases hout : x.out = .ret none
  · obtain ⟨hplan, hall⟩ := hB hout
    obtain ⟨⟨resty, hA2⟩, hB2, hC2⟩ := hnext x.haws x.world
    have hthen : x.andThen next =
        { out := (next x.haws x.world).out, haws := (next x.haws x.world).haws,
          world := (next x.haws x.world).world,
          calls := x.calls ++ (next x.haws x.world).calls,
          steps := x.steps ++ (next x.haws x.world).steps } := by
      unfold HawsExec.andThen
      rw [hout]
    rw [hthen]
    refine ⟨⟨resty, ?_⟩, fun hout2 => ⟨?_, fun s hs => ?_⟩, fun pre s post hsplit hres => ?_⟩
    · simp only [List.map_append, List.append_assoc]
      rw [hplan, ← hA2]
    · simp only [List.map_append]
      rw [hplan, (hB2 hout2).1]
    · rcases List.mem_append.1 hs with h | h
      · exact hall s h
      · exact (hB2 hout2).2 s h
    · have hsplit1 : x.steps ++ (next x.haws x.world).steps = pre ++ s :: post := hsplit
      rcases List.append_eq_append_iff.1 hsplit1 with ⟨a, hpre, hy⟩ | ⟨c, hxs, hpost⟩
      · exact hC2 a s post hy hres
      · cases c with
        | nil =>
          simp only [List.append_nil, List.nil_append] at hxs hpost
          exact hC2 [] s post hpost.symm hres
        | cons b c =>
          simp only [List.cons_append, List.cons.injEq] at hpost
          have hmem : s ∈ x.steps := by
            rw [hxs]
            exact List.mem_append_right _ (hpost.1 ▸ List.mem_cons_self _ _)
          exact absurd (hall s hmem) hres
  · have hthen : x.andThen next = x := by
      unfold HawsExec.andThen
      split
      · rename_i h
        exact absurd h hout
      · rfl
    rw [hthen]
    refine ⟨⟨restx ++ p2, ?_⟩, fun h => absurd h hout, hC⟩
    rw [hA, List.append_assoc]

end DeployOrder

/-! ## haws.go: the methods follow their plans -/

section DeployPlan

/-- The method `DeployStack` is one step, whose result it returns. -/
theorem DeployStack_follows {σ τ : Type} (sdk : AwsSDK σ) (csName : String) (h : Haws σ τ)
    (name : String) (w : σ) :
    FollowsPlan [.DeployStack name] (h.DeployStack sdk csName name w) := by
  unfold Haws.DeployStack
  cases h.stacks name with
  | none => exact FollowsPlan.single _ (.DeployStack name (.panic nilDeref)) rfl rfl
  | some s => exact FollowsPlan.single _ (.DeployStack name _) rfl rfl

/-- The method `GetStackOutput` is one step, whose result it returns. -/
theorem GetStackOutput_follows {σ τ : Type} (sdk : AwsSDK σ) (h : Haws σ τ)
    (name : String) (w : σ) :
    FollowsPlan [.GetStackOutput name] (h.GetStackOutput sdk name w) := by
  unfold Haws.GetStackOutput
  cases h.stacks name with
  | none => exact FollowsPlan.single _ (.GetStackOutput name (.panic nilDeref)) rfl rfl
  | some s => exact FollowsPlan.single _ (.GetStackOutput name _) rfl rfl

/-- The method `SetStackParameterValue` is one step, whose result it returns. -/
theorem SetStackParameterValue_follows {σ τ : Type} (h : Haws σ τ)
    (stack parameter value : String) (w : σ) :
    FollowsPlan [.SetStackParameterValue stack parameter]
      (h.SetStackParameterValue stack parameter value w) := by
  unfold Haws.SetStackParameterValue
  cases h.stacks stack with
  | none =>
    exact FollowsPlan.single _ (.SetStackParameterValue stack parameter value _) rfl rfl
  | some s =>
    exact FollowsPlan.single _ (.SetStackParameterValue stack parameter value _) rfl rfl

/-- The statements before the stage "cloudfront" are three steps in order. -/
theorem beforeCloudfront_follows {σ τ : Type} (sdk : AwsSDK σ) (h : Haws σ τ) (w : σ) :
    FollowsPlan
      [.GetStackOutput "certificate", .GetOutputByName "certificate" "certificateArn",
        .SetStackParameterValue "certificate" "certificateArn"]
      (h.beforeCloudfront sdk w) := by
  unfold Haws.beforeCloudfront
  refine FollowsPlan.andThen [.GetStackOutput "certificate"]
    [.GetOutputByName "certificate" "certificateArn",
      .SetStackParameterValue "certificate" "certificateArn"] _ _
    (GetStackOutput_follows sdk h "certificate" w) (fun h1 w1 => ?_)
  exact FollowsPlan.andThen [.GetOutputByName "certificate" "certificateArn"]
    [.SetStackParameterValue "certificate" "certificateArn"] _ _
    (FollowsPlan.single _
      (.GetOutputByName "certificate" "certificateArn"
        (h1.GetOutputByName "certificate" "certificateArn").1
        (.ret (h1.GetOutputByName "certificate" "certificateArn").2)) rfl rfl)
    (fun h2 w2 => SetStackParameterValue_follows h2 "certificate" "certificateArn" _ w2)

/-- The loop of `Deploy` follows the plan of its stages. -/
theorem deployStages_follows {σ τ : Type} (sdk : AwsSDK σ) (names : String → String)
    (stages : List String) (h : Haws σ τ) (w : σ) :
    FollowsPlan (stagesPlan stages) (Haws.deployStages sdk names stages h w) := by
  induction stages generalizing h w with
  | nil => exact FollowsPlan.skip h w
  | cons stack rest ih =>
    unfold Haws.deployStages stagesPlan stagePlan
    refine FollowsPlan.andThen _ _ _ _ ?_ (fun h2 w2 => ih h2 w2)
    refine FollowsPlan.andThen _ _ _ _ ?_
      (fun h1 w1 => DeployStack_follows sdk (names stack) h1 stack w1)
    by_cases hc : stack = "cloudfront"
    · rw [if_pos hc, if_pos hc]
      exact beforeCloudfront_follows sdk h w
    · rw [if_neg hc, if_neg hc]
      exact FollowsPlan.skip h w

/-- The plan of the four stages of `Deploy`. -/
theorem stagesPlan_deploy :
    stagesPlan ["certificate", "bucket", "cloudfront", "user"] = deployPlan := by
  decide

/-- The method `Deploy` follows its plan. -/
theorem Deploy_follows {σ τ : Type} (sdk : AwsSDK σ) (names : String → String)
    (h : Haws σ τ) (w : σ) : FollowsPlan deployPlan (h.Deploy sdk names w) := by
  rw [← stagesPlan_deploy]
  exact deployStages_follows sdk names _ h w

end DeployPlan

/-! ## haws.go: what the steps leave unchanged -/

section DeployFrame

/-- Sequencing after a step that returned nil. -/
theorem HawsExec.andThen_of_ok {σ τ : Type} (x : HawsExec σ τ)
    (next : Haws σ τ → σ → HawsExec σ τ) (hout : x.out = .ret none) :
    x.andThen next =
      { out := (next x.haws x.world).out, haws := (next x.haws x.world).haws,
        world := (next x.haws x.world).world,
        calls := x.calls ++ (next x.haws x.world).calls,
        steps := x.steps ++ (next x.haws x.world).steps } := by
  unfold HawsExec.andThen
  rw [hout]

/-- Sequencing after a step that did not return nil. -/
theorem HawsExec.andThen_of_not_ok {σ τ : Type} (x : HawsExec σ τ)
    (next : Haws σ τ → σ → HawsExec σ τ) (hout : x.out ≠ .ret none) :
    x.andThen next = x := by
  unfold HawsExec.andThen
  split
  · rename_i h
    exact absurd h hout
  · rfl

/-- Sequencing after nothing. -/
theorem HawsExec.skip_andThen {σ τ : Type} (h : Haws σ τ) (w : σ)
    (next : Haws σ τ → σ → HawsExec σ τ) :
    (HawsExec.skip h w).andThen next = next h w := by
  rw [HawsExec.andThen_of_ok _ _ rfl]
  simp [HawsExec.skip]

/-- What every step keeps, the sequence keeps. -/
theorem HawsExec.andThen_keeps {σ τ α : Type} (p : Haws σ τ → α) (x : HawsExec σ τ)
    (next : Haws σ τ → σ → HawsExec σ τ) (h : Haws σ τ) (hx : p x.haws = p h)
    (hnext : ∀ h1 w1, p (next h1 w1).haws = p h1) : p (x.andThen next).haws = p h := by
  by_cases hout : x.out = .ret none
  · rw [HawsExec.andThen_of_ok x next hout]
    show p (next x.haws x.world).haws = p h
    rw [hnext, hx]
  · rw [HawsExec.andThen_of_not_ok x next hout]
    exact hx

/-- Storing, under its name, a stack with the template it had keeps what is fixed. -/
theorem Haws.fixed_store {σ τ : Type} (h : Haws σ τ) (name : String) (s0 s : StackObject σ τ)
    (hs : h.stacks name = some s0) (hm : s.methods = s0.methods) (hst : s.state = s0.state) :
    (h.store name s).fixed = h.fixed := by
  unfold Haws.stacks at hs
  unfold Haws.store Haws.fixed
  split_ifs at hs ⊢ <;> simp only [Option.some.injEq] at hs <;> subst hs <;> simp [hm, hst]

/-- Storing the stack "certificate" with the methods it had keeps what is fixed. -/
theorem Haws.fixed_store_certificate {σ τ : Type} (h : Haws σ τ) (s : StackObject σ τ)
    (hm : s.methods = h.certificate.methods) :
    (h.store "certificate" s).fixed = h.fixed := by
  simp [Haws.store, Haws.fixed, hm]

/-- The method `DeployStack` keeps what is fixed. -/
theorem DeployStack_fixed {σ τ : Type} (sdk : AwsSDK σ) (csName : String) (h : Haws σ τ)
    (name : String) (w : σ) : (h.DeployStack sdk csName name w).haws.fixed = h.fixed := by
  unfold Haws.DeployStack
  cases hs : h.stacks name with
  | none => rfl
  | some s => exact Haws.fixed_store h name s _ hs rfl rfl

/-- The method `GetStackOutput` keeps what is fixed. -/
theorem GetStackOutput_fixed {σ τ : Type} (sdk : AwsSDK σ) (h : Haws σ τ) (name : String)
    (w : σ) : (h.GetStackOutput sdk name w).haws.fixed = h.fixed := by
  unfold Haws.GetStackOutput
  cases hs : h.stacks name with
  | none => rfl
  | some s => exact Haws.fixed_store h name s _ hs rfl rfl

/-- The method `SetStackParameterValue` on the stack "certificate" keeps what is fixed. -/
theorem SetStackParameterValue_certificate_fixed {σ τ : Type} (h : Haws σ τ)
    (parameter value : String) (w : σ) :
    (h.SetStackParameterValue "certificate" parameter value w).haws.fixed = h.fixed := by
  have hs : h.stacks "certificate" = some h.certificate := rfl
  unfold Haws.SetStackParameterValue
  rw [hs]
  exact Haws.fixed_store_certificate h _ rfl

/-- The statements before the stage "cloudfront" keep what is fixed. -/
theorem beforeCloudfront_fixed {σ τ : Type} (sdk : AwsSDK σ) (h : Haws σ τ) (w : σ) :
    (h.beforeCloudfront sdk w).haws.fixed = h.fixed := by
  unfold Haws.beforeCloudfront
  refine HawsExec.andThen_keeps Haws.fixed _ _ h (GetStackOutput_fixed sdk h "certificate" w)
    (fun h1 w1 => ?_)
  exact HawsExec.andThen_keeps Haws.fixed _ _ h1 rfl
    (fun h2 w2 => SetStackParameterValue_certificate_fixed h2 "certificateArn" _ w2)

/-- The loop of `Deploy` keeps what is fixed. -/
theorem deployStages_fixed {σ τ : Type} (sdk : AwsSDK σ) (names : String → String)
    (stages : List String) (h : Haws σ τ) (w : σ) :
    (Haws.deployStages sdk names stages h w).haws.fixed = h.fixed := by
  induction stages generalizing h w with
  | nil => rfl
  | cons stack rest ih =>
    unfold Haws.deployStages
    refine HawsExec.andThen_keeps Haws.fixed _ _ h ?_ (fun h2 w2 => ih h2 w2)
    refine HawsExec.andThen_keeps Haws.fixed _ _ h ?_
      (fun h1 w1 => DeployStack_fixed sdk (names stack) h1 stack w1)
    by_cases hc : stack = "cloudfront"
    · rw [if_pos hc]
      exact beforeCloudfront_fixed sdk h w
    · rw [if_neg hc]
      rfl

end DeployFrame

/-! ## The claims on Deploy: order and rebinding -/

section DeployClaims

/-- The method `Deploy` starts with the stage "certificate". -/
theorem Deploy_first_step {σ τ : Type} (sdk : AwsSDK σ) (names : String → String)
    (h : Haws σ τ) (w : σ) :
    h.Deploy sdk names w =
      (h.DeployStack sdk (names "certificate") "certificate" w).andThen
        (fun h2 w2 => Haws.deployStages sdk names ["bucket", "cloudfront", "user"] h2 w2) := by
  unfold Haws.Deploy
  rw [Haws.deployStages, if_neg (by decide), HawsExec.skip_andThen]

/-- The steps of the stage "certificate": the one call of `DeployStack`, which returns what
`DryRun` or `Run` returns on the stack "certificate". -/
theorem DeployStack_certificate {σ τ : Type} (sdk : AwsSDK σ) (csName : String)
    (h : Haws σ τ) (w : σ) :
    (h.DeployStack sdk csName "certificate" w).steps
      = [.DeployStack "certificate" (h.DeployStack sdk csName "certificate" w).out] ∧
    (h.DeployStack sdk csName "certificate" w).out
      = (if h.dryRun then DryRun h.certificate.toStack w
          else Run sdk csName h.certificate.toStack w).out :=
  ⟨rfl, rfl⟩

/-- C18. `Deploy` runs the stages in the order certificate, bucket, cloudfront, user and
aborts on the first failure. The calls it makes on the methods of `Haws` are the first
calls of the plan (deploy certificate, deploy bucket, fetch the outputs of certificate, read
its output, set the parameter, deploy cloudfront, deploy user), in that order; a call that
does not return nil (an error of `Run`, `DryRun`, `GetOutputs`, of the read or of
`SetParameterValue`) is the last call made, and `Deploy` returns what it returned; when
`Deploy` returns nil every call of the plan was made and returned nil. The first call is
the deployment of the stage "certificate", by `DryRun` or `Run` as the flag says, and when
it does not return nil `Deploy` is that call alone: no other stage is invoked. -/
theorem Deploy_in_order_aborts {σ τ : Type} (sdk : AwsSDK σ) (names : String → String)
    (h : Haws σ τ) (w : σ) :
    (∃ rest, deployPlan = (h.Deploy sdk names w).steps.map Step.method ++ rest) ∧
    (∀ pre s post, (h.Deploy sdk names w).steps = pre ++ s :: post →
      s.result ≠ .ret none → post = [] ∧ (h.Deploy sdk names w).out = s.result) ∧
    ((h.Deploy sdk names w).out = .ret none →
      (h.Deploy sdk names w).steps.map Step.method = deployPlan ∧
      ∀ s ∈ (h.Deploy sdk names w).steps, s.result = .ret none) ∧
    (∃ tail, (h.Deploy sdk names w).steps =
      .DeployStack "certificate"
        (if h.dryRun then DryRun h.certificate.toStack w
          else Run sdk (names "certificate") h.certificate.toStack w).out :: tail) ∧
    ((if h.dryRun then DryRun h.certificate.toStack w
        else Run sdk (names "certificate") h.certificate.toStack w).out ≠ .ret none →
      h.Deploy sdk names w = h.DeployStack sdk (names "certificate") "certificate" w ∧
      (h.Deploy sdk names w).steps =
        [.DeployStack "certificate"
          (if h.dryRun then DryRun h.certificate.toStack w
            else Run sdk (names "certificate") h.certificate.toStack w).out]) := by
  obtain ⟨hA, hB, hC⟩ := Deploy_follows sdk names h w
  obtain ⟨hsteps, hout⟩ := DeployStack_certificate sdk (names "certificate") h w
  refine ⟨hA, hC, hB, ?_, fun hfail => ?_⟩
  · rw [Deploy_first_step, ← hout]
    by_cases hok : (h.DeployStack sdk (names "certificate") "certificate" w).out = .ret none
    · rw [HawsExec.andThen_of_ok _ _ hok]
      exact ⟨_, by rw [hsteps]; rfl⟩
    · rw [HawsExec.andThen_of_not_ok _ _ hok]
      exact ⟨[], hsteps⟩
  · rw [← hout] at hfail ⊢
    rw [Deploy_first_step, HawsExec.andThen_of_not_ok _ _ hfail]
    exact ⟨rfl, hsteps⟩

/-- C18 on the registry of mock templates, when no SDK configuration can be loaded: `Run`
fails on the stage "certificate", and `Deploy` returns its error after that one call. -/
theorem Deploy_in_order_aborts_witness :
    (Run noSDK (exampleNames "certificate") (mockHaws false).certificate.toStack ()).out
      = .ret (some (sdkConfigError (Errorf "no configuration"))) ∧
    ((mockHaws false).Deploy noSDK exampleNames ()).out
      = .ret (some (sdkConfigError (Errorf "no configuration"))) ∧
    ((mockHaws false).Deploy noSDK exampleNames ()).steps =
      [.DeployStack "certificate"
        (if (mockHaws false).dryRun then DryRun (mockHaws false).certificate.toStack ()
          else Run noSDK (exampleNames "certificate")
            (mockHaws false).certificate.toStack ()).out] :=
  ⟨by decide, by decide,
    ((Deploy_in_order_aborts noSDK exampleNames (mockHaws false) ()).2.2.2.2 (by decide)).2⟩

/-- C19, as stated, fails. The rebinding of `Deploy` is made on the stack "certificate":
every call of `SetStackParameterValue` that `Deploy` makes names the stack "certificate"
and the parameter "certificateArn", every read names the output "certificateArn" of the
stack "certificate", and the template of the stack "cloudfront" is, after `Deploy`, in the
state it was in before, whatever was fetched: `SetParameterValue` is never called on it,
and the parameter list it submits is the one it had. -/
theorem Deploy_rebinds_certificate_stack {σ τ : Type} (sdk : AwsSDK σ)
    (names : String → String) (h : Haws σ τ) (w : σ) :
    (h.Deploy sdk names w).haws.cloudfront.state = h.cloudfront.state ∧
    (h.Deploy sdk names w).haws.cloudfront.methods = h.cloudfront.methods ∧
    (∀ stack parameter value err,
      Step.SetStackParameterValue stack parameter value err ∈ (h.Deploy sdk names w).steps →
      stack = "certificate" ∧ parameter = "certificateArn") ∧
    (∀ stack output value err,
      Step.GetOutputByName stack output value err ∈ (h.Deploy sdk names w).steps →
      stack = "certificate" ∧ output = "certificateArn") := by
  have hfixed : (h.Deploy sdk names w).haws.fixed = h.fixed := deployStages_fixed sdk names _ h w
  obtain ⟨⟨rest, hplan⟩, _, _⟩ := Deploy_follows sdk names h w
  have hmem : ∀ s ∈ (h.Deploy sdk names w).steps, s.method ∈ deployPlan := by
    intro s hs
    rw [hplan]
    exact List.mem_append_left _ (List.mem_map_of_mem _ hs)
  simp only [Haws.fixed, Prod.mk.injEq] at hfixed
  refine ⟨hfixed.2.2.2.1.2, hfixed.2.2.2.1.1, ?_, ?_⟩
  · intro stack parameter value err hs
    have := hmem _ hs
    simpa [deployPlan, Step.method] using this
  · intro stack output value err hs
    have := hmem _ hs
    simpa [deployPlan, Step.method] using this

end DeployClaims

section DeployWitnesses

/-- C19 on two registries of components, deployed on a remote service that reports the
certificate "arn:real:cert/1". When the template of the stack "certificate" declares a
parameter "certificateArn", `Deploy` returns nil: the fetched value is set on the stack
"certificate", and the stack "cloudfront" submits, and still holds afterwards, the
placeholder "acme-certificate-Arn". When it declares none, `Deploy` returns the error of
`SetParameterValue` on the stack "certificate" and the stack "cloudfront" is not deployed. -/
theorem Deploy_rebinds_certificate_stack_witness :
    ((acmeHaws false certificateWithParameter).Deploy (sdkOf scripted) exampleNames
      deployScript).haws.cloudfront.state
      = (acmeHaws false certificateWithParameter).cloudfront.state ∧
    ((acmeHaws false certificateWithParameter).Deploy (sdkOf scripted) exampleNames
      deployScript).out = .ret none ∧
    Step.SetStackParameterValue "certificate" "certificateArn" "arn:real:cert/1" (.ret none)
      ∈ ((acmeHaws false certificateWithParameter).Deploy (sdkOf scripted) exampleNames
          deployScript).steps ∧
    (createChangeSetCalls ((acmeHaws false certificateWithParameter).Deploy (sdkOf scripted)
      exampleNames deployScript).calls).map (fun c => (c.1.StackName, c.1.Parameters))
      = [("acme-certificate",
            [{ ParameterKey := some "certificateArn", ParameterValue := some "unset" }]),
         ("acme-bucket", []),
         ("acme-cloudfront",
            [{ ParameterKey := some "certificateArn",
               ParameterValue := some "acme-certificate-Arn" }]),
         ("acme-user", [])] ∧
    ((acmeHaws false certificateWithParameter).Deploy (sdkOf scripted) exampleNames
      deployScript).haws.certificate.state.template.GetParameters
      = [{ ParameterKey := some "certificateArn", ParameterValue := some "arn:real:cert/1" }] ∧
    ((acmeHaws false certificateWithParameter).Deploy (sdkOf scripted) exampleNames
      deployScript).haws.cloudfront.state.template.GetParameters
      = [{ ParameterKey := some "certificateArn",
           ParameterValue := some "acme-certificate-Arn" }] ∧
    ((acmeHaws false (NewTemplate "us-east-1")).Deploy (sdkOf scripted) exampleNames
      deployScript).out = .ret (some (Errorf "parameter certificateArn not found")) ∧
    (createChangeSetCalls ((acmeHaws false (NewTemplate "us-east-1")).Deploy (sdkOf scripted)
      exampleNames deployScript).calls).map (fun c => c.1.StackName)
      = ["acme-certificate", "acme-bucket"] :=
  ⟨(Deploy_rebinds_certificate_stack (sdkOf scripted) exampleNames
      (acmeHaws false certificateWithParameter) deployScript).1,
    by decide, by decide, by decide, by decide, by decide, by decide, by decide⟩

end DeployWitnesses

/-! ## haws.go: sequencing -/

section DeploySequence

/-- The calls of a sequence: those of the step, then those of the rest when it runs. -/
theorem HawsExec.andThen_calls {σ τ : Type} (x : HawsExec σ τ)
    (next : Haws σ τ → σ → HawsExec σ τ) :
    (x.andThen next).calls
      = x.calls ++ (if x.out = .ret none then (next x.haws x.world).calls else []) := by
  by_cases hout : x.out = .ret none
  · rw [HawsExec.andThen_of_ok x next hout, if_pos hout]
  · rw [HawsExec.andThen_of_not_ok x next hout, if_neg hout, List.append_nil]

/-- A sequence that returned nil: the step and the rest both returned nil, and the registry
and the world are those the rest left. -/
theorem HawsExec.andThen_out_ok {σ τ : Type} (x : HawsExec σ τ)
    (next : Haws σ τ → σ → HawsExec σ τ) (hout : (x.andThen next).out = .ret none) :
    x.out = .ret none ∧ (next x.haws x.world).out = .ret none ∧
      (x.andThen next).haws = (next x.haws x.world).haws ∧
      (x.andThen next).world = (next x.haws x.world).world := by
  by_cases hx : x.out = .ret none
  · rw [HawsExec.andThen_of_ok x next hx] at hout ⊢
    exact ⟨hx, hout, rfl, rfl⟩
  · rw [HawsExec.andThen_of_not_ok x next hx] at hout
    exact absurd hout hx

/-- Sequencing is associative. -/
theorem HawsExec.andThen_assoc {σ τ : Type} (x : HawsExec σ τ)
    (f g : Haws σ τ → σ → HawsExec σ τ) :
    (x.andThen f).andThen g = x.andThen (fun h w => (f h w).andThen g) := by
  cases hx : x.out with
  | panic p => simp [HawsExec.andThen, hx]
  | ret e =>
    cases e with
    | some err => simp [HawsExec.andThen, hx]
    | none =>
      cases hf : (f x.haws x.world).out with
      | panic p => simp [HawsExec.andThen, hx, hf]
      | ret e1 =>
        cases e1 with
        | some err => simp [HawsExec.andThen, hx, hf]
        | none => simp [HawsExec.andThen, hx, hf, List.append_assoc]

/-- A stage other than "cloudfront": the deployment of its stack, then the rest. -/
theorem deployStages_cons {σ τ : Type} (sdk : AwsSDK σ) (names : String → String)
    (stack : String) (rest : List String) (h : Haws σ τ) (w : σ) (hne : stack ≠ "cloudfront") :
    Haws.deployStages sdk names (stack :: rest) h w =
      (h.DeployStack sdk (names stack) stack w).andThen
        (fun h2 w2 => Haws.deployStages sdk names rest h2 w2) := by
  rw [Haws.deployStages, if_neg hne, HawsExec.skip_andThen]

/-- The stage "cloudfront": the fetch of the outputs of "certificate", then the read and
the rebinding, then the deployment of the stack, then the rest. -/
theorem deployStages_cloudfront {σ τ : Type} (sdk : AwsSDK σ) (names : String → String)
    (rest : List String) (h : Haws σ τ) (w : σ) :
    Haws.deployStages sdk names ("cloudfront" :: rest) h w =
      (h.GetStackOutput sdk "certificate" w).andThen (fun h1 w1 =>
        (Haws.rebindCertificate h1 w1).andThen (fun h3 w3 =>
          (h3.DeployStack sdk (names "cloudfront") "cloudfront" w3).andThen
            (fun h4 w4 => Haws.deployStages sdk names rest h4 w4))) := by
  rw [Haws.deployStages, if_pos rfl, Haws.beforeCloudfront, HawsExec.andThen_assoc,
    HawsExec.andThen_assoc]

/-- The loop on two lists of stages in a row. -/
theorem deployStages_append {σ τ : Type} (sdk : AwsSDK σ) (names : String → String)
    (a b : List String) (h : Haws σ τ) (w : σ) :
    Haws.deployStages sdk names (a ++ b) h w =
      (Haws.deployStages sdk names a h w).andThen
        (fun h1 w1 => Haws.deployStages sdk names b h1 w1) := by
  induction a generalizing h w with
  | nil =>
    show Haws.deployStages sdk names b h w = (HawsExec.skip h w).andThen _
    rw [HawsExec.skip_andThen]
  | cons stack rest ih =>
    rw [List.cons_append, Haws.deployStages, Haws.deployStages, HawsExec.andThen_assoc _ _
      (fun h1 w1 => Haws.deployStages sdk names b h1 w1)]
    congr 1
    funext h2 w2
    exact ih h2 w2

end DeploySequence

/-! ## haws.go: the steps in dry-run mode -/

section DryDeploy

/-- The method `DeployStack` changes, in the registry, the stack it names only. -/
theorem DeployStack_keeps {σ τ α : Type} (p : Haws σ τ → α) (sdk : AwsSDK σ) (csName : String)
    (h : Haws σ τ) (name : String) (w : σ) (hp : ∀ s, p (h.store name s) = p h) :
    p (h.DeployStack sdk csName name w).haws = p h := by
  unfold Haws.DeployStack
  cases h.stacks name with
  | none => rfl
  | some s => exact hp _

/-- The method `GetStackOutput` changes, in the registry, the stack it names only. -/
theorem GetStackOutput_keeps {σ τ α : Type} (p : Haws σ τ → α) (sdk : AwsSDK σ)
    (h : Haws σ τ) (name : String) (w : σ) (hp : ∀ s, p (h.store name s) = p h) :
    p (h.GetStackOutput sdk name w).haws = p h := by
  unfold Haws.GetStackOutput
  cases h.stacks name with
  | none => rfl
  | some s => exact hp _

/-- The method `SetStackParameterValue` changes, in the registry, the stack it names
only. -/
theorem SetStackParameterValue_keeps {σ τ α : Type} (p : Haws σ τ → α) (h : Haws σ τ)
    (stack parameter value : String) (w : σ) (hp : ∀ s, p (h.store stack s) = p h) :
    p (h.SetStackParameterValue stack parameter value w).haws = p h := by
  unfold Haws.SetStackParameterValue
  cases h.stacks stack with
  | none => rfl
  | some s => exact hp _

/-- The read and the rebinding change, in the registry, the stack "certificate" only. -/
theorem rebindCertificate_keeps {σ τ α : Type} (p : Haws σ τ → α) (h : Haws σ τ) (w : σ)
    (hp : ∀ (h1 : Haws σ τ) s, p (h1.store "certificate" s) = p h1) :
    p (Haws.rebindCertificate h w).haws = p h := by
  unfold Haws.rebindCertificate
  exact HawsExec.andThen_keeps p _ _ h rfl
    (fun h2 w2 => SetStackParameterValue_keeps p h2 "certificate" "certificateArn" _ w2 (hp h2))

/-- The loop of `Deploy` changes, in the registry, the stacks of its stages only, and the
stack "certificate" when "cloudfront" is one of the stages. -/
theorem deployStages_keeps {σ τ α : Type} (p : Haws σ τ → α) (sdk : AwsSDK σ)
    (names : String → String) (stages : List String) (h : Haws σ τ) (w : σ)
    (hp : ∀ stack ∈ stages, ∀ (h1 : Haws σ τ) s, p (h1.store stack s) = p h1)
    (hcert : "cloudfront" ∈ stages →
      ∀ (h1 : Haws σ τ) s, p (h1.store "certificate" s) = p h1) :
    p (Haws.deployStages sdk names stages h w).haws = p h := by
  induction stages generalizing h w with
  | nil => rfl
  | cons stack rest ih =>
    unfold Haws.deployStages
    refine HawsExec.andThen_keeps p _ _ h ?_ (fun h2 w2 => ih h2 w2
      (fun s hs => hp s (List.mem_cons_of_mem _ hs))
      (fun hc => hcert (List.mem_cons_of_mem _ hc)))
    refine HawsExec.andThen_keeps p _ _ h ?_
      (fun h1 w1 => DeployStack_keeps p sdk (names stack) h1 stack w1
        (hp stack (List.mem_cons_self _ _) h1))
    by_cases hc : stack = "cloudfront"
    · rw [if_pos hc]
      have hcert1 := hcert (hc ▸ List.mem_cons_self _ _)
      unfold Haws.beforeCloudfront
      exact HawsExec.andThen_keeps p _ _ h
        (GetStackOutput_keeps p sdk h "certificate" w (hcert1 h))
        (fun h1 w1 => rebindCertificate_keeps p h1 w1 hcert1)
    · rw [if_neg hc]
      rfl

/-- The method `DeployStack` keeps the state of the template of the stack "certificate". -/
theorem DeployStack_certificate_state {σ τ : Type} (sdk : AwsSDK σ) (csName : String)
    (h : Haws σ τ) (name : String) (w : σ) :
    (h.DeployStack sdk csName name w).haws.certificate.state = h.certificate.state := by
  unfold Haws.DeployStack
  cases hs : h.stacks name with
  | none => rfl
  | some s =>
    unfold Haws.stacks at hs
    simp only [Haws.store]
    split_ifs at hs ⊢ <;> simp only [Option.some.injEq] at hs <;> subst hs <;> rfl

/-- The method `DeployStack` in dry-run mode: no call, and the world as it was. -/
theorem DeployStack_dry {σ τ : Type} (sdk : AwsSDK σ) (csName : String) (h : Haws σ τ)
    (name : String) (w : σ) (hdry : h.dryRun = true) :
    (h.DeployStack sdk csName name w).calls = [] ∧
      (h.DeployStack sdk csName name w).world = w := by
  unfold Haws.DeployStack
  cases h.stacks name with
  | none => exact ⟨rfl, rfl⟩
  | some s =>
    simp only [hdry, if_true]
    exact ⟨(DryRun_silent s.toStack w).1, (DryRun_silent s.toStack w).2.1⟩

/-- The flag is one of the things no step changes. -/
theorem dryRun_of_fixed {σ τ : Type} (h1 h2 : Haws σ τ) (hf : h2.fixed = h1.fixed) :
    h2.dryRun = h1.dryRun := by
  simp only [Haws.fixed, Prod.mk.injEq] at hf
  exact hf.1

/-- The loop of `Deploy` in dry-run mode, on stages other than "cloudfront": no call, the
world as it was, and the template of the stack "certificate" in the state it was in. -/
theorem deployStages_dry {σ τ : Type} (sdk : AwsSDK σ) (names : String → String)
    (stages : List String) (h : Haws σ τ) (w : σ) (hdry : h.dryRun = true)
    (hne : "cloudfront" ∉ stages) :
    (Haws.deployStages sdk names stages h w).calls = [] ∧
      (Haws.deployStages sdk names stages h w).world = w ∧
      (Haws.deployStages sdk names stages h w).haws.certificate.state
        = h.certificate.state := by
  induction stages generalizing h w with
  | nil => exact ⟨rfl, rfl, rfl⟩
  | cons stack rest ih =>
    have hstack : stack ≠ "cloudfront" := fun hc => hne (hc ▸ List.mem_cons_self _ _)
    have hrest : "cloudfront" ∉ rest := fun hc => hne (List.mem_cons_of_mem _ hc)
    obtain ⟨hcalls, hworld⟩ := DeployStack_dry sdk (names stack) h stack w hdry
    have hstate := DeployStack_certificate_state sdk (names stack) h stack w
    have hdry1 : (h.DeployStack sdk (names stack) stack w).haws.dryRun = true := by
      rw [dryRun_of_fixed _ _ (DeployStack_fixed sdk (names stack) h stack w), hdry]
    obtain ⟨ih1, ih2, ih3⟩ := ih (h.DeployStack sdk (names stack) stack w).haws
      (h.DeployStack sdk (names stack) stack w).world hdry1 hrest
    rw [deployStages_cons sdk names stack rest h w hstack]
    by_cases hout : (h.DeployStack sdk (names stack) stack w).out = .ret none
    · rw [HawsExec.andThen_of_ok _ _ hout]
      refine ⟨?_, ?_, ?_⟩
      · show (h.DeployStack sdk (names stack) stack w).calls ++ _ = []
        rw [hcalls, ih1]
        rfl
      · show (Haws.deployStages sdk names rest _ _).world = w
        rw [ih2, hworld]
      · show (Haws.deployStages sdk names rest _ _).haws.certificate.state = _
        rw [ih3, hstate]
    · rw [HawsExec.andThen_of_not_ok _ _ hout]
      exact ⟨hcalls, hworld, hstate⟩

/-- The method `GetOutputs` makes no call, or the one `DescribeStacks` call for the name of
its stack. -/
theorem GetOutputs_calls {σ : Type} (sdk : AwsSDK σ) (st : Stack σ) (w : σ) :
    (GetOutputs sdk st w).calls = [] ∨
      ∃ resp, (GetOutputs sdk st w).calls
        = [Call.DescribeStacks ⟨st.template.GetStackName⟩ resp] := by
  unfold GetOutputs
  generalize (match st.cloudFormationClient with
    | some api => Except.ok api
    | none => sdk.NewFromDefaultConfig (some st.template.GetRegion)) = client
  cases client with
  | error err => exact Or.inl rfl
  | ok api =>
    refine Or.inr ⟨(api.DescribeStacks ⟨st.template.GetStackName⟩ w).1, ?_⟩
    simp only []
    repeat (first | rfl | split)

end DryDeploy

/-! ## haws.go: Deploy in dry-run mode -/

section DryDeployRun

/-- Storing a stack keeps the flag. -/
theorem Haws.store_dryRun {σ τ : Type} (h : Haws σ τ) (name : String) (s : StackObject σ τ) :
    (h.store name s).dryRun = h.dryRun := by
  unfold Haws.store
  split_ifs <;> rfl

/-- Storing under another name keeps the stack "certificate". -/
theorem Haws.store_certificate_ne {σ τ : Type} (h : Haws σ τ) (name : String)
    (s : StackObject σ τ) (hne : name ≠ "certificate") :
    (h.store name s).certificate = h.certificate := by
  unfold Haws.store
  rw [if_neg hne]
  split_ifs <;> rfl

/-- Storing under another name keeps the stack "bucket". -/
theorem Haws.store_bucket_ne {σ τ : Type} (h : Haws σ τ) (name : String)
    (s : StackObject σ τ) (hne : name ≠ "bucket") :
    (h.store name s).bucket = h.bucket := by
  unfold Haws.store
  split_ifs <;> rfl

/-- Storing under another name keeps the stack "cloudfront". -/
theorem Haws.store_cloudfront_ne {σ τ : Type} (h : Haws σ τ) (name : String)
    (s : StackObject σ τ) (hne : name ≠ "cloudfront") :
    (h.store name s).cloudfront = h.cloudfront := by
  unfold Haws.store
  split_ifs <;> rfl

/-- Storing under another name keeps the stack "user". -/
theorem Haws.store_user_ne {σ τ : Type} (h : Haws σ τ) (name : String)
    (s : StackObject σ τ) (hne : name ≠ "user") :
    (h.store name s).user = h.user := by
  unfold Haws.store
  split_ifs <;> rfl

/-- The statements before the stage "cloudfront" change the stack "certificate" only. -/
theorem beforeCloudfront_keeps {σ τ α : Type} (p : Haws σ τ → α) (sdk : AwsSDK σ)
    (h : Haws σ τ) (w : σ)
    (hp : ∀ (h1 : Haws σ τ) s, p (h1.store "certificate" s) = p h1) :
    p (h.beforeCloudfront sdk w).haws = p h := by
  unfold Haws.beforeCloudfront
  exact HawsExec.andThen_keeps p _ _ h
    (GetStackOutput_keeps p sdk h "certificate" w (hp h))
    (fun h1 w1 => rebindCertificate_keeps p h1 w1 hp)

/-- A `DryRun` that returned nil kept the stack but for the captured outputs, which are the
copy of the dry-run outputs over the previous ones. -/
theorem DryRun_stack_of_out {σ : Type} (st : Stack σ) (w : σ)
    (hout : (DryRun st w).out = .ret none) :
    (DryRun st w).stack
      = { st with Outputs := copyDryRunOutputs st.template.GetDryRunOutputs st.Outputs } := by
  unfold DryRun templateJson at hout ⊢
  cases hjson : st.template.BuildJSON with
  | error err => simp [hjson] at hout
  | ok body => simp

/-- The method `DeployStack` in dry-run mode is `DryRun` on the stack it names. -/
theorem DeployStack_dry_at {σ τ : Type} (sdk : AwsSDK σ) (csName : String) (h : Haws σ τ)
    (name : String) (s : StackObject σ τ) (w : σ) (hdry : h.dryRun = true)
    (hs : h.stacks name = some s) :
    (h.DeployStack sdk csName name w).out = (DryRun s.toStack w).out ∧
      (h.DeployStack sdk csName name w).haws
        = h.store name (s.ofStack (DryRun s.toStack w).stack) := by
  unfold Haws.DeployStack
  rw [hs]
  simp [hdry]

/-- The read and the rebinding make no call. -/
theorem rebindCertificate_calls {σ τ : Type} (h : Haws σ τ) (w : σ) :
    (Haws.rebindCertificate h w).calls = [] := by
  unfold Haws.rebindCertificate
  rw [HawsExec.andThen_calls]
  have hset : ∀ v, (h.SetStackParameterValue "certificate" "certificateArn" v w).calls = [] := by
    intro v
    unfold Haws.SetStackParameterValue
    cases h.stacks "certificate" <;> rfl
  split_ifs
  · exact hset (h.GetOutputByName "certificate" "certificateArn").1
  · rfl

/-- The read and the rebinding keep the captured outputs and the client handle of the stack
"certificate". -/
theorem rebindCertificate_certificate {σ τ : Type} (h : Haws σ τ) (w : σ) :
    (Haws.rebindCertificate h w).haws.certificate.Outputs = h.certificate.Outputs := by
  unfold Haws.rebindCertificate
  refine HawsExec.andThen_keeps (fun h1 => h1.certificate.Outputs) _ _ h rfl (fun h2 w2 => ?_)
  have hs : h2.stacks "certificate" = some h2.certificate := rfl
  unfold Haws.SetStackParameterValue
  rw [hs]
  simp [Haws.store]

/-- In dry-run mode what follows the fetch of the outputs of "certificate" makes no call
and keeps the captured outputs of the stack "certificate". -/
theorem afterFetch_dry {σ τ : Type} (sdk : AwsSDK σ) (names : String → String)
    (h : Haws σ τ) (w : σ) (hdry : h.dryRun = true) :
    ((Haws.rebindCertificate h w).andThen (fun h3 w3 =>
      (h3.DeployStack sdk (names "cloudfront") "cloudfront" w3).andThen
        (fun h4 w4 => Haws.deployStages sdk names ["user"] h4 w4))).calls = [] ∧
    ((Haws.rebindCertificate h w).andThen (fun h3 w3 =>
      (h3.DeployStack sdk (names "cloudfront") "cloudfront" w3).andThen
        (fun h4 w4 => Haws.deployStages sdk names ["user"] h4 w4))).haws.certificate.Outputs
      = h.certificate.Outputs := by
  constructor
  · rw [HawsExec.andThen_calls, rebindCertificate_calls, List.nil_append]
    split_ifs
    · have hdry3 : (Haws.rebindCertificate h w).haws.dryRun = true := by
        rw [rebindCertificate_keeps (fun h1 => h1.dryRun) h w
          (fun h1 s => Haws.store_dryRun h1 _ s), hdry]
      rw [HawsExec.andThen_calls, (DeployStack_dry sdk _ _ "cloudfront" _ hdry3).1,
        List.nil_append]
      split_ifs
      · refine (deployStages_dry sdk names ["user"] _ _ ?_ (by decide)).1
        rw [dryRun_of_fixed _ _ (DeployStack_fixed sdk _ _ "cloudfront" _), hdry3]
      · rfl
    · rfl
  · refine HawsExec.andThen_keeps (fun h1 => h1.certificate.Outputs) _ _ h
      (rebindCertificate_certificate h w) (fun h3 w3 => ?_)
    refine HawsExec.andThen_keeps (fun h1 => h1.certificate.Outputs) _ _ h3 ?_ (fun h4 w4 => ?_)
    · exact DeployStack_keeps (fun h1 => h1.certificate.Outputs) sdk _ h3 "cloudfront" w3
        (fun s => congrArg StackObject.Outputs
          (Haws.store_certificate_ne h3 "cloudfront" s (by decide)))
    · refine deployStages_keeps (fun h1 => h1.certificate.Outputs) sdk names ["user"] h4 w4
        (fun stack hstack h1 s => ?_) (fun hc => absurd hc (by decide))
      rw [List.mem_singleton] at hstack
      subst hstack
      exact congrArg StackObject.Outputs (Haws.store_certificate_ne h1 "user" s (by decide))

end DryDeployRun

section DryDeployStage

/-- The statements before a stage keep the flag, and every stack other than
"certificate". -/
theorem beforeStage_keeps {σ τ α : Type} (p : Haws σ τ → α) (sdk : AwsSDK σ) (stack : String)
    (h : Haws σ τ) (w : σ)
    (hp : stack = "cloudfront" → ∀ (h1 : Haws σ τ) s, p (h1.store "certificate" s) = p h1) :
    p (if stack = "cloudfront" then h.beforeCloudfront sdk w else HawsExec.skip h w).haws
      = p h := by
  by_cases hc : stack = "cloudfront"
  · rw [if_pos hc]
    exact beforeCloudfront_keeps p sdk h w (hp hc)
  · rw [if_neg hc]
    rfl

/-- In dry-run mode, when the loop of `Deploy` returned nil, the stack of a stage that
occurs once, and is not the one rebound before "cloudfront", is as it was but for the
captured outputs, which are the copy of its dry-run outputs over the previous ones. -/
theorem stage_dry_stack {σ τ : Type} (sdk : AwsSDK σ) (names : String → String)
    (a b : List String) (k : String) (get : Haws σ τ → StackObject σ τ)
    (hstacks : ∀ h1 : Haws σ τ, h1.stacks k = some (get h1))
    (hstore : ∀ (h1 : Haws σ τ) s, get (h1.store k s) = s)
    (hother : ∀ name, name ≠ k → ∀ (h1 : Haws σ τ) s, get (h1.store name s) = get h1)
    (hka : k ∉ a) (hkb : k ∉ b) (hkc : "cloudfront" ∈ a ++ k :: b → k ≠ "certificate")
    (h : Haws σ τ) (w : σ) (hdry : h.dryRun = true)
    (hout : (Haws.deployStages sdk names (a ++ k :: b) h w).out = .ret none) :
    get (Haws.deployStages sdk names (a ++ k :: b) h w).haws
      = { get h with
          Outputs := copyDryRunOutputs ((get h).methods.view (get h).state).GetDryRunOutputs
            (get h).Outputs } := by
  have hcert : "cloudfront" ∈ a ++ k :: b →
      ∀ (h1 : Haws σ τ) s, get (h1.store "certificate" s) = get h1 :=
    fun hc h1 s => hother "certificate" (fun e => hkc hc e.symm) h1 s
  rw [deployStages_append] at hout ⊢
  obtain ⟨_, hQok, hhaws, _⟩ := HawsExec.andThen_out_ok _ _ hout
  rw [hhaws]
  have hgetP : get (Haws.deployStages sdk names a h w).haws = get h :=
    deployStages_keeps get sdk names a h w
      (fun stack hs h1 s => hother stack (fun e => hka (e ▸ hs)) h1 s)
      (fun hc => hcert (List.mem_append_left _ hc))
  have hdryP : (Haws.deployStages sdk names a h w).haws.dryRun = true := by
    rw [dryRun_of_fixed _ _ (deployStages_fixed sdk names a h w), hdry]
  generalize (Haws.deployStages sdk names a h w).haws = h1 at hQok hgetP hdryP ⊢
  generalize (Haws.deployStages sdk names a h w).world = w1 at hQok ⊢
  rw [Haws.deployStages] at hQok ⊢
  obtain ⟨hDok, _, hhaws2, _⟩ := HawsExec.andThen_out_ok _ _ hQok
  rw [hhaws2, deployStages_keeps get sdk names b _ _
    (fun stack hs h2 s => hother stack (fun e => hkb (e ▸ hs)) h2 s)
    (fun hc => hcert (List.mem_append_right _ (List.mem_cons_of_mem _ hc)))]
  obtain ⟨_, hDk, hhaws3, _⟩ := HawsExec.andThen_out_ok _ _ hDok
  rw [hhaws3]
  have hgetpre := beforeStage_keeps get sdk k h1 w1
    (fun hc => hcert (List.mem_append_right _ (hc ▸ List.mem_cons_self _ _)))
  have hdrypre := beforeStage_keeps (fun h2 => h2.dryRun) sdk k h1 w1
    (fun _ h2 s => Haws.store_dryRun h2 _ s)
  generalize (if k = "cloudfront" then h1.beforeCloudfront sdk w1
    else HawsExec.skip h1 w1) = pre at hDk hgetpre hdrypre ⊢
  have hdry2 : pre.haws.dryRun = true := by
    show (fun h2 : Haws σ τ => h2.dryRun) pre.haws = true
    rw [hdrypre]
    exact hdryP
  obtain ⟨hDout, hDhaws⟩ := DeployStack_dry_at sdk (names k) pre.haws k (get pre.haws)
    pre.world hdry2 (hstacks _)
  rw [hDout] at hDk
  rw [hDhaws, hstore, DryRun_stack_of_out _ _ hDk, hgetpre, hgetP]
  rfl

end DryDeployStage

section DryDeployCalls

/-- Storing the stack "certificate". -/
theorem Haws.store_certificate_self {σ τ : Type} (h : Haws σ τ) (s : StackObject σ τ) :
    (h.store "certificate" s).certificate = s := by
  simp [Haws.store]

/-- Storing the stack "bucket". -/
theorem Haws.store_bucket_self {σ τ : Type} (h : Haws σ τ) (s : StackObject σ τ) :
    (h.store "bucket" s).bucket = s := by
  simp [Haws.store]

/-- Storing the stack "cloudfront". -/
theorem Haws.store_cloudfront_self {σ τ : Type} (h : Haws σ τ) (s : StackObject σ τ) :
    (h.store "cloudfront" s).cloudfront = s := by
  simp [Haws.store]

/-- Storing the stack "user". -/
theorem Haws.store_user_self {σ τ : Type} (h : Haws σ τ) (s : StackObject σ τ) :
    (h.store "user" s).user = s := by
  simp [Haws.store]

/-- The method `GetStackOutput` on the stack "certificate" is `GetOutputs` on it. -/
theorem GetStackOutput_certificate {σ τ : Type} (sdk : AwsSDK σ) (h : Haws σ τ) (w : σ) :
    (h.GetStackOutput sdk "certificate" w).calls
      = (GetOutputs sdk h.certificate.toStack w).calls ∧
    (h.GetStackOutput sdk "certificate" w).haws.certificate.Outputs
      = (GetOutputs sdk h.certificate.toStack w).stack.Outputs := by
  have hs : h.stacks "certificate" = some h.certificate := rfl
  unfold Haws.GetStackOutput
  rw [hs]
  exact ⟨rfl, by simp [Haws.store, StackObject.ofStack]⟩

/-- The stages "cloudfront" and "user" in dry-run mode: the calls are those of `GetOutputs`
on the stack "certificate". -/
theorem lastStages_dry_calls {σ τ : Type} (sdk : AwsSDK σ) (names : String → String)
    (h : Haws σ τ) (w : σ) (hdry : h.dryRun = true) :
    (Haws.deployStages sdk names ["cloudfront", "user"] h w).calls
      = (GetOutputs sdk h.certificate.toStack w).calls := by
  have hdry1 : (h.GetStackOutput sdk "certificate" w).haws.dryRun = true := by
    rw [dryRun_of_fixed _ _ (GetStackOutput_fixed sdk h "certificate" w), hdry]
  rw [deployStages_cloudfront, HawsExec.andThen_calls, (GetStackOutput_certificate sdk h w).1,
    (afterFetch_dry sdk names _ _ hdry1).1]
  split_ifs <;> simp

/-- The method `Deploy` in dry-run mode makes no call, or the one `DescribeStacks` call of
`GetOutputs` for the name of the stack "certificate". -/
theorem Deploy_dry_calls {σ τ : Type} (sdk : AwsSDK σ) (names : String → String)
    (h : Haws σ τ) (w : σ) (hdry : h.dryRun = true) :
    (h.Deploy sdk names w).calls = [] ∨
      ∃ resp, (h.Deploy sdk names w).calls
        = [Call.DescribeStacks ⟨(h.certificate.methods.view h.certificate.state).GetStackName⟩
            resp] := by
  have hsplit : h.Deploy sdk names w
      = (Haws.deployStages sdk names ["certificate", "bucket"] h w).andThen
          (fun h1 w1 => Haws.deployStages sdk names ["cloudfront", "user"] h1 w1) :=
    deployStages_append sdk names ["certificate", "bucket"] ["cloudfront", "user"] h w
  obtain ⟨hcalls, _, hstate⟩ :=
    deployStages_dry sdk names ["certificate", "bucket"] h w hdry (by decide)
  have hfixed := deployStages_fixed sdk names ["certificate", "bucket"] h w
  have hdry1 := dryRun_of_fixed _ _ hfixed
  rw [hdry] at hdry1
  have hmethods : (Haws.deployStages sdk names ["certificate", "bucket"] h w).haws.certificate.methods
      = h.certificate.methods := by
    simp only [Haws.fixed, Prod.mk.injEq] at hfixed
    exact hfixed.2.1
  rw [hsplit, HawsExec.andThen_calls, hcalls, List.nil_append]
  split_ifs
  · rw [lastStages_dry_calls sdk names _ _ hdry1]
    rcases GetOutputs_calls sdk
      (Haws.deployStages sdk names ["certificate", "bucket"] h w).haws.certificate.toStack
      (Haws.deployStages sdk names ["certificate", "bucket"] h w).world with hnone | ⟨resp, hone⟩
    · exact Or.inl hnone
    · refine Or.inr ⟨resp, ?_⟩
      rw [hone]
      show [Call.DescribeStacks
        ⟨((Haws.deployStages sdk names ["certificate", "bucket"] h w).haws.certificate.methods.view
          (Haws.deployStages sdk names ["certificate", "bucket"] h w).haws.certificate.state).GetStackName⟩
        resp] = _
      rw [hmethods, hstate]
  · exact Or.inl rfl

/-- The method `Deploy` in dry-run mode, when it returned nil: the captured outputs of the
stack "certificate" are those `GetOutputs` left on the stack as `DryRun` had left it. -/
theorem Deploy_dry_certificate {σ τ : Type} (sdk : AwsSDK σ) (names : String → String)
    (h : Haws σ τ) (w : σ) (hdry : h.dryRun = true)
    (hout : (h.Deploy sdk names w).out = .ret none) :
    (h.Deploy sdk names w).haws.certificate.Outputs
      = (GetOutputs sdk
          { h.certificate.toStack with
            Outputs := copyDryRunOutputs
              (h.certificate.methods.view h.certificate.state).GetDryRunOutputs
              h.certificate.Outputs } w).stack.Outputs := by
  have hsplit : h.Deploy sdk names w
      = (Haws.deployStages sdk names ["certificate", "bucket"] h w).andThen
          (fun h1 w1 => Haws.deployStages sdk names ["cloudfront", "user"] h1 w1) :=
    deployStages_append sdk names ["certificate", "bucket"] ["cloudfront", "user"] h w
  rw [hsplit] at hout ⊢
  obtain ⟨hPok, hQok, hhaws, _⟩ := HawsExec.andThen_out_ok _ _ hout
  have hcert := stage_dry_stack sdk names [] ["bucket"] "certificate"
    (fun h1 : Haws σ τ => h1.certificate) (fun _ => rfl)
    (fun h1 s => Haws.store_certificate_self h1 s)
    (fun name hne h1 s => Haws.store_certificate_ne h1 name s hne)
    (by decide) (by decide) (fun hc => absurd hc (by decide)) h w hdry hPok
  obtain ⟨_, hworld, _⟩ :=
    deployStages_dry sdk names ["certificate", "bucket"] h w hdry (by decide)
  have hdry1 : (Haws.deployStages sdk names ["certificate", "bucket"] h w).haws.dryRun = true := by
    rw [dryRun_of_fixed _ _ (deployStages_fixed sdk names _ h w), hdry]
  rw [hhaws]
  change (Haws.deployStages sdk names ["certificate", "bucket"] h w).haws.certificate = _ at hcert
  generalize (Haws.deployStages sdk names ["certificate", "bucket"] h w).haws = h1
    at hQok hcert hdry1 ⊢
  rw [hworld] at hQok ⊢
  rw [deployStages_cloudfront] at hQok ⊢
  obtain ⟨_, _, hhaws2, _⟩ := HawsExec.andThen_out_ok _ _ hQok
  have hdry2 : (h1.GetStackOutput sdk "certificate" w).haws.dryRun = true := by
    rw [dryRun_of_fixed _ _ (GetStackOutput_fixed sdk h1 "certificate" w), hdry1]
  rw [hhaws2, (afterFetch_dry sdk names _ _ hdry2).2,
    (GetStackOutput_certificate sdk h1 w).2, hcert]
  rfl

end DryDeployCalls

/-! ## The claim on dry-run mode -/

section DryRunModeClaims

/-- C20, as stated, fails: on the registry of four new mock stacks with the dry-run flag
set, and an SDK that gives the client of `TestStack_GetOutputs_Mock`, `Deploy` returns nil
after one `DescribeStacks` call for the stack "mock-certificate", and the stack
"certificate" has captured the key "mock-key" that the call reported, which is no key of
its dry-run outputs. -/
theorem Deploy_dry_run_describes_stacks :
    (mockHaws true).dryRun = true ∧
    ((mockHaws true).Deploy (sdkOf mockCFNSuccess) exampleNames ()).out = .ret none ∧
    ((mockHaws true).Deploy (sdkOf mockCFNSuccess) exampleNames ()).calls
      = [Call.DescribeStacks ⟨"mock-certificate"⟩
          (some ⟨[⟨"", [⟨some "mock-key", some "mock-value"⟩]⟩]⟩, none)] ∧
    GoMap.get ((mockHaws true).Deploy (sdkOf mockCFNSuccess) exampleNames
      ()).haws.certificate.Outputs "mock-key" = some "mock-value" ∧
    GoMap.get ((mockHaws true).certificate.methods.view
      (mockHaws true).certificate.state).GetDryRunOutputs "mock-key" = none := by
  decide

/-- C20, amended. When the dry-run flag is set, `Deploy` makes no changeset call; the only
call it can make on a remote client is the one `DescribeStacks` call of `GetOutputs` for
the stack "certificate", issued before the stage "cloudfront". When `Deploy` returns nil,
the captured outputs of the stacks "bucket", "cloudfront" and "user" are the copy of their
dry-run outputs over what they had captured before, and the captured outputs of the stack
"certificate" are the ones `GetOutputs` leaves on that copy: the dry-run outputs, then the
outputs the `DescribeStacks` call reported. -/
theorem Deploy_dry_run {σ τ : Type} (sdk : AwsSDK σ) (names : String → String)
    (h : Haws σ τ) (w : σ) (hdry : h.dryRun = true) :
    ((h.Deploy sdk names w).calls = [] ∨
      ∃ resp, (h.Deploy sdk names w).calls
        = [Call.DescribeStacks ⟨(h.certificate.methods.view h.certificate.state).GetStackName⟩
            resp]) ∧
    createChangeSetCalls (h.Deploy sdk names w).calls = [] ∧
    describeChangeSetResponses (h.Deploy sdk names w).calls = [] ∧
    deleteChangeSetCalls (h.Deploy sdk names w).calls = [] ∧
    executeChangeSetCalls (h.Deploy sdk names w).calls = [] ∧
    ((h.Deploy sdk names w).out = .ret none →
      (h.Deploy sdk names w).haws.bucket.Outputs
        = copyDryRunOutputs (h.bucket.methods.view h.bucket.state).GetDryRunOutputs
            h.bucket.Outputs ∧
      (h.Deploy sdk names w).haws.cloudfront.Outputs
        = copyDryRunOutputs (h.cloudfront.methods.view h.cloudfront.state).GetDryRunOutputs
            h.cloudfront.Outputs ∧
      (h.Deploy sdk names w).haws.user.Outputs
        = copyDryRunOutputs (h.user.methods.view h.user.state).GetDryRunOutputs
            h.user.Outputs ∧
      (h.Deploy sdk names w).haws.certificate.Outputs
        = (GetOutputs sdk
            { h.certificate.toStack with
              Outputs := copyDryRunOutputs
                (h.certificate.methods.view h.certificate.state).GetDryRunOutputs
                h.certificate.Outputs } w).stack.Outputs) := by
  have hcalls := Deploy_dry_calls sdk names h w hdry
  refine ⟨hcalls, ?_, ?_, ?_, ?_, fun hout => ⟨?_, ?_, ?_, ?_⟩⟩
  · rcases hcalls with h0 | ⟨resp, h1⟩
    · rw [h0]; rfl
    · rw [h1]; rfl
  · rcases hcalls with h0 | ⟨resp, h1⟩
    · rw [h0]; rfl
    · rw [h1]; rfl
  · rcases hcalls with h0 | ⟨resp, h1⟩
    · rw [h0]; rfl
    · rw [h1]; rfl
  · rcases hcalls with h0 | ⟨resp, h1⟩
    · rw [h0]; rfl
    · rw [h1]; rfl
  · exact congrArg StackObject.Outputs
      (stage_dry_stack sdk names ["certificate"] ["cloudfront", "user"] "bucket"
        (fun h1 : Haws σ τ => h1.bucket) (fun _ => rfl)
        (fun h1 s => Haws.store_bucket_self h1 s)
        (fun name hne h1 s => Haws.store_bucket_ne h1 name s hne)
        (by decide) (by decide) (fun _ => by decide) h w hdry hout)
  · exact congrArg StackObject.Outputs
      (stage_dry_stack sdk names ["certificate", "bucket"] ["user"] "cloudfront"
        (fun h1 : Haws σ τ => h1.cloudfront) (fun _ => rfl)
        (fun h1 s => Haws.store_cloudfront_self h1 s)
        (fun name hne h1 s => Haws.store_cloudfront_ne h1 name s hne)
        (by decide) (by decide) (fun _ => by decide) h w hdry hout)
  · exact congrArg StackObject.Outputs
      (stage_dry_stack sdk names ["certificate", "bucket", "cloudfront"] [] "user"
        (fun h1 : Haws σ τ => h1.user) (fun _ => rfl)
        (fun h1 s => Haws.store_user_self h1 s)
        (fun name hne h1 s => Haws.store_user_ne h1 name s hne)
        (by decide) (by decide) (fun _ => by decide) h w hdry hout)
  · exact Deploy_dry_certificate sdk names h w hdry hout

/-- The amended C20 on the registry of four new mock stacks: one `DescribeStacks` call, no
changeset call, and the stack "bucket" holds its one dry-run output. -/
theorem Deploy_dry_run_witness :
    (((mockHaws true).Deploy (sdkOf mockCFNSuccess) exampleNames ()).calls = [] ∨
      ∃ resp, ((mockHaws true).Deploy (sdkOf mockCFNSuccess) exampleNames ()).calls
        = [Call.DescribeStacks ⟨"mock-certificate"⟩ resp]) ∧
    createChangeSetCalls ((mockHaws true).Deploy (sdkOf mockCFNSuccess) exampleNames ()).calls
      = [] ∧
    ((mockHaws true).Deploy (sdkOf mockCFNSuccess) exampleNames ()).haws.bucket.Outputs
      = [("mock-bucket-Arn", "arn:aws:acm:region:account:certificate/12345")] :=
  ⟨(Deploy_dry_run (sdkOf mockCFNSuccess) exampleNames (mockHaws true) () rfl).1,
    (Deploy_dry_run (sdkOf mockCFNSuccess) exampleNames (mockHaws true) () rfl).2.1,
    ((Deploy_dry_run (sdkOf mockCFNSuccess) exampleNames (mockHaws true) () rfl).2.2.2.2.2
      (by decide)).1.trans (by decide)⟩

end DryRunModeClaims

/-! ## The methods of stack.go only read the template -/

section TemplateKept

/-- The method `GetOutputs` leaves the template of the stack as it was. -/
theorem GetOutputs_template {σ : Type} (sdk : AwsSDK σ) (st : Stack σ) (w : σ) :
    (GetOutputs sdk st w).stack.template = st.template := by
  unfold GetOutputs
  generalize (match st.cloudFormationClient with
    | some api => Except.ok api
    | none => sdk.NewFromDefaultConfig (some st.template.GetRegion)) = client
  cases client with
  | error err => rfl
  | ok api =>
    simp only []
    repeat (first | rfl | split)

/-- The method `Run` leaves the template of the stack as it was. -/
theorem Run_template {σ : Type} (sdk : AwsSDK σ) (csName : String) (st : Stack σ) (w : σ) :
    (Run sdk csName st w).stack.template = st.template := by
  unfold Run
  generalize (match st.cloudFormationClient with
    | some api => Except.ok api
    | none =>
      if st.template.GetRegion ≠ "" then sdk.NewFromDefaultConfig (some st.template.GetRegion)
      else sdk.NewFromDefaultConfig none) = client
  cases client with
  | error err => rfl
  | ok api =>
    simp only []
    repeat (first | rfl | split)

end TemplateKept

/-! ## The claim on the export name -/

section ExportName

/-- A name, a dash and a suffix are never the empty string. -/
theorem dash_append_ne_empty (S K : String) : S ++ "-" ++ K ≠ "" := by
  intro h
  have hlen := congrArg String.length h
  simp only [String.length_append] at hlen
  have h1 : ("-" : String).length = 1 := by decide
  have h0 : ("" : String).length = 0 := by decide
  omega

/-- C21. The export name of a stack named S for the suffix K is S, a dash and K, whatever
else the stack holds (region, template body and content, client handle, captured outputs):
on the `MockTemplate` of stack_test.go, and on a component template as the spec describes
it. It is never the empty string, also when K is empty. The stack "acme-certificate" gives
"acme-certificate-Arn" for "Arn", and the stack of `TestGetExportName`, named
"test-prefix-certificate", gives "test-prefix-certificate-Arn". -/
theorem GetExportName_of_stack_name {σ : Type} :
    (∀ (S region body K : String) (client : Option (CloudFormationAPI σ)) (outputs : GoMap),
      Stack.GetStackName (⟨MockTemplate S region body, client, outputs⟩ : Stack σ) = S ∧
      Stack.GetExportName (⟨MockTemplate S region body, client, outputs⟩ : Stack σ) K = S ++ "-" ++ K ∧
      Stack.GetExportName (⟨MockTemplate S region body, client, outputs⟩ : Stack σ) K ≠ "") ∧
    (∀ (c : Component) (K : String) (client : Option (CloudFormationAPI σ)) (outputs : GoMap),
      Stack.GetStackName (⟨c.view, client, outputs⟩ : Stack σ) = c.stackName ∧
      Stack.GetExportName (⟨c.view, client, outputs⟩ : Stack σ) K = c.stackName ++ "-" ++ K ∧
      Stack.GetExportName (⟨c.view, client, outputs⟩ : Stack σ) K ≠ "") ∧
    Stack.GetExportName (NewStack acmeCertificate.view : Stack σ) "Arn"
      = "acme-certificate-Arn" ∧
    Stack.GetExportName
      (NewStack (MockTemplate "test-prefix-certificate" "us-east-1" "{}-body") : Stack σ) "Arn"
      = "test-prefix-certificate-Arn" ∧
    Stack.GetExportName
      (NewStack (MockTemplate "test-prefix-certificate" "us-east-1" "{}-body") : Stack σ) ""
      = "test-prefix-certificate-" := by
  refine ⟨fun S region body K client outputs => ⟨rfl, rfl, dash_append_ne_empty S K⟩,
    fun c K client outputs => ⟨rfl, rfl, dash_append_ne_empty c.stackName K⟩, ?_, ?_, ?_⟩
  · show "acme-certificate" ++ "-" ++ "Arn" = "acme-certificate-Arn"
    decide
  · show "test-prefix-certificate" ++ "-" ++ "Arn" = "test-prefix-certificate-Arn"
    decide
  · show "test-prefix-certificate" ++ "-" ++ "" = "test-prefix-certificate-"
    decide

end ExportName

/-! ## The claim on a FAILED changeset without a reason -/

section MissingReason

/-- C22, as stated, fails. When the first decisive `DescribeChangeSet` answer of a run of
`waitForChangeSet` (all earlier ones being pending) has the status FAILED and no
`StatusReason`, the run does not return: it panics on `*desc.StatusReason`, right after
that answer, without calling `DeleteChangeSet`. A run that receives no such answer, and no
answer without error and without output, ends by a return; and every run makes at most 30
`DescribeChangeSet` calls. -/
theorem waitForChangeSet_missing_reason_panics {σ : Type} (api : CloudFormationAPI σ)
    (t : Template) (csName : String) (w : σ) :
    (∀ d : DescribeChangeSetOutput,
      firstDecisiveChangeSet
        (describeChangeSetResponses (waitForChangeSet api t csName w).calls)
        = some (some d, none) →
      d.Status = ChangeSetStatusFailed → d.StatusReason = none →
      (waitForChangeSet api t csName w).out = .panic nilDeref ∧
      (∃ pre : List DescribeChangeSetResponse,
        describeChangeSetResponses (waitForChangeSet api t csName w).calls
          = pre ++ [(some d, none)] ∧
        (∀ r ∈ pre, changeSetPending r = true) ∧ pre.length < 30) ∧
      deleteChangeSetCalls (waitForChangeSet api t csName w).calls = []) ∧
    ((∀ r ∈ describeChangeSetResponses (waitForChangeSet api t csName w).calls,
        r ≠ (none, none) ∧
        ∀ d : DescribeChangeSetOutput, r = (some d, none) →
          d.Status = ChangeSetStatusFailed → d.StatusReason ≠ none) →
      ∃ v, (waitForChangeSet api t csName w).out = .ret v) ∧
    (describeChangeSetResponses (waitForChangeSet api t csName w).calls).length ≤ 30 := by
  refine ⟨fun d hfirst hfailed hreason => ?_, fun hgood => ?_, ?_⟩
  · obtain ⟨pre, tail, hlen, hpre, hcalls, hresp, hv⟩ :=
      waitForChangeSetLoop_decided api t csName 30 w _ hfirst
    have hdel := deleteChangeSetCalls_wait ⟨csName, t.GetStackName⟩ pre (some d, none) tail
    rw [← hcalls] at hdel
    change deleteChangeSetCalls (waitForChangeSet api t csName w).calls = _ at hdel
    change ChangeSetVerdict _ _ _ _ (waitForChangeSet api t csName w).out at hv
    change describeChangeSetResponses (waitForChangeSet api t csName w).calls = _ at hresp
    rw [hdel]
    refine ⟨?_, ⟨pre, hresp, hpre, hlen⟩, ?_⟩
    · generalize (waitForChangeSet api t csName w).out = wout at hv
      cases hv with
      | ready d h => exact absurd (hfailed.symm.trans h) changeSetStatusFailed_ne_complete
      | nilReason d h hr => rfl
      | emptyDeleted d h hr => rw [hreason] at hr; cases hr
      | emptyDeleteError d h hr e => rw [hreason] at hr; cases hr
      | failed d h m hr hm => rw [hreason] at hr; cases hr
    · generalize (waitForChangeSet api t csName w).out = wout at hv
      cases hv with
      | ready d h => exact absurd (hfailed.symm.trans h) changeSetStatusFailed_ne_complete
      | nilReason d h hr => rfl
      | emptyDeleted d h hr => rw [hreason] at hr; cases hr
      | emptyDeleteError d h hr e => rw [hreason] at hr; cases hr
      | failed d h m hr hm => rw [hreason] at hr; cases hr
  · rcases waitForChangeSetLoop_shape api t csName 30 w with
      ⟨pre, _, _, _, hout⟩ | ⟨pre, last, tail, _, _, _, hcalls, hv⟩
    · exact ⟨_, hout⟩
    · have hmem : last ∈ describeChangeSetResponses (waitForChangeSet api t csName w).calls := by
        change last ∈ describeChangeSetResponses (waitForChangeSetLoop api t csName 30 w).calls
        rw [hcalls]
        simp [describeChangeSetResponses, List.filterMap_append, Call.describeChangeSet?]
      obtain ⟨hnil, hreason⟩ := hgood last hmem
      change ChangeSetVerdict _ _ _ _ (waitForChangeSet api t csName w).out at hv
      generalize (waitForChangeSet api t csName w).out = wout at hv
      cases hv with
      | remoteError o e => exact ⟨_, rfl⟩
      | nilOutput => exact absurd rfl hnil
      | ready d h => exact ⟨_, rfl⟩
      | nilReason d h hr => exact absurd hr (hreason d rfl h)
      | emptyDeleted d h hr => exact ⟨_, rfl⟩
      | emptyDeleteError d h hr e => exact ⟨_, rfl⟩
      | failed d h m hr hm => exact ⟨_, rfl⟩
  · rcases waitForChangeSetLoop_shape api t csName 30 w with
      ⟨pre, hlen, _, hcalls, _⟩ | ⟨pre, last, tail, hlen, _, _, hcalls, hv⟩
    · change (describeChangeSetResponses (waitForChangeSetLoop api t csName 30 w).calls).length
        ≤ 30
      rw [hcalls, describeChangeSetResponses_map, hlen]
    · change (describeChangeSetResponses (waitForChangeSetLoop api t csName 30 w).calls).length
        ≤ 30
      rw [hcalls]
      unfold describeChangeSetResponses
      rw [List.filterMap_append, List.filterMap_cons]
      have h1 := describeChangeSetResponses_map ⟨csName, t.GetStackName⟩ pre
      have h2 := hv.tail_projections.1
      unfold describeChangeSetResponses at h1 h2
      rw [h1, h2]
      simp [Call.describeChangeSet?]
      omega

end MissingReason

section MissingReasonWitness

/-- C22 on a client whose first `DescribeChangeSet` answer is FAILED without a reason:
`waitForChangeSet` panics, and so does `Run` on the stack of the tests. -/
theorem waitForChangeSet_missing_reason_panics_witness :
    (waitForChangeSet scripted (MockTemplate "mock-stack" "us-east-1" "{}-body") "cs-1"
      (scriptOf [changeSetAnswer ChangeSetStatusFailed none] [])).out = .panic nilDeref ∧
    describeChangeSetResponses
      (waitForChangeSet scripted (MockTemplate "mock-stack" "us-east-1" "{}-body") "cs-1"
        (scriptOf [changeSetAnswer ChangeSetStatusFailed none] [])).calls
      = [(some ⟨ChangeSetStatusFailed, none⟩, none)] ∧
    (Run noSDK "cs-1" (mockStack scripted [])
      (scriptOf [changeSetAnswer ChangeSetStatusFailed none] [])).out = .panic nilDeref :=
  ⟨((waitForChangeSet_missing_reason_panics scripted
      (MockTemplate "mock-stack" "us-east-1" "{}-body") "cs-1"
      (scriptOf [changeSetAnswer ChangeSetStatusFailed none] [])).1
      ⟨ChangeSetStatusFailed, none⟩ (by decide) rfl rfl).1,
    by decide, by decide⟩

end MissingReasonWitness

/-! ## waitForChangeSet on the successive answers of the client -/

section ChangeSetScript

/-- The `k`-th successive answer is the answer given in the world after `k` calls. -/
theorem nthDescribeChangeSet_eq_after {σ : Type} (api : CloudFormationAPI σ)
    (inp : DescribeChangeSetInput) :
    ∀ (k : Nat) (w : σ), nthDescribeChangeSet api inp k w
      = (api.DescribeChangeSet inp (afterDescribeChangeSets api inp k w)).1
  | 0, _ => rfl
  | k + 1, w => nthDescribeChangeSet_eq_after api inp k (api.DescribeChangeSet inp w).2

/-- The world after one more call. -/
theorem afterDescribeChangeSets_succ {σ : Type} (api : CloudFormationAPI σ)
    (inp : DescribeChangeSetInput) :
    ∀ (k : Nat) (w : σ), afterDescribeChangeSets api inp (k + 1) w
      = (api.DescribeChangeSet inp (afterDescribeChangeSets api inp k w)).2
  | 0, _ => rfl
  | k + 1, w => afterDescribeChangeSets_succ api inp k (api.DescribeChangeSet inp w).2

/-- When the first `k` successive answers of the client are pending, the loop of
`waitForChangeSet` with `m + k` attempts makes the `k` calls they answer and goes on, in
the world after them, with `m` attempts. -/
theorem waitForChangeSetLoop_polls {σ : Type} (api : CloudFormationAPI σ) (t : Template)
    (csName : String) (m : Nat) :
    ∀ (k : Nat) (w : σ),
      (∀ j, j < k →
        changeSetPending (nthDescribeChangeSet api ⟨csName, t.GetStackName⟩ j w) = true) →
      (waitForChangeSetLoop api t csName (m + k) w).out
        = (waitForChangeSetLoop api t csName m
            (afterDescribeChangeSets api ⟨csName, t.GetStackName⟩ k w)).out ∧
      (waitForChangeSetLoop api t csName (m + k) w).world
        = (waitForChangeSetLoop api t csName m
            (afterDescribeChangeSets api ⟨csName, t.GetStackName⟩ k w)).world ∧
      (waitForChangeSetLoop api t csName (m + k) w).calls
        = (List.range k).map (fun j => Call.DescribeChangeSet ⟨csName, t.GetStackName⟩
            (nthDescribeChangeSet api ⟨csName, t.GetStackName⟩ j w))
          ++ (waitForChangeSetLoop api t csName m
            (afterDescribeChangeSets api ⟨csName, t.GetStackName⟩ k w)).calls
  | 0, w, _ => ⟨rfl, rfl, rfl⟩
  | k + 1, w, hp => by
    have h0 := hp 0 (by omega)
    obtain ⟨ih1, ih2, ih3⟩ := waitForChangeSetLoop_polls api t csName m k
      (api.DescribeChangeSet ⟨csName, t.GetStackName⟩ w).2
      (fun j hj => hp (j + 1) (by omega))
    have hstep := waitForChangeSetLoop_pending_step api t csName (m + k) w h0
    change waitForChangeSetLoop api t csName (m + (k + 1)) w = _ at hstep
    rw [hstep]
    refine ⟨?_, ?_, ?_⟩
    · rw [Exec.after_out, ih1]
      rfl
    · rw [Exec.after_world, ih2]
      rfl
    · rw [Exec.after_calls, ih3, List.range_succ_eq_map k]
      simp only [List.map_cons, List.map_map, List.cons_append]
      rfl

/-- The loop of `waitForChangeSet` on the answer CREATE_COMPLETE. -/
theorem waitForChangeSetLoop_ready_step {σ : Type} (api : CloudFormationAPI σ) (t : Template)
    (csName : String) (m : Nat) (w : σ) (d : DescribeChangeSetOutput)
    (h : (api.DescribeChangeSet ⟨csName, t.GetStackName⟩ w).1 = (some d, none))
    (hs : d.Status = ChangeSetStatusCreateComplete) :
    (waitForChangeSetLoop api t csName (m + 1) w).out = .ret (false, none) ∧
    (waitForChangeSetLoop api t csName (m + 1) w).calls
      = [Call.DescribeChangeSet ⟨csName, t.GetStackName⟩ (some d, none)] ∧
    (waitForChangeSetLoop api t csName (m + 1) w).world
      = (api.DescribeChangeSet ⟨csName, t.GetStackName⟩ w).2 := by
  rw [waitForChangeSetLoop]
  generalize api.DescribeChangeSet ⟨csName, t.GetStackName⟩ w = r at h ⊢
  obtain ⟨⟨o, e⟩, w1⟩ := r
  simp only [Prod.mk.injEq] at h
  obtain ⟨rfl, rfl⟩ := h
  simp [hs]

/-- The loop of `waitForChangeSet` on the answer FAILED with a reason other than
`EmptyChangeSet`. -/
theorem waitForChangeSetLoop_failed_step {σ : Type} (api : CloudFormationAPI σ) (t : Template)
    (csName : String) (m : Nat) (w : σ) (reason : String)
    (h : (api.DescribeChangeSet ⟨csName, t.GetStackName⟩ w).1
      = (some ⟨ChangeSetStatusFailed, some reason⟩, none))
    (hm : reason ≠ EmptyChangeSet) :
    (waitForChangeSetLoop api t csName (m + 1) w).out
      = .ret (false, some (changeSetFailed reason)) ∧
    (waitForChangeSetLoop api t csName (m + 1) w).calls
      = [Call.DescribeChangeSet ⟨csName, t.GetStackName⟩
          (some ⟨ChangeSetStatusFailed, some reason⟩, none)] := by
  rw [waitForChangeSetLoop]
  generalize api.DescribeChangeSet ⟨csName, t.GetStackName⟩ w = r at h ⊢
  obtain ⟨⟨o, e⟩, w1⟩ := r
  simp only [Prod.mk.injEq] at h
  obtain ⟨rfl, rfl⟩ := h
  simp [changeSetStatusFailed_ne_complete, hm]

/-- The loop of `waitForChangeSet` on the answer FAILED with the reason `EmptyChangeSet`,
when the client accepts the `DeleteChangeSet` call that follows. -/
theorem waitForChangeSetLoop_noop_step {σ : Type} (api : CloudFormationAPI σ) (t : Template)
    (csName : String) (m : Nat) (w : σ)
    (h : (api.DescribeChangeSet ⟨csName, t.GetStackName⟩ w).1
      = (some ⟨ChangeSetStatusFailed, some EmptyChangeSet⟩, none))
    (hd : (api.DeleteChangeSet ⟨csName, t.GetStackName⟩
      (api.DescribeChangeSet ⟨csName, t.GetStackName⟩ w).2).1 = none) :
    (waitForChangeSetLoop api t csName (m + 1) w).out = .ret (true, none) ∧
    (waitForChangeSetLoop api t csName (m + 1) w).calls
      = [Call.DescribeChangeSet ⟨csName, t.GetStackName⟩
          (some ⟨ChangeSetStatusFailed, some EmptyChangeSet⟩, none),
         Call.DeleteChangeSet ⟨csName, t.GetStackName⟩ none] := by
  rw [waitForChangeSetLoop]
  generalize api.DescribeChangeSet ⟨csName, t.GetStackName⟩ w = r at h hd ⊢
  obtain ⟨⟨o, e⟩, w1⟩ := r
  simp only [Prod.mk.injEq] at h
  obtain ⟨rfl, rfl⟩ := h
  simp only at hd
  simp [changeSetStatusFailed_ne_complete, hd]

end ChangeSetScript

section ChangeSetScriptRun

/-- The calls answered by the successive answers `0` to `k`. -/
theorem range_succ_polls {σ : Type} (api : CloudFormationAPI σ) (inp : DescribeChangeSetInput)
    (k : Nat) (w : σ) (R : DescribeChangeSetResponse)
    (h : nthDescribeChangeSet api inp k w = R) :
    (List.range k).map (fun j => Call.DescribeChangeSet inp (nthDescribeChangeSet api inp j w))
        ++ [Call.DescribeChangeSet inp R]
      = (List.range (k + 1)).map
          (fun j => Call.DescribeChangeSet inp (nthDescribeChangeSet api inp j w)) := by
  rw [List.range_succ, List.map_append, List.map_singleton, h]

/-- The method `waitForChangeSet` when the successive answers `0` to `k - 1` of the client
are pending and the answer `k`, with `k < 30`, is CREATE_COMPLETE. -/
theorem waitForChangeSet_script_ready {σ : Type} (api : CloudFormationAPI σ) (t : Template)
    (csName : String) (w : σ) (k : Nat) (d : DescribeChangeSetOutput) (hk : k < 30)
    (hpending : ∀ j, j < k →
      changeSetPending (nthDescribeChangeSet api ⟨csName, t.GetStackName⟩ j w) = true)
    (hfirst : nthDescribeChangeSet api ⟨csName, t.GetStackName⟩ k w = (some d, none))
    (hs : d.Status = ChangeSetStatusCreateComplete) :
    (waitForChangeSet api t csName w).out = .ret (false, none) ∧
    (waitForChangeSet api t csName w).calls
      = (List.range (k + 1)).map (fun j => Call.DescribeChangeSet ⟨csName, t.GetStackName⟩
          (nthDescribeChangeSet api ⟨csName, t.GetStackName⟩ j w)) ∧
    (waitForChangeSet api t csName w).world
      = afterDescribeChangeSets api ⟨csName, t.GetStackName⟩ (k + 1) w := by
  obtain ⟨h1, h2, h3⟩ := waitForChangeSetLoop_polls api t csName (29 - k + 1) k w hpending
  have h30 : 29 - k + 1 + k = 30 := by omega
  rw [h30] at h1 h2 h3
  have hans := nthDescribeChangeSet_eq_after api ⟨csName, t.GetStackName⟩ k w
  rw [hfirst] at hans
  obtain ⟨s1, s2, s3⟩ := waitForChangeSetLoop_ready_step api t csName (29 - k)
    (afterDescribeChangeSets api ⟨csName, t.GetStackName⟩ k w) d hans.symm hs
  unfold waitForChangeSet
  rw [h1, h2, h3, s1, s2, s3, range_succ_polls api _ k w _ hfirst,
    afterDescribeChangeSets_succ]
  exact ⟨rfl, rfl, rfl⟩

/-- The method `waitForChangeSet` when the successive answers `0` to `k - 1` of the client
are pending and the answer `k`, with `k < 30`, is FAILED with a reason other than
`EmptyChangeSet`. -/
theorem waitForChangeSet_script_failed {σ : Type} (api : CloudFormationAPI σ) (t : Template)
    (csName : String) (w : σ) (k : Nat) (reason : String) (hk : k < 30)
    (hpending : ∀ j, j < k →
      changeSetPending (nthDescribeChangeSet api ⟨csName, t.GetStackName⟩ j w) = true)
    (hfirst : nthDescribeChangeSet api ⟨csName, t.GetStackName⟩ k w
      = (some ⟨ChangeSetStatusFailed, some reason⟩, none))
    (hm : reason ≠ EmptyChangeSet) :
    (waitForChangeSet api t csName w).out = .ret (false, some (changeSetFailed reason)) ∧
    (waitForChangeSet api t csName w).calls
      = (List.range (k + 1)).map (fun j => Call.DescribeChangeSet ⟨csName, t.GetStackName⟩
          (nthDescribeChangeSet api ⟨csName, t.GetStackName⟩ j w)) := by
  obtain ⟨h1, _, h3⟩ := waitForChangeSetLoop_polls api t csName (29 - k + 1) k w hpending
  have h30 : 29 - k + 1 + k = 30 := by omega
  rw [h30] at h1 h3
  have hans := nthDescribeChangeSet_eq_after api ⟨csName, t.GetStackName⟩ k w
  rw [hfirst] at hans
  obtain ⟨s1, s2⟩ := waitForChangeSetLoop_failed_step api t csName (29 - k)
    (afterDescribeChangeSets api ⟨csName, t.GetStackName⟩ k w) reason hans.symm hm
  unfold waitForChangeSet
  rw [h1, h3, s1, s2, range_succ_polls api _ k w _ hfirst]
  exact ⟨rfl, rfl⟩

/-- The method `waitForChangeSet` when the successive answers `0` to `k - 1` of the client
are pending, the answer `k`, with `k < 30`, is FAILED with the reason `EmptyChangeSet`, and
the client accepts `DeleteChangeSet` in the world after these answers. -/
theorem waitForChangeSet_script_noop {σ : Type} (api : CloudFormationAPI σ) (t : Template)
    (csName : String) (w : σ) (k : Nat) (hk : k < 30)
    (hpending : ∀ j, j < k →
      changeSetPending (nthDescribeChangeSet api ⟨csName, t.GetStackName⟩ j w) = true)
    (hfirst : nthDescribeChangeSet api ⟨csName, t.GetStackName⟩ k w
      = (some ⟨ChangeSetStatusFailed, some EmptyChangeSet⟩, none))
    (hdelete : (api.DeleteChangeSet ⟨csName, t.GetStackName⟩
      (afterDescribeChangeSets api ⟨csName, t.GetStackName⟩ (k + 1) w)).1 = none) :
    (waitForChangeSet api t csName w).out = .ret (true, none) ∧
    (waitForChangeSet api t csName w).calls
      = (List.range (k + 1)).map (fun j => Call.DescribeChangeSet ⟨csName, t.GetStackName⟩
          (nthDescribeChangeSet api ⟨csName, t.GetStackName⟩ j w))
        ++ [Call.DeleteChangeSet ⟨csName, t.GetStackName⟩ none] := by
  obtain ⟨h1, _, h3⟩ := waitForChangeSetLoop_polls api t csName (29 - k + 1) k w hpending
  have h30 : 29 - k + 1 + k = 30 := by omega
  rw [h30] at h1 h3
  have hans := nthDescribeChangeSet_eq_after api ⟨csName, t.GetStackName⟩ k w
  rw [hfirst] at hans
  rw [afterDescribeChangeSets_succ] at hdelete
  obtain ⟨s1, s2⟩ := waitForChangeSetLoop_noop_step api t csName (29 - k)
    (afterDescribeChangeSets api ⟨csName, t.GetStackName⟩ k w) hans.symm hdelete
  unfold waitForChangeSet
  rw [h1, h3, s1, s2, ← range_succ_polls api _ k w _ hfirst]
  exact ⟨rfl, by simp⟩

/-- What `Run` does once it has its client, the serialised template and an accepted
`CreateChangeSet`: the calls of `initialChangeSet`, then those of `waitForChangeSet` and,
when the changeset is ready, those of `executeChangeSet`. -/
theorem Run_of_created {σ : Type} (sdk : AwsSDK σ) (csName : String) (st : Stack σ) (w : σ)
    (api : CloudFormationAPI σ) (body csType : String)
    (hclient : st.cloudFormationClient = some api ∨
      (st.cloudFormationClient = none ∧
        (if st.template.GetRegion ≠ "" then
          sdk.NewFromDefaultConfig (some st.template.GetRegion)
        else sdk.NewFromDefaultConfig none) = .ok api))
    (hjson : st.template.BuildJSON = .ok body)
    (hcreate : (initialChangeSet api st.template csName body w).out
      = .ret (csName, csType, none)) :
    ((waitForChangeSet api st.template csName
        (initialChangeSet api st.template csName body w).world).out = .ret (true, none) →
      (Run sdk csName st w).out = .ret none ∧
      (Run sdk csName st w).calls
        = (initialChangeSet api st.template csName body w).calls
          ++ (waitForChangeSet api st.template csName
              (initialChangeSet api st.template csName body w).world).calls) ∧
    (∀ b e, (waitForChangeSet api st.template csName
        (initialChangeSet api st.template csName body w).world).out = .ret (b, some e) →
      (Run sdk csName st w).out = .ret (some e) ∧
      (Run sdk csName st w).calls
        = (initialChangeSet api st.template csName body w).calls
          ++ (waitForChangeSet api st.template csName
              (initialChangeSet api st.template csName body w).world).calls) ∧
    ((waitForChangeSet api st.template csName
        (initialChangeSet api st.template csName body w).world).out = .ret (false, none) →
      (Run sdk csName st w).calls
        = (initialChangeSet api st.template csName body w).calls
          ++ (waitForChangeSet api st.template csName
              (initialChangeSet api st.template csName body w).world).calls
          ++ (executeChangeSet api st.template csName csType
              (waitForChangeSet api st.template csName
                (initialChangeSet api st.template csName body w).world).world).calls) := by
  have hc : (match st.cloudFormationClient with
      | some api => Except.ok api
      | none =>
        if st.template.GetRegion ≠ "" then
          sdk.NewFromDefaultConfig (some st.template.GetRegion)
        else sdk.NewFromDefaultConfig none) = .ok api := by
    rcases hclient with h | ⟨h, hsdk⟩
    · rw [h]
    · rw [h]
      exact hsdk
  refine ⟨fun hw => ?_, fun b e hw => ?_, fun hw => ?_⟩
  · unfold Run
    simp only [hc, templateJson, hjson, hcreate, hw, if_true]
    constructor <;> first | rfl | trivial
  · unfold Run
    simp only [hc, templateJson, hjson, hcreate, hw]
    constructor <;> first | rfl | trivial
  · unfold Run
    simp only [hc, templateJson, hjson, hcreate, hw, Bool.false_eq_true, if_false]
    split <;> rfl

/-- The calls of an `initialChangeSet` that returned no error: the existence probe and the
accepted `CreateChangeSet` call, for the changeset name given. -/
theorem initialChangeSet_calls_of_ok {σ : Type} (api : CloudFormationAPI σ) (t : Template)
    (csName body csType : String) (w : σ)
    (hcreate : (initialChangeSet api t csName body w).out = .ret (csName, csType, none)) :
    ∃ (probe : DescribeStacksResponse) (inp : CreateChangeSetInput),
      (initialChangeSet api t csName body w).calls
        = [Call.DescribeStacks ⟨t.GetStackName⟩ probe, Call.CreateChangeSet inp none] ∧
      inp.ChangeSetName = csName := by
  obtain ⟨probe, inp, ce, csType1, hcalls, hname, hcase⟩ :=
    Run_trace_of_client api csName t w body _ rfl
  rcases hcase with ⟨e, _, hout⟩ | ⟨hce, _, _⟩
  · rw [hout] at hcreate
    cases hcreate
  · subst hce
    exact ⟨probe, inp, hcalls, hname⟩

end ChangeSetScriptRun

/-! ## The changeset protocol of `Run`, on the successive answers of the client -/

section ChangeSetClaims

/-- A list of `DescribeChangeSet` calls holds no other call, and its answers are the
answers of the calls. -/
theorem polls_projections (inp : DescribeChangeSetInput) (n : Nat)
    (f : Nat → DescribeChangeSetResponse) :
    createChangeSetCalls ((List.range n).map (fun j => Call.DescribeChangeSet inp (f j))) = [] ∧
    deleteChangeSetCalls ((List.range n).map (fun j => Call.DescribeChangeSet inp (f j))) = [] ∧
    executeChangeSetCalls ((List.range n).map (fun j => Call.DescribeChangeSet inp (f j))) = [] ∧
    describeChangeSetResponses ((List.range n).map (fun j => Call.DescribeChangeSet inp (f j)))
      = (List.range n).map f := by
  refine ⟨filterMap_map_eq_nil _ _ (fun _ => rfl) _, filterMap_map_eq_nil _ _ (fun _ => rfl) _,
    filterMap_map_eq_nil _ _ (fun _ => rfl) _, ?_⟩
  have h := describeChangeSetResponses_map inp ((List.range n).map f)
  rw [List.map_map] at h
  exact h

/-- C1. No-op changeset. Let `Run` have its client (the one the stack holds, or the one the
SDK gives when it holds none), a template that serialises, and let the client accept
`CreateChangeSet`. From the world after that call, let the client answer the successive
`DescribeChangeSet` calls so that the answers `0` to `k - 1` are successful with a status
that is neither CREATE_COMPLETE nor FAILED, and the answer `k`, with `k < 30`, is FAILED
with exactly the `EmptyChangeSet` reason; and let it accept `DeleteChangeSet` in the world
after these answers. Then `Run` calls `DeleteChangeSet` exactly once, for the changeset
name it gave to `CreateChangeSet`, returns nil, never calls `ExecuteChangeSet`, and its
`DescribeChangeSet` calls are exactly those answered by the answers `0` to `k`. -/
theorem Run_noop_changeset {σ : Type} (sdk : AwsSDK σ) (csName : String) (st : Stack σ)
    (w : σ) (api : CloudFormationAPI σ) (body csType : String) (k : Nat)
    (hclient : st.cloudFormationClient = some api ∨
      (st.cloudFormationClient = none ∧
        (if st.template.GetRegion ≠ "" then
          sdk.NewFromDefaultConfig (some st.template.GetRegion)
        else sdk.NewFromDefaultConfig none) = .ok api))
    (hjson : st.template.BuildJSON = .ok body)
    (hcreate : (initialChangeSet api st.template csName body w).out
      = .ret (csName, csType, none))
    (hk : k < 30)
    (hpending : ∀ j, j < k →
      changeSetPending (nthDescribeChangeSet api ⟨csName, st.template.GetStackName⟩ j
        (initialChangeSet api st.template csName body w).world) = true)
    (hfirst : nthDescribeChangeSet api ⟨csName, st.template.GetStackName⟩ k
        (initialChangeSet api st.template csName body w).world
      = (some ⟨ChangeSetStatusFailed, some EmptyChangeSet⟩, none))
    (hdelete : (api.DeleteChangeSet ⟨csName, st.template.GetStackName⟩
      (afterDescribeChangeSets api ⟨csName, st.template.GetStackName⟩ (k + 1)
        (initialChangeSet api st.template csName body w).world)).1 = none) :
    deleteChangeSetCalls (Run sdk csName st w).calls
      = [(⟨csName, st.template.GetStackName⟩, none)] ∧
    (createChangeSetCalls (Run sdk csName st w).calls).map (fun c => c.1.ChangeSetName)
      = [csName] ∧
    (Run sdk csName st w).out = .ret none ∧
    executeChangeSetCalls (Run sdk csName st w).calls = [] ∧
    describeChangeSetResponses (Run sdk csName st w).calls
      = (List.range (k + 1)).map
          (fun j => nthDescribeChangeSet api ⟨csName, st.template.GetStackName⟩ j
            (initialChangeSet api st.template csName body w).world) := by
  obtain ⟨hwout, hwcalls⟩ := waitForChangeSet_script_noop api st.template csName _ k hk
    hpending hfirst hdelete
  obtain ⟨hout, hcalls⟩ := (Run_of_created sdk csName st w api body csType hclient hjson
    hcreate).1 hwout
  obtain ⟨probe, inp, hic, hname⟩ :=
    initialChangeSet_calls_of_ok api st.template csName body csType w hcreate
  obtain ⟨p1, p2, p3, p4⟩ := polls_projections ⟨csName, st.template.GetStackName⟩ (k + 1)
    (fun j => nthDescribeChangeSet api ⟨csName, st.template.GetStackName⟩ j
      (initialChangeSet api st.template csName body w).world)
  rw [hcalls, hwcalls, hic]
  refine ⟨?_, ?_, hout, ?_, ?_⟩
  · unfold deleteChangeSetCalls at p2 ⊢
    rw [List.filterMap_append, List.filterMap_append, p2]
    rfl
  · unfold createChangeSetCalls at p1 ⊢
    rw [List.filterMap_append, List.filterMap_append, p1]
    simp [Call.createChangeSet?, hname]
  · unfold executeChangeSetCalls at p3 ⊢
    rw [List.filterMap_append, List.filterMap_append, p3]
    rfl
  · unfold describeChangeSetResponses at p4 ⊢
    rw [List.filterMap_append, List.filterMap_append, p4]
    simp [Call.describeChangeSet?]

/-- C2, amended. Failed changeset within the budget. Let `Run` have its client, a template
that serialises, and let the client accept `CreateChangeSet`. From the world after that
call, let the client answer the successive `DescribeChangeSet` calls so that the answers
`0` to `k - 1` are successful with a status that is neither CREATE_COMPLETE nor FAILED, and
the answer `k`, with `k < 30`, is FAILED with a reason `m` other than `EmptyChangeSet`.
Then `Run` returns the error "change set creation failed: " followed by `m`, its
`DescribeChangeSet` calls are exactly those answered by the answers `0` to `k` (none after
the decisive one), and it calls neither `ExecuteChangeSet` nor `DeleteChangeSet`. -/
theorem Run_failed_changeset {σ : Type} (sdk : AwsSDK σ) (csName : String) (st : Stack σ)
    (w : σ) (api : CloudFormationAPI σ) (body csType : String) (k : Nat) (m : String)
    (hm : m ≠ EmptyChangeSet)
    (hclient : st.cloudFormationClient = some api ∨
      (st.cloudFormationClient = none ∧
        (if st.template.GetRegion ≠ "" then
          sdk.NewFromDefaultConfig (some st.template.GetRegion)
        else sdk.NewFromDefaultConfig none) = .ok api))
    (hjson : st.template.BuildJSON = .ok body)
    (hcreate : (initialChangeSet api st.template csName body w).out
      = .ret (csName, csType, none))
    (hk : k < 30)
    (hpending : ∀ j, j < k →
      changeSetPending (nthDescribeChangeSet api ⟨csName, st.template.GetStackName⟩ j
        (initialChangeSet api st.template csName body w).world) = true)
    (hfirst : nthDescribeChangeSet api ⟨csName, st.template.GetStackName⟩ k
        (initialChangeSet api st.template csName body w).world
      = (some ⟨ChangeSetStatusFailed, some m⟩, none)) :
    (Run sdk csName st w).out
      = .ret (some (Errorf ("change set creation failed: " ++ m))) ∧
    describeChangeSetResponses (Run sdk csName st w).calls
      = (List.range (k + 1)).map
          (fun j => nthDescribeChangeSet api ⟨csName, st.template.GetStackName⟩ j
            (initialChangeSet api st.template csName body w).world) ∧
    executeChangeSetCalls (Run sdk csName st w).calls = [] ∧
    deleteChangeSetCalls (Run sdk csName st w).calls = [] := by
  obtain ⟨hwout, hwcalls⟩ := waitForChangeSet_script_failed api st.template csName _ k m hk
    hpending hfirst hm
  obtain ⟨hout, hcalls⟩ := (Run_of_created sdk csName st w api body csType hclient hjson
    hcreate).2.1 false _ hwout
  obtain ⟨probe, inp, hic, -⟩ :=
    initialChangeSet_calls_of_ok api st.template csName body csType w hcreate
  obtain ⟨-, p2, p3, p4⟩ := polls_projections ⟨csName, st.template.GetStackName⟩ (k + 1)
    (fun j => nthDescribeChangeSet api ⟨csName, st.template.GetStackName⟩ j
      (initialChangeSet api st.template csName body w).world)
  rw [hcalls, hwcalls, hic]
  refine ⟨hout, ?_, ?_, ?_⟩
  · unfold describeChangeSetResponses at p4 ⊢
    rw [List.filterMap_append, p4]
    simp [Call.describeChangeSet?]
  · unfold executeChangeSetCalls at p3 ⊢
    rw [List.filterMap_append, p3]
    rfl
  · unfold deleteChangeSetCalls at p2 ⊢
    rw [List.filterMap_append, p2]
    rfl

/-- C3. Ready changeset. When the client answers the successive `DescribeChangeSet` calls
so that the answers `0` to `k - 1` are successful with a status that is neither
CREATE_COMPLETE nor FAILED, and the answer `k`, with `k < 30`, is CREATE_COMPLETE, then
`waitForChangeSet` returns `(false, nil)` after exactly the calls answered by the answers
`0` to `k`. And when `Run` has its client, a template that serialises, an accepted
`CreateChangeSet`, and the client answers so from the world after that call, `Run`
proceeds to execution: it calls `ExecuteChangeSet` exactly once, with the changeset name
it gave to `CreateChangeSet`, and never calls `DeleteChangeSet`. -/
theorem Run_ready_changeset {σ : Type} :
    (∀ (api : CloudFormationAPI σ) (t : Template) (csName : String) (w : σ) (k : Nat)
        (d : DescribeChangeSetOutput),
      k < 30 →
      (∀ j, j < k →
        changeSetPending (nthDescribeChangeSet api ⟨csName, t.GetStackName⟩ j w) = true) →
      nthDescribeChangeSet api ⟨csName, t.GetStackName⟩ k w = (some d, none) →
      d.Status = ChangeSetStatusCreateComplete →
      (waitForChangeSet api t csName w).out = .ret (false, none) ∧
      describeChangeSetResponses (waitForChangeSet api t csName w).calls
        = (List.range (k + 1)).map
            (fun j => nthDescribeChangeSet api ⟨csName, t.GetStackName⟩ j w)) ∧
    (∀ (sdk : AwsSDK σ) (csName : String) (st : Stack σ) (w : σ)
        (api : CloudFormationAPI σ) (body csType : String) (k : Nat)
        (d : DescribeChangeSetOutput),
      (st.cloudFormationClient = some api ∨
        (st.cloudFormationClient = none ∧
          (if st.template.GetRegion ≠ "" then
            sdk.NewFromDefaultConfig (some st.template.GetRegion)
          else sdk.NewFromDefaultConfig none) = .ok api)) →
      st.template.BuildJSON = .ok body →
      (initialChangeSet api st.template csName body w).out = .ret (csName, csType, none) →
      k < 30 →
      (∀ j, j < k →
        changeSetPending (nthDescribeChangeSet api ⟨csName, st.template.GetStackName⟩ j
          (initialChangeSet api st.template csName body w).world) = true) →
      nthDescribeChangeSet api ⟨csName, st.template.GetStackName⟩ k
          (initialChangeSet api st.template csName body w).world = (some d, none) →
      d.Status = ChangeSetStatusCreateComplete →
      (createChangeSetCalls (Run sdk csName st w).calls).map (fun c => c.1.ChangeSetName)
        = [csName] ∧
      (executeChangeSetCalls (Run sdk csName st w).calls).map (fun c => c.1)
        = [⟨csName, csName, st.template.GetStackName⟩] ∧
      deleteChangeSetCalls (Run sdk csName st w).calls = [] ∧
      describeChangeSetResponses (Run sdk csName st w).calls
        = (List.range (k + 1)).map
            (fun j => nthDescribeChangeSet api ⟨csName, st.template.GetStackName⟩ j
              (initialChangeSet api st.template csName body w).world)) := by
  constructor
  · intro api t csName w k d hk hpending hfirst hs
    obtain ⟨hwout, hwcalls, -⟩ := waitForChangeSet_script_ready api t csName w k d hk
      hpending hfirst hs
    refine ⟨hwout, ?_⟩
    rw [hwcalls]
    exact (polls_projections ⟨csName, t.GetStackName⟩ (k + 1) _).2.2.2
  · intro sdk csName st w api body csType k d hclient hjson hcreate hk hpending hfirst hs
    obtain ⟨hwout, hwcalls, -⟩ := waitForChangeSet_script_ready api st.template csName _ k d
      hk hpending hfirst hs
    have hcalls := (Run_of_created sdk csName st w api body csType hclient hjson
      hcreate).2.2 hwout
    obtain ⟨probe, inp, hic, hname⟩ :=
      initialChangeSet_calls_of_ok api st.template csName body csType w hcreate
    obtain ⟨p1, p2, p3, p4⟩ := polls_projections ⟨csName, st.template.GetStackName⟩ (k + 1)
      (fun j => nthDescribeChangeSet api ⟨csName, st.template.GetStackName⟩ j
        (initialChangeSet api st.template csName body w).world)
    obtain ⟨e1, e2, e3, e4⟩ := executeChangeSet_projections api st.template csName csType
      (waitForChangeSet api st.template csName
        (initialChangeSet api st.template csName body w).world).world
    rw [hcalls, hwcalls, hic]
    refine ⟨?_, ?_, ?_, ?_⟩
    · unfold createChangeSetCalls at p1 e2 ⊢
      rw [List.filterMap_append, List.filterMap_append, p1, e2]
      simp [Call.createChangeSet?, hname]
    · unfold executeChangeSetCalls at p3 e4 ⊢
      rw [List.filterMap_append, List.filterMap_append, p3, List.map_append, e4]
      rfl
    · unfold deleteChangeSetCalls at p2 e3 ⊢
      rw [List.filterMap_append, List.filterMap_append, p2, e3]
      rfl
    · unfold describeChangeSetResponses at p4 e1 ⊢
      rw [List.filterMap_append, List.filterMap_append, p4, e1]
      simp [Call.describeChangeSet?]

end ChangeSetClaims

section ChangeSetWitnesses

/-- C1 on the stack of the tests and a client that reports the changeset in progress and
then FAILED with the `EmptyChangeSet` reason: one `DeleteChangeSet` call, nil returned, no
`ExecuteChangeSet` call, two `DescribeChangeSet` calls. -/
theorem Run_noop_changeset_witness :
    deleteChangeSetCalls (Run noSDK "cs-1" (mockStack scripted []) noopScript).calls
      = [(⟨"cs-1", "mock-stack"⟩, none)] ∧
    (Run noSDK "cs-1" (mockStack scripted []) noopScript).out = .ret none ∧
    executeChangeSetCalls (Run noSDK "cs-1" (mockStack scripted []) noopScript).calls = [] ∧
    (describeChangeSetResponses
      (Run noSDK "cs-1" (mockStack scripted []) noopScript).calls).length = 2 :=
  ⟨(Run_noop_changeset noSDK "cs-1" (mockStack scripted []) noopScript scripted "{}-body"
      "CREATE" 1 (Or.inl rfl) rfl (by decide) (by decide) (by decide) (by decide)
      (by decide)).1,
    (Run_noop_changeset noSDK "cs-1" (mockStack scripted []) noopScript scripted "{}-body"
      "CREATE" 1 (Or.inl rfl) rfl (by decide) (by decide) (by decide) (by decide)
      (by decide)).2.2.1,
    (Run_noop_changeset noSDK "cs-1" (mockStack scripted []) noopScript scripted "{}-body"
      "CREATE" 1 (Or.inl rfl) rfl (by decide) (by decide) (by decide) (by decide)
      (by decide)).2.2.2.1,
    by decide⟩

/-- The amended C2 on the stack of the tests and a client that reports the changeset in
progress and then FAILED with the reason "boom". -/
theorem Run_failed_changeset_witness :
    (Run noSDK "cs-1" (mockStack scripted []) failedScript).out
      = .ret (some (Errorf ("change set creation failed: " ++ "boom"))) ∧
    executeChangeSetCalls (Run noSDK "cs-1" (mockStack scripted []) failedScript).calls = [] ∧
    deleteChangeSetCalls (Run noSDK "cs-1" (mockStack scripted []) failedScript).calls = [] ∧
    (describeChangeSetResponses
      (Run noSDK "cs-1" (mockStack scripted []) failedScript).calls).length = 2 :=
  ⟨(Run_failed_changeset noSDK "cs-1" (mockStack scripted []) failedScript scripted "{}-body"
      "CREATE" 1 "boom" (by decide) (Or.inl rfl) rfl (by decide) (by decide) (by decide)
      (by decide)).1,
    (Run_failed_changeset noSDK "cs-1" (mockStack scripted []) failedScript scripted "{}-body"
      "CREATE" 1 "boom" (by decide) (Or.inl rfl) rfl (by decide) (by decide) (by decide)
      (by decide)).2.2.1,
    (Run_failed_changeset noSDK "cs-1" (mockStack scripted []) failedScript scripted "{}-body"
      "CREATE" 1 "boom" (by decide) (Or.inl rfl) rfl (by decide) (by decide) (by decide)
      (by decide)).2.2.2,
    by decide⟩

/-- C3 on the stack of the tests and a client that reports the changeset in progress and
then CREATE_COMPLETE: `waitForChangeSet` returns `(false, nil)`, and `Run` calls
`ExecuteChangeSet` once, for the changeset "cs-1", and never `DeleteChangeSet`. -/
theorem Run_ready_changeset_witness :
    (waitForChangeSet scripted (MockTemplate "mock-stack" "us-east-1" "{}-body") "cs-1"
      readyScript).out = .ret (false, none) ∧
    (executeChangeSetCalls (Run noSDK "cs-1" (mockStack scripted []) readyScript).calls).map
      (fun c => c.1) = [⟨"cs-1", "cs-1", "mock-stack"⟩] ∧
    deleteChangeSetCalls (Run noSDK "cs-1" (mockStack scripted []) readyScript).calls = [] ∧
    (Run noSDK "cs-1" (mockStack scripted []) readyScript).out = .ret none :=
  ⟨((@Run_ready_changeset Script).1 scripted (MockTemplate "mock-stack" "us-east-1" "{}-body")
      "cs-1" readyScript 1 ⟨ChangeSetStatusCreateComplete, none⟩ (by decide) (by decide)
      (by decide) rfl).1,
    ((@Run_ready_changeset Script).2 noSDK "cs-1" (mockStack scripted []) readyScript scripted
      "{}-body" "CREATE" 1 ⟨ChangeSetStatusCreateComplete, none⟩ (Or.inl rfl) rfl (by decide)
      (by decide) (by decide) (by decide) rfl).2.1,
    ((@Run_ready_changeset Script).2 noSDK "cs-1" (mockStack scripted []) readyScript scripted
      "{}-body" "CREATE" 1 ⟨ChangeSetStatusCreateComplete, none⟩ (Or.inl rfl) rfl (by decide)
      (by decide) (by decide) (by decide) rfl).2.2.1,
    by decide⟩

end ChangeSetWitnesses

end Haws
